import Mathlib

/-!
The keep-alive-worker scheduling and probe engine.

A shallow embedding of the wakeup engine of `src/server.js` (the long-running
shell) and `src/worker.js` (the edge shell).

Modelling conventions

* Instants are integer milliseconds since the epoch (`Int`), the value of
  `Date.prototype.getTime()`.  An ISO string written by `toISOString()` and read
  back by `new Date(s).getTime()` is identified with that integer.  Arithmetic on
  instants and intervals is exact: the model does not round to a double.  A
  `Date` holds an instant of at most 8.64e15 milliseconds on either side of the
  epoch; `toISOString()` raises a `RangeError` outside that range, and the model
  follows that path wherever the source formats a computed instant.
* A nullable field is an `Option`; `none` is the absent / `null` value.
* The division of two numbers is the exact quotient in `ℚ`; `Math.floor` is
  `Int.floor`.  A division by `0` makes the source compute `NaN`; the place
  where that `NaN` raises is modelled explicitly.
* The network is a parameter: `fetch i` is what the `i`-th request of a probe
  observes (`i` counted from `1`).
* The store is a state that the store methods pass along; random codes and
  clock readings are drawn from streams held in that state.  The store answers
  every command.
* Strings are the literals of the source.  `startsWith('http')` is the test that
  the first four characters are `h`, `t`, `t`, `p`.
-/

namespace KeepAlive

/-! ## Data model -/

/-- The JSON object stored under `domain:<name>`.  `nextCheckTime` is a field of
the object that `getDomainConfig` returns; the writers of the key serialise that
whole object, so the field is part of the stored shape too. -/
structure DomainConfig where
  interval : Int
  lastChecked : Option Int
  nextCheckTime : Option Int
  deriving DecidableEq, Repr

/-- The literal `{ interval: 5 }` that `getDomainConfig` returns when nothing is
stored and when its `try` block raises. -/
def defaultDomainConfig : DomainConfig :=
  { interval := 5, lastChecked := none, nextCheckTime := none }

/-- One element of the stored registry list (key `domains`). -/
structure DomainEntry where
  domain : String
  verificationCode : String
  addedAt : Int
  deriving DecidableEq, Repr

/-- One element of the list built by `getAllDomainConfigs`. -/
structure DomainSummary extends DomainConfig where
  domain : String
  deriving DecidableEq, Repr

/-! ## Due scheduler (`server.js`) -/

/-- The largest instant that a `Date` holds, in milliseconds from the epoch:
`new Date(t)` is an invalid date when `t` lies further than this from `0`. -/
def maxDate : Int := 8640000000000000

/-- Whether `new Date(t)` is a valid date. -/
def validDate (t : Int) : Bool :=
  decide (-maxDate ≤ t ∧ t ≤ maxDate)

/-- `new Date(t).toISOString()`: the instant that the string written denotes, and
`none` for the `RangeError` that an invalid date raises. -/
def toISOString (t : Int) : Option Int :=
  if validDate t then some t else none

/-- The statement `config.nextCheckTime = new Date(t).toISOString()` followed by
`return config`, inside the `try` of `getDomainConfig` (server.js 107, 109, 113,
115): a `RangeError` of `toISOString` is caught at 117-120, which answers
`{ interval: 5 }`. -/
def setNextCheckTime (config : DomainConfig) (t : Int) : DomainConfig :=
  match toISOString t with
  | some nextCheckTime => { config with nextCheckTime := some nextCheckTime }
  | none => defaultDomainConfig

/-- `RedisClient.getDomainConfig` (server.js 86-121), after the read of the key:
`value` is the parsed stored object, `none` when the key holds nothing, and `now`
is `new Date().getTime()`.

With `lastChecked` present and `intervalInMs = 0` the quotient is `±Infinity` or
`NaN`, `nextCheckTime` is `NaN`, the comparison `NaN <= now` is false and
`new Date(NaN).toISOString()` raises a `RangeError`, which the `catch` turns into
`{ interval: 5 }`.  The same `catch` answers when the instant to format lies
outside the range of a `Date`. -/
def getDomainConfig (value : Option DomainConfig) (now : Int) : DomainConfig :=
  match value with
  | none => defaultDomainConfig
  | some config =>
    match config.lastChecked with
    | some lastCheckedTime =>
      let timeSinceLastCheck : Int := now - lastCheckedTime
      let intervalInMs : Int := config.interval * 60 * 1000
      if intervalInMs = 0 then
        defaultDomainConfig
      else
        let completedIntervals : Int :=
          Int.floor ((timeSinceLastCheck : ℚ) / (intervalInMs : ℚ))
        let nextCheckTime : Int := lastCheckedTime + (completedIntervals + 1) * intervalInMs
        if nextCheckTime ≤ now then
          setNextCheckTime config (now + intervalInMs)
        else
          setNextCheckTime config nextCheckTime
    | none =>
      setNextCheckTime config (now + config.interval * 60 * 1000)

/-- The body of the loop of `RedisClient.getAllDomainConfigs` (server.js 128-136):
`config.interval || 5` replaces a zero interval by `5`. -/
def summarize (domain : String) (config : DomainConfig) : DomainSummary :=
  { domain := domain
    interval := if config.interval = 0 then 5 else config.interval
    lastChecked := config.lastChecked
    nextCheckTime := config.nextCheckTime }

/-- `RedisClient.getAllDomainConfigs` (server.js 123-143): `store` is the content
of the per-domain keys and `clock i` the instant read by the `i`-th call of
`getDomainConfig`. -/
def getAllDomainConfigsFrom (store : String → Option DomainConfig) (clock : Nat → Int) :
    Nat → List DomainEntry → List DomainSummary
  | _, [] => []
  | i, domainEntry :: rest =>
    summarize domainEntry.domain (getDomainConfig (store domainEntry.domain) (clock i))
      :: getAllDomainConfigsFrom store clock (i + 1) rest

/-- `RedisClient.getAllDomainConfigs`, from the first read on. -/
def getAllDomainConfigs (store : String → Option DomainConfig) (clock : Nat → Int)
    (domains : List DomainEntry) : List DomainSummary :=
  getAllDomainConfigsFrom store clock 0 domains

/-- `shouldCheckDomain` (server.js 1408-1419): the due test of the scheduled
runner. -/
def shouldCheckDomain (domainConfig : DomainConfig) (currentTime : Int) : Bool :=
  match domainConfig.lastChecked with
  | none => true
  | some lastChecked =>
    let minutesSinceLastCheck : ℚ := ((currentTime - lastChecked : Int) : ℚ) / (1000 * 60)
    decide (minutesSinceLastCheck ≥ (domainConfig.interval : ℚ))

/-! ## Wakeup probe (`server.js` 339-400, `worker.js` 164-204) -/

/-- An element of `config.domains`.  With a registry the elements are the
`domain` strings of the entries; from `TARGET_DOMAINS` they are the elements of a
parsed JSON array, which need not be strings.  Arrays and objects are left out:
they are truthy and have no `startsWith`, like a non-zero number. -/
inductive JsValue where
  | str (s : String)
  | num (n : Int)
  | bool (b : Bool)
  | null
  deriving DecidableEq, Repr

/-- JavaScript truthiness of a `JsValue`. -/
def JsValue.truthy : JsValue → Bool
  | .str s => s ≠ ""
  | .num n => n ≠ 0
  | .bool b => b
  | .null => false

/-- A thrown exception, reduced to its `message`. -/
structure JsError where
  message : String
  deriving DecidableEq, Repr

/-- What one `fetch` call observes: a response with its status code, or a thrown
transport error with its message. -/
inductive FetchResult where
  | response (status : Nat)
  | failure (message : String)
  deriving DecidableEq, Repr

/-- `Response.ok`: the status is in the range 200-299. -/
def responseOk (status : Nat) : Bool :=
  decide (200 ≤ status ∧ status ≤ 299)

/-- The value of `lastKnownError` in `performWakeup`. -/
inductive LastKnownError where
  | http_error (code : Nat)
  | network_error (message : String)
  deriving DecidableEq, Repr

/-- The object returned by a probe and listed in a task report. -/
structure TaskOutcome where
  domain : JsValue
  status : String
  statusCode : Option Nat
  attempts : Int
  error : Option String
  deriving DecidableEq, Repr

/-- The argument that `performWakeup` passes to `saveDomainLog`; the success log
has no `error` field. -/
structure LogData where
  status : String
  statusCode : Option Nat
  url : String
  attempts : Int
  error : Option String
  deriving DecidableEq, Repr

/-- The observable actions of one probe, in program order. -/
inductive ProbeEvent where
  | request (url : String)
  | sleep (milliseconds : Int)
  | saveDomainLog (domain : String) (logData : LogData)
  deriving DecidableEq, Repr

/-- The object returned by `initializeConfig`.  `redisClient` tells whether a
registry client is attached (always `false` in `worker.js`, whose `performWakeup`
saves no log). -/
structure Config where
  domains : List JsValue
  retries : Int
  delay : Int
  userAgent : String
  error : Option String
  redisClient : Bool
  deriving DecidableEq, Repr

/-- The template literal built from the last HTTP status code (server.js 385,
worker.js 202). -/
def httpErrorString (code : Nat) : String :=
  "HTTP 错误: " ++ toString code

/-- How the `while` loop of `performWakeup` is left: by the `return` inside it, or
by its guard becoming false. -/
inductive LoopExit where
  | returned (outcome : TaskOutcome)
  | exhausted (attempts : Nat) (lastKnownError : Option LastKnownError)
  deriving DecidableEq, Repr

/-- The tail of one loop iteration that did not return: the conditional sleep. -/
def retrySleep (config : Config) (attempts : Nat) : List ProbeEvent :=
  if (attempts : Int) ≤ config.retries then [ProbeEvent.sleep config.delay] else []

/-- The `while (attempts <= config.retries)` loop of `performWakeup`, entered with
the given `attempts` and `lastKnownError`.  The result pairs the way the loop is
left with the actions performed from here on.  The loop ends because
`config.retries + 1 - attempts` decreases at every iteration. -/
def wakeupLoop (fetch : Nat → FetchResult) (domain url : String) (config : Config)
    (attempts : Nat) (lastKnownError : Option LastKnownError) : LoopExit × List ProbeEvent :=
  if _h : (attempts : Int) ≤ config.retries then
    let attempts := attempts + 1
    match fetch attempts with
    | .response status =>
      if responseOk status then
        let log :=
          if config.redisClient then
            [ProbeEvent.saveDomainLog domain
              { status := "成功", statusCode := some status, url := url,
                attempts := attempts, error := none }]
          else []
        (.returned { domain := .str domain, status := "成功", statusCode := some status,
                     attempts := attempts, error := none },
         ProbeEvent.request url :: log)
      else
        let r := wakeupLoop fetch domain url config attempts (some (.http_error status))
        (r.1, ProbeEvent.request url :: (retrySleep config attempts ++ r.2))
    | .failure message =>
      let r := wakeupLoop fetch domain url config attempts (some (.network_error message))
      (r.1, ProbeEvent.request url :: (retrySleep config attempts ++ r.2))
  else
    (.exhausted attempts lastKnownError, [])
termination_by (config.retries + 1 - attempts).toNat
decreasing_by
  all_goals simp_wf
  all_goals omega

/-- The code of `performWakeup` after its loop: the failure outcome and the
failure log. -/
def failureOutcome (domain url : String) (config : Config) (attempts : Nat)
    (lastKnownError : Option LastKnownError) : TaskOutcome × List ProbeEvent :=
  let statusCode : Option Nat :=
    match lastKnownError with
    | some (.http_error code) => some code
    | _ => none
  let error : String :=
    match lastKnownError with
    | some (.http_error code) => httpErrorString code
    | some (.network_error message) => message
    | none => "未知错误"
  let result : TaskOutcome :=
    { domain := .str domain, status := "失败", statusCode := statusCode,
      attempts := attempts, error := some error }
  let log :=
    if config.redisClient then
      [ProbeEvent.saveDomainLog domain
        { status := "失败", statusCode := statusCode, url := url,
          attempts := attempts, error := some error }]
    else []
  (result, log)

/-- One run of a probe: the settled promise (`Except.error` is a rejection) and
the actions performed. -/
structure ProbeRun where
  result : Except JsError TaskOutcome
  events : List ProbeEvent
  deriving Repr

/-- The `TypeError` of `domain.startsWith(...)` on a value that is not a string
(messages of V8, the engine of both shells). -/
def startsWithTypeError : JsValue → JsError
  | .null => { message := "Cannot read properties of null (reading \x27startsWith\x27)" }
  | _ => { message := "domain.startsWith is not a function" }

/-- `domain.startsWith('http')`: the first four characters of the domain are
`h`, `t`, `t`, `p`. -/
def startsWithHttp (domain : String) : Bool :=
  "http".toList.isPrefixOf domain.toList

/-- The `url` of `performWakeup`: the domain itself when it starts with `http`,
else the domain behind `https://`. -/
def wakeupUrl (domain : String) : String :=
  if startsWithHttp domain then domain else "https://" ++ domain

/-- `performWakeup(domain, config)`. -/
def performWakeup (domain : JsValue) (config : Config) (fetch : Nat → FetchResult) : ProbeRun :=
  match domain with
  | .str domain =>
    let url := wakeupUrl domain
    match wakeupLoop fetch domain url config 0 none with
    | (.returned outcome, events) => { result := .ok outcome, events := events }
    | (.exhausted attempts lastKnownError, events) =>
      let r := failureOutcome domain url config attempts lastKnownError
      { result := .ok r.1, events := events ++ r.2 }
  | other => { result := .error (startsWithTypeError other), events := [] }

/-! ## Task runner (`server.js` 402-427, `worker.js` 206-231) -/

/-- The object returned by `executeAllWakeups`. -/
structure TaskReport where
  summary : String
  outcomes : List TaskOutcome
  deriving DecidableEq, Repr

/-- Truthiness of `config.error`: a non-empty string. -/
def Config.hasError (config : Config) : Bool :=
  match config.error with
  | some message => message ≠ ""
  | none => false

/-- The callback of `settledOutcomes.map` in `executeAllWakeups`: a fulfilled
task gives its value, a rejected one a system-error outcome. -/
def finalOutcome (config : Config) (outcome : Except JsError TaskOutcome) (index : Nat) :
    TaskOutcome :=
  match outcome with
  | .ok value => value
  | .error reason =>
    { domain :=
        match config.domains[index]? with
        | some domain => if domain.truthy then domain else .str "未知域名"
        | none => .str "未知域名"
      status := "系统错误"
      statusCode := none
      attempts := config.retries + 1
      error := some (if reason.message ≠ "" then reason.message else "一个未知的系统级错误发生") }

/-- `settledOutcomes.map((outcome, index) => ...)`, from position `index` on. -/
def finalOutcomesFrom (config : Config) :
    Nat → List (Except JsError TaskOutcome) → List TaskOutcome
  | _, [] => []
  | index, outcome :: rest =>
    finalOutcome config outcome index :: finalOutcomesFrom config (index + 1) rest

/-- `config.domains.map(domain => performWakeup(domain, config))` once settled,
from position `index` on; `fetch index` is the network as seen by the task at
that position. -/
def settledOutcomesFrom (config : Config) (fetch : Nat → Nat → FetchResult) :
    Nat → List JsValue → List (Except JsError TaskOutcome)
  | _, [] => []
  | index, domain :: rest =>
    (performWakeup domain config (fetch index)).result
      :: settledOutcomesFrom config fetch (index + 1) rest

/-- The `summary` template literal of `executeAllWakeups`. -/
def processedSummary (count : Nat) : String :=
  "已处理 " ++ toString count ++ " 个域名。"

/-- `executeAllWakeups(config)`. -/
def executeAllWakeups (config : Config) (fetch : Nat → Nat → FetchResult) : TaskReport :=
  if config.hasError then
    { summary := config.error.getD "", outcomes := [] }
  else
    let settledOutcomes := settledOutcomesFrom config fetch 0 config.domains
    let finalOutcomes := finalOutcomesFrom config 0 settledOutcomes
    { summary := processedSummary config.domains.length, outcomes := finalOutcomes }

/-! ## Key-value store (`RedisClient` of `server.js`, `DomainStorage` of `worker.js`)

The store answers every command: a failed `get`, `set` or `del`, which the
methods catch and degrade, is not modelled.  The key `domains` is a field of its
own, since no per-domain key `domain:<name>` can equal it
(`registryKey_ne_configKey`); the per-domain keys share one key space, in which
`domain:<name>:logs` is both the log key of `<name>` and the config key of
`<name>:logs`. -/

/-- One element of the list stored under `domain:<name>:logs`: the `logData` given
to `saveDomainLog` behind a `timestamp`. -/
structure LogEntry where
  timestamp : Int
  status : String
  statusCode : Option Nat
  url : String
  attempts : Int
  error : Option String
  deriving DecidableEq, Repr

/-- The parsed value of the key `domains`: the list of entries, or the legacy
format, a non-empty list of bare domain strings. -/
inductive RegistryValue where
  | entries (list : List DomainEntry)
  | legacy (first : String) (rest : List String)
  deriving DecidableEq, Repr

/-- The parsed value of a per-domain key: a config object or a log array. -/
inductive StoredValue where
  | config (config : DomainConfig)
  | logs (logs : List LogEntry)
  deriving DecidableEq, Repr

/-- The state that the store methods read and write: the key space, the
environment variable `ADMIN_VERIFICATION_CODE`, the stream of values that
`generateVerificationCode` draws and the stream of instants that `new Date()`
reads, each with the number of values consumed so far. -/
structure World where
  domains : Option RegistryValue
  keys : String → Option StoredValue
  adminCode : Option String
  codes : Nat → String
  drawn : Nat
  clock : Nat → Int
  ticks : Nat

/-- The key of the registry list. -/
def registryKey : String := "domains"

/-- The template literal of the config key of a domain. -/
def configKey (domain : String) : String := "domain:" ++ domain

/-- The template literal of the log key of a domain. -/
def logsKey (domain : String) : String := "domain:" ++ domain ++ ":logs"

/-- `new Date()`: the next instant of the clock. -/
def World.now (w : World) : Int × World :=
  (w.clock w.ticks, { w with ticks := w.ticks + 1 })

/-- `client.set(key, JSON.stringify(value))` on a per-domain key. -/
def World.set (w : World) (key : String) (value : StoredValue) : World :=
  { w with keys := Function.update w.keys key (some value) }

/-- `client.del(key)` on a per-domain key. -/
def World.del (w : World) (key : String) : World :=
  { w with keys := Function.update w.keys key none }

/-- `generateVerificationCode`: the next value of the random stream. -/
def generateVerificationCode (w : World) : String × World :=
  (w.codes w.drawn, { w with drawn := w.drawn + 1 })

/-- `setDomains(domains)` (server.js 222-230, worker.js 92-100). -/
def setDomains (domains : List DomainEntry) (w : World) : Bool × World :=
  (true, { w with domains := some (.entries domains) })

/-- The `domains.map(...)` of `getDomains` on a legacy list: one generated code
and one clock reading per name, in list order. -/
def upgradeLegacy : List String → World → List DomainEntry × World
  | [], w => ([], w)
  | domain :: rest, w =>
    let code := generateVerificationCode w
    let addedAt := code.2.now
    let tail := upgradeLegacy rest addedAt.2
    ({ domain := domain, verificationCode := code.1, addedAt := addedAt.1 } :: tail.1, tail.2)

/-- `getDomains()` (server.js 59-79, worker.js 21-41): the stored list, upgraded
and written back when it is in the legacy format. -/
def getDomains (w : World) : List DomainEntry × World :=
  match w.domains with
  | none => ([], w)
  | some (.entries list) => (list, w)
  | some (.legacy first rest) =>
    let upgraded := upgradeLegacy (first :: rest) w
    (upgraded.1, (setDomains upgraded.1 upgraded.2).2)

/-- `Array.prototype.findIndex`, with `none` for `-1`. -/
def findIndex {α : Type} (p : α → Bool) : List α → Option Nat
  | [] => none
  | a :: rest => if p a then some 0 else (findIndex p rest).map (· + 1)

/-- `Array.prototype.slice(start)` for an integer `start`: from `length + start`
(at least 0) when `start` is negative, from `start` otherwise. -/
def jsSlice {α : Type} (start : Int) (l : List α) : List α :=
  if start < 0 then l.drop ((l.length : Int) + start).toNat else l.drop start.toNat

/-- What `addDomain` returns. -/
structure AddResult where
  success : Bool
  verificationCode : Option String
  error : Option String
  deriving DecidableEq, Repr

/-- What `removeDomain` returns. -/
structure RemoveResult where
  success : Bool
  error : Option String
  isAdmin : Option Bool
  deriving DecidableEq, Repr

/-- The literal returned by `removeDomain` on a code that matches nothing. -/
def wrongCodeError : String := "验证码错误，请检查后重试"

/-- The literal returned by `removeDomain` on a domain that is not listed. -/
def notFoundError : String := "域名不存在"

/-- `RedisClient.getDomainConfig(domain)` (server.js 86-121) on the store.  A log
array under the config key has no `lastChecked` and no `interval`, so the
never-checked branch builds an invalid date and the `catch` answers
`{ interval: 5 }`. -/
def RedisClient.getDomainConfig (domain : String) (w : World) : DomainConfig × World :=
  match w.keys (configKey domain) with
  | none => (defaultDomainConfig, w)
  | some (.config config) =>
    let now := w.now
    (KeepAlive.getDomainConfig (some config) now.1, now.2)
  | some (.logs _) =>
    let now := w.now
    (defaultDomainConfig, now.2)

/-- The number of binary digits of a natural number, by at most `fuel` halvings. -/
def bitLengthAux : Nat → Nat → Nat
  | 0, _ => 0
  | fuel + 1, n => if n = 0 then 0 else 1 + bitLengthAux fuel (n / 2)

/-- The number of binary digits of a natural number below `2 ^ 1100`. -/
def bitLength (n : Nat) : Nat :=
  bitLengthAux 1100 n

/-- The Number nearest to a natural number below `2 ^ 1024`: the value rounded to
53 binary digits, a tie going to the even one. -/
def toDouble (n : Nat) : Nat :=
  if bitLength n ≤ 53 then n
  else
    let shift := bitLength n - 53
    let quotient := n / 2 ^ shift
    let remainder := n % 2 ^ shift
    let half := 2 ^ (shift - 1)
    let rounded :=
      if half < remainder ∨ (remainder = half ∧ quotient % 2 = 1) then quotient + 1
      else quotient
    rounded * 2 ^ shift

/-- The number of decimal digits of a natural number, by at most `fuel`
divisions. -/
def decimalLengthAux : Nat → Nat → Nat
  | 0, _ => 0
  | fuel + 1, n => if n < 10 then 1 else 1 + decimalLengthAux fuel (n / 10)

/-- The number of decimal digits of a natural number below `10 ^ 400`. -/
def decimalLength (n : Nat) : Nat :=
  decimalLengthAux 400 n

/-- The first digit of the `k`-digit numeral `digits`; the numeral `10 ^ k`, which
a rounding upwards produces, starts with `1`. -/
def leadingDigit (digits k : Nat) : Nat :=
  if digits = 10 ^ k then 1 else digits / 10 ^ (k - 1)

/-- The first digit of the text that `Number::toString` writes for the Number `v`
of `length` decimal digits: the digits written are those of the shortest decimal
numeral that rounds to `v`, the nearest such numeral when two have that length;
the search starts at `k` digits.  Seventeen digits always suffice. -/
def shortestLeadingDigit (v length : Nat) : Nat → Nat → Nat
  | 0, _ => v / 10 ^ (length - 1)
  | fuel + 1, k =>
    let scale := 10 ^ (length - k)
    let low := v / scale
    let high := low + 1
    let lowOk := decide (toDouble (low * scale) = v)
    let highOk := decide (toDouble (high * scale) = v)
    if lowOk && highOk then
      if v - low * scale < high * scale - v then leadingDigit low k
      else if high * scale - v < v - low * scale then leadingDigit high k
      else if low % 2 = 0 then leadingDigit low k else leadingDigit high k
    else if lowOk then leadingDigit low k
    else if highOk then leadingDigit high k
    else shortestLeadingDigit v length fuel (k + 1)

/-- `parseInt(interval)` (server.js 164, 176) on a Number that is an integer: the
Number is first written as text and the leading integer of the text is read
back.  Below `10 ^ 21` the text is the decimal numeral of the Number, which reads
back as the Number.  From `10 ^ 21` on the text is in exponent form, `1e+21` or
`1.2345e+25`, and the reading stops at the `.` or the `e` after the first digit:
the result is that digit, with the sign. -/
def parseInt (n : Int) : Int :=
  if n.natAbs < 10 ^ 21 then n
  else
    n.sign *
      (shortestLeadingDigit (toDouble n.natAbs) (decimalLength (toDouble n.natAbs)) 17 1 : Nat)

/-- The end of `RedisClient.addDomain` (server.js 163-166), common to both
branches. -/
def RedisClient.addDomainConfig (domain : String) (interval : Int) (verificationCode : String)
    (w : World) : AddResult × World :=
  let config := RedisClient.getDomainConfig domain w
  ({ success := true, verificationCode := some verificationCode, error := none },
   config.2.set (configKey domain) (.config { config.1 with interval := parseInt interval }))

/-- `RedisClient.addDomain(domain, interval = 5)` (server.js 145-171); `interval`
is `none` when the argument is omitted. -/
def RedisClient.addDomain (domain : String) (interval : Option Int) (w : World) :
    AddResult × World :=
  let interval := interval.getD 5
  let domains := getDomains w
  match domains.1.find? (fun item => item.domain == domain) with
  | none =>
    let verificationCode := generateVerificationCode domains.2
    let addedAt := verificationCode.2.now
    let saved := setDomains
      (domains.1 ++ [{ domain := domain, verificationCode := verificationCode.1,
                       addedAt := addedAt.1 }]) addedAt.2
    RedisClient.addDomainConfig domain interval verificationCode.1 saved.2
  | some existingDomain =>
    RedisClient.addDomainConfig domain interval existingDomain.verificationCode domains.2

/-- `RedisClient.updateDomainInterval(domain, interval)` (server.js 173-183). -/
def RedisClient.updateDomainInterval (domain : String) (interval : Int) (w : World) :
    Bool × World :=
  let config := RedisClient.getDomainConfig domain w
  (true,
   config.2.set (configKey domain) (.config { config.1 with interval := parseInt interval }))

/-- `RedisClient.updateDomainLastChecked(domain)` (server.js 185-195). -/
def RedisClient.updateDomainLastChecked (domain : String) (w : World) : Bool × World :=
  let config := RedisClient.getDomainConfig domain w
  let now := config.2.now
  (true, now.2.set (configKey domain) (.config { config.1 with lastChecked := some now.1 }))

/-- `RedisClient.removeDomain(domain, verificationCode)` (server.js 197-220).  An
index without an element cannot occur; the source would raise there and answer
with the message of the exception. -/
def RedisClient.removeDomain (domain verificationCode : String) (w : World) :
    RemoveResult × World :=
  let domains := getDomains w
  match findIndex (fun item => item.domain == domain) domains.1 with
  | some index =>
    match domains.1[index]? with
    | some domainEntry =>
      let isAdminCode : Bool := decide (w.adminCode = some verificationCode)
      if !isAdminCode && domainEntry.verificationCode != verificationCode then
        ({ success := false, error := some wrongCodeError, isAdmin := none }, domains.2)
      else
        let saved := setDomains (domains.1.eraseIdx index) domains.2
        ({ success := true, error := none, isAdmin := some isAdminCode },
         saved.2.del (configKey domain))
    | none =>
      ({ success := false, error := some "Cannot read properties of undefined",
         isAdmin := none }, domains.2)
  | none => ({ success := false, error := some notFoundError, isAdmin := none }, domains.2)

/-- `RedisClient.getDomainLogs(domain, limit = 20)` (server.js 266-277); `limit`
is `none` when the argument is omitted.  A config object under the log key has no
`slice`, and the `catch` answers the empty list. -/
def RedisClient.getDomainLogs (domain : String) (limit : Option Int) (w : World) :
    List LogEntry :=
  let limit := limit.getD 20
  match w.keys (logsKey domain) with
  | none => []
  | some (.logs allLogs) => (jsSlice (-limit) allLogs).reverse
  | some (.config _) => []

/-- `RedisClient.saveDomainLog(domain, logData)` (server.js 241-263). -/
def RedisClient.saveDomainLog (domain : String) (logData : LogData) (w : World) :
    Bool × World :=
  let now := w.now
  let logEntry : LogEntry :=
    { timestamp := now.1, status := logData.status, statusCode := logData.statusCode,
      url := logData.url, attempts := logData.attempts, error := logData.error }
  let logs := RedisClient.getDomainLogs domain (some 50) now.2 ++ [logEntry]
  let logs := if logs.length > 50 then logs.drop (logs.length - 50) else logs
  (true, now.2.set (logsKey domain) (.logs logs))

/-- `RedisClient.clearDomainLogs(domain)` (server.js 280-288). -/
def RedisClient.clearDomainLogs (domain : String) (w : World) : Bool × World :=
  (true, w.del (logsKey domain))

/-- `DomainStorage.addDomain(domain)` (worker.js 48-69). -/
def DomainStorage.addDomain (domain : String) (w : World) : AddResult × World :=
  let domains := getDomains w
  match domains.1.find? (fun item => item.domain == domain) with
  | none =>
    let verificationCode := generateVerificationCode domains.2
    let addedAt := verificationCode.2.now
    let saved := setDomains
      (domains.1 ++ [{ domain := domain, verificationCode := verificationCode.1,
                       addedAt := addedAt.1 }]) addedAt.2
    ({ success := true, verificationCode := some verificationCode.1, error := none }, saved.2)
  | some existingDomain =>
    ({ success := true, verificationCode := some existingDomain.verificationCode, error := none },
     domains.2)

/-- `DomainStorage.removeDomain(domain, verificationCode)` (worker.js 71-90). -/
def DomainStorage.removeDomain (domain verificationCode : String) (w : World) :
    RemoveResult × World :=
  let domains := getDomains w
  match findIndex (fun item => item.domain == domain) domains.1 with
  | some index =>
    match domains.1[index]? with
    | some domainEntry =>
      if domainEntry.verificationCode != verificationCode then
        ({ success := false, error := some wrongCodeError, isAdmin := none }, domains.2)
      else
        let saved := setDomains (domains.1.eraseIdx index) domains.2
        ({ success := true, error := none, isAdmin := none }, saved.2)
    | none =>
      ({ success := false, error := some "Cannot read properties of undefined",
         isAdmin := none }, domains.2)
  | none => ({ success := false, error := some notFoundError, isAdmin := none }, domains.2)

/-- The log array stored under the log key of a domain; empty when the key holds
no array. -/
def World.storedLogs (w : World) (domain : String) : List LogEntry :=
  match w.keys (logsKey domain) with
  | some (.logs allLogs) => allLogs
  | _ => []

/-- A sequence of `RedisClient.addDomain` calls for one domain, one per listed
interval argument, in list order. -/
def addDomainTimes (domain : String) : List (Option Int) → World → World
  | [], w => w
  | interval :: rest, w => addDomainTimes domain rest (RedisClient.addDomain domain interval w).2

/-- A sequence of `saveDomainLog` calls on one domain, in list order. -/
def saveDomainLogs (domain : String) : List LogData → World → World
  | [], w => w
  | logData :: rest, w => saveDomainLogs domain rest (RedisClient.saveDomainLog domain logData w).2

/-! ## Configuration (`initializeConfig`, server.js 291-337) -/

/-- The numeric environment variables after `parseInt(..., 10)`; `none` is `NaN`,
the result for an unset or non-numeric variable. -/
structure Environment where
  RETRY_COUNT : Option Int
  RETRY_DELAY : Option Int
  deriving DecidableEq, Repr

/-- The field `retryCount` of `DEFAULT_CONFIG`. -/
def DEFAULT_CONFIG.retryCount : Int := 2

/-- The field `retryDelay` of `DEFAULT_CONFIG`. -/
def DEFAULT_CONFIG.retryDelay : Int := 2000

/-- The field `userAgent` of `DEFAULT_CONFIG`. -/
def DEFAULT_CONFIG.userAgent : String := "KeepAlive-Worker/2.0"

/-- The `configError` of `initializeConfig` for a registry without domains. -/
def noDomainsError : String := "Redis中暂无域名配置，请通过前端界面添加域名。"

/-- `initializeConfig()` of `server.js` with the Redis variables set and the
connection established: the domains are the names of the registry entries. -/
def initializeConfig (environment : Environment) (w : World) : Config × World :=
  let domainObjects := getDomains w
  let domains := domainObjects.1.map (fun obj => JsValue.str obj.domain)
  let configError := if domains.length = 0 then some noDomainsError else none
  ({ domains := domains
     retries := environment.RETRY_COUNT.getD DEFAULT_CONFIG.retryCount
     delay := environment.RETRY_DELAY.getD DEFAULT_CONFIG.retryDelay
     userAgent := DEFAULT_CONFIG.userAgent
     error := configError
     redisClient := true },
   domainObjects.2)

/-! ## The `GET /api/domains` handlers -/

/-- The `for` loop of `RedisClient.getAllDomainConfigs` (server.js 128-136) on the
store: one `getDomainConfig` per entry, in list order. -/
def RedisClient.getAllDomainConfigsLoop : List DomainEntry → World → List DomainSummary × World
  | [], w => ([], w)
  | domainEntry :: rest, w =>
    let config := RedisClient.getDomainConfig domainEntry.domain w
    let tail := RedisClient.getAllDomainConfigsLoop rest config.2
    (summarize domainEntry.domain config.1 :: tail.1, tail.2)

/-- `RedisClient.getAllDomainConfigs()` (server.js 123-143) on the store. -/
def RedisClient.getAllDomainConfigs (w : World) : List DomainSummary × World :=
  let domains := getDomains w
  RedisClient.getAllDomainConfigsLoop domains.1 domains.2

/-- The handler of `GET /api/domains` in `server.js` (1225-1248) with Redis
configured: the value of the `domains` field of the response. -/
def serverGetApiDomains (environment : Environment) (w : World) : List DomainSummary × World :=
  let config := initializeConfig environment w
  let domains := getDomains config.2
  let domainConfigs := RedisClient.getAllDomainConfigs domains.2
  (domainConfigs.1.map (fun domainConfig =>
      { domain := domainConfig.domain
        interval := domainConfig.interval
        lastChecked := domainConfig.lastChecked
        nextCheckTime := domainConfig.nextCheckTime }),
   domainConfigs.2)

/-- The handler of `GET /api/domains` in `worker.js` (606-613) with the KV
namespace bound: `initializeConfig(env, env.DOMAINS_KV, true)` reads the full
entries, and the response is the result of a second `getDomains()`, as it is. -/
def workerGetApiDomains (w : World) : List DomainEntry × World :=
  let config := getDomains w
  getDomains config.2

/-- The module `worker.js` as it is shipped: the `fetch` handler that answers
`GET /api/domains`, when there is one.  The template literal `HTML_SCRIPT` opened
at line 330 is closed by the first backtick that is not escaped; the inner
literals of lines 344-367 are escaped, the one of line 375 (`prompt(` and a
backtick) is not, and the text that follows that backtick on line 375 is not
JavaScript.  Loading the module raises a `SyntaxError`, nothing is exported, and
the edge shell answers no request: there is no handler.  `workerGetApiDomains` is
the text of the handler at lines 606-613, which never runs. -/
def workerFetchHandler : Option (World → List DomainEntry × World) :=
  none

/-- The `domains` field of the response of the edge shell to `GET /api/domains`;
`none` when no response is given. -/
def workerGetApiDomainsResponse (w : World) : Option (List DomainEntry) :=
  workerFetchHandler.map (fun handler => (handler w).1)

/-- The limit that the handler of `GET /api/domains/:domain/logs` passes on
(server.js 1334), `parseInt(req.query.limit) || 20`: `parsed` is the integer read
from the query, `none` when the query has no limit or one that is no numeral
(`NaN`).  `NaN` and `0` are falsy and give `20`. -/
def logsRouteLimit (parsed : Option Int) : Int :=
  match parsed with
  | none => 20
  | some limit => if limit = 0 then 20 else limit

/-- The handler of `GET /api/domains/:domain/logs` in `server.js` (1327-1343) with
Redis configured: the value of the `logs` field of the response. -/
def serverGetApiDomainLogs (domain : String) (parsed : Option Int) (w : World) :
    List LogEntry :=
  let limit := logsRouteLimit parsed
  RedisClient.getDomainLogs domain (some limit) w

/-! ## Scheduled runner (`runScheduledTask`, server.js 1363-1405) -/

/-- The actions of the tasks of `executeAllWakeups`, task after task in input
order, from position `index` on.  For a batch of one domain, the only kind that
`runScheduledTask` builds, this is the order in which they happen. -/
def taskEventsFrom (config : Config) (fetch : Nat → Nat → FetchResult) :
    Nat → List JsValue → List ProbeEvent
  | _, [] => []
  | index, domain :: rest =>
    (performWakeup domain config (fetch index)).events
      ++ taskEventsFrom config fetch (index + 1) rest

/-- The actions performed by `executeAllWakeups(config)`: none when the config
carries an error. -/
def executeAllWakeupsEvents (config : Config) (fetch : Nat → Nat → FetchResult) :
    List ProbeEvent :=
  if config.hasError then [] else taskEventsFrom config fetch 0 config.domains

/-- The effect on the store of the actions of a probe: each log write is a
`saveDomainLog` call; requests and sleeps do not touch the store. -/
def applyProbeEvents : List ProbeEvent → World → World
  | [], w => w
  | .saveDomainLog domain logData :: rest, w =>
    applyProbeEvents rest (RedisClient.saveDomainLog domain logData w).2
  | .request _ :: rest, w => applyProbeEvents rest w
  | .sleep _ :: rest, w => applyProbeEvents rest w

/-- The `for` loop of `runScheduledTask` from row `index` on; `fetch index` is the
network as seen by the probe of that row.  The result lists, row by row, the
domain and the actions performed for it, none for a skipped row. -/
def scheduledLoop (config : Config) (currentTime : Int) (fetch : Nat → Nat → FetchResult) :
    Nat → List DomainSummary → World → List (String × List ProbeEvent) × World
  | _, [], w => ([], w)
  | index, domainConfig :: rest, w =>
    if shouldCheckDomain domainConfig.toDomainConfig currentTime then
      let singleConfig : Config := { config with domains := [.str domainConfig.domain] }
      let events := executeAllWakeupsEvents singleConfig (fun _ => fetch index)
      let probed := applyProbeEvents events w
      let updated := RedisClient.updateDomainLastChecked domainConfig.domain probed
      let tail := scheduledLoop config currentTime fetch (index + 1) rest updated.2
      ((domainConfig.domain, events) :: tail.1, tail.2)
    else
      let tail := scheduledLoop config currentTime fetch (index + 1) rest w
      ((domainConfig.domain, []) :: tail.1, tail.2)

/-- `runScheduledTask()` with Redis configured: the branch `if (config.redisClient)`. -/
def runScheduledTask (environment : Environment) (fetch : Nat → Nat → FetchResult) (w : World) :
    List (String × List ProbeEvent) × World :=
  let config := initializeConfig environment w
  let domainConfigs := RedisClient.getAllDomainConfigs config.2
  let currentTime := domainConfigs.2.now
  scheduledLoop config.1 currentTime.1 fetch 0 domainConfigs.1 currentTime.2

/-! ## Vocabulary for statements about a run -/

/-- The actions of `n` requests with a retry delay between consecutive ones and
none after the last. -/
def spacedRequests (url : String) (delay : Int) (n : Nat) : List ProbeEvent :=
  List.intersperse (ProbeEvent.sleep delay) (List.replicate n (ProbeEvent.request url))

/-- Whether an action is a request. -/
def ProbeEvent.isRequest : ProbeEvent → Bool
  | .request _ => true
  | _ => false

/-- Whether an action is a sleep. -/
def ProbeEvent.isSleep : ProbeEvent → Bool
  | .sleep _ => true
  | _ => false

/-- Whether an action is a log write. -/
def ProbeEvent.isLog : ProbeEvent → Bool
  | .saveDomainLog _ _ => true
  | _ => false

/-- Whether an attempt failed: a response that is not ok, or a transport
error. -/
def FetchResult.failed : FetchResult → Bool
  | .response status => !responseOk status
  | .failure _ => true

/-- The `lastKnownError` recorded for a failed attempt. -/
def FetchResult.recorded : FetchResult → LastKnownError
  | .response status => .http_error status
  | .failure message => .network_error message

/-! ## Sample inputs -/

/-- A stored config of interval 5, last checked at instant 400000. -/
def checkedConfig : DomainConfig :=
  { interval := 5, lastChecked := some 400000, nextCheckTime := none }

/-- A stored config of interval 200000000000 minutes that was never checked. -/
def remoteConfig : DomainConfig :=
  { interval := 200000000000, lastChecked := none, nextCheckTime := none }

/-- A stored config of interval 200000000000 minutes, checked at 1699999000000. -/
def remoteCheckedConfig : DomainConfig :=
  { interval := 200000000000, lastChecked := some 1699999000000, nextCheckTime := none }

/-- A stored config of interval 144000000000 minutes, which is 8640000000000000
milliseconds, checked exactly one interval before the instant 1700000000000. -/
def remoteMultipleConfig : DomainConfig :=
  { interval := 144000000000, lastChecked := some (-8638300000000000), nextCheckTime := none }

/-- A stored config of interval 5 that was never checked. -/
def uncheckedConfig : DomainConfig :=
  { interval := 5, lastChecked := none, nextCheckTime := none }

/-- A configuration as `initializeConfig` builds it from its defaults, with a
registry client and three domains of which the second is not a string. -/
def sampleConfig : Config :=
  { domains := [.str "a.example", .num 7, .str "b.example"]
    retries := 2
    delay := 2000
    userAgent := "KeepAlive-Worker/2.0"
    error := none
    redisClient := true }

/-- A network on which every request is answered with status 500. -/
def alwaysStatus500 : Nat → FetchResult :=
  fun _ => .response 500

/-- A network on which the first request fails in transport, the second is
answered 503 and every later one 204. -/
def okOnThird : Nat → FetchResult :=
  fun i => if i = 1 then .failure "connect ECONNREFUSED" else if i = 2 then .response 503
    else .response 204

/-- A network on which the first request is answered 502 and every later one
fails in transport. -/
def unreachableAfterFirst : Nat → FetchResult :=
  fun i => if i = 1 then .response 502 else .failure "getaddrinfo ENOTFOUND"

/-- A configuration read from `TARGET_DOMAINS = [null, "b.example"]`. -/
def nullDomainConfig : Config :=
  { domains := [.null, .str "b.example"]
    retries := 2
    delay := 2000
    userAgent := "KeepAlive-Worker/2.0"
    error := none
    redisClient := false }

/-- A store with no key, an admin code, a clock that advances one second per
reading and three distinct generated codes. -/
def emptyWorld : World :=
  { domains := none
    keys := fun _ => none
    adminCode := some "ADMIN000"
    codes := fun i => if i = 0 then "AAAA0000" else if i = 1 then "BBBB1111" else "CCCC2222"
    drawn := 0
    clock := fun i => 1700000000000 + 1000 * (i : Int)
    ticks := 0 }

/-- The log data of a successful probe, numbered by its `attempts` field. -/
def sampleLog (n : Nat) : LogData :=
  { status := "成功", statusCode := some 200, url := "https://a.example", attempts := n,
    error := none }

/-- The log data numbered `1, 2, ..., n`, in that order. -/
def sampleLogs (n : Nat) : List LogData :=
  (List.range n).map (fun i => sampleLog (i + 1))

/-- A registry of two entries. -/
def sampleRegistry : List DomainEntry :=
  [{ domain := "a.example", verificationCode := "AAAA0000", addedAt := 1690000000000 },
   { domain := "b.example", verificationCode := "BBBB1111", addedAt := 1690000001000 }]

/-- A store that holds `sampleRegistry` and nothing else. -/
def sampleWorld : World :=
  { emptyWorld with domains := some (.entries sampleRegistry) }

/-- A network on which every request is answered with status 200. -/
def alwaysOk : Nat → FetchResult :=
  fun _ => .response 200

/-- An environment with `RETRY_COUNT=-1` and no `RETRY_DELAY`. -/
def negativeRetryEnvironment : Environment :=
  { RETRY_COUNT := some (-1), RETRY_DELAY := none }

/-- An environment with neither variable set. -/
def defaultEnvironment : Environment :=
  { RETRY_COUNT := none, RETRY_DELAY := none }

/-- A store whose registry is in the legacy format, a list of two bare names. -/
def legacyWorld : World :=
  { emptyWorld with domains := some (.legacy "a.example" ["b.example"]) }

/-- The sample registry with other verification codes. -/
def recodedRegistry : List DomainEntry :=
  [{ domain := "a.example", verificationCode := "ZZZZ9999", addedAt := 1690000000000 },
   { domain := "b.example", verificationCode := "YYYY8888", addedAt := 1690000001000 }]

/-- A store that differs from `sampleWorld` in the verification codes only. -/
def recodedWorld : World :=
  { emptyWorld with domains := some (.entries recodedRegistry) }

/-- A registry that lists the URL `https://a.example/x` and the URL
`https://a.example/x:logs`. -/
def collisionRegistry : List DomainEntry :=
  [{ domain := "https://a.example/x", verificationCode := "AAAA0000",
     addedAt := 1690000000000 },
   { domain := "https://a.example/x:logs", verificationCode := "BBBB1111",
     addedAt := 1690000001000 }]

/-- The stored config of `https://a.example/x:logs`: interval 5, checked ten
seconds before the first instant of the clock of `emptyWorld`. -/
def recentlyCheckedConfig : DomainConfig :=
  { interval := 5, lastChecked := some 1699999990000, nextCheckTime := none }

/-- A store that holds `collisionRegistry`, the config `recentlyCheckedConfig` for
`https://a.example/x:logs`, and nothing for `https://a.example/x`, which was never
checked. -/
def collisionWorld : World :=
  { emptyWorld with
    domains := some (.entries collisionRegistry)
    keys := fun key =>
      if key = configKey "https://a.example/x:logs" then some (.config recentlyCheckedConfig)
      else none }

/-! ## Arithmetic of the display derivation -/

/-- On a positive divisor, the floor of the exact quotient is integer floor
division. -/
theorem floor_quotient_eq_ediv (a b : Int) (hb : 0 < b) :
    Int.floor ((a : ℚ) / (b : ℚ)) = a / b := by
  have hbq : (0 : ℚ) < (b : ℚ) := by exact_mod_cast hb
  rw [Int.floor_eq_iff]
  constructor
  · rw [le_div_iff₀ hbq]
    have h : a / b * b ≤ a := Int.ediv_mul_le a (ne_of_gt hb)
    exact_mod_cast h
  · rw [div_lt_iff₀ hbq]
    have h : a < (a / b + 1) * b := Int.lt_ediv_add_one_mul_self a hb
    exact_mod_cast h

/-- The candidate of the display derivation lies strictly after `now`. -/
theorem candidate_after_now (now last i : Int) (hi : 0 < i) :
    now < last + (Int.floor (((now - last : Int) : ℚ) / (i : ℚ)) + 1) * i := by
  rw [floor_quotient_eq_ediv _ _ hi]
  have h : now - last < ((now - last) / i + 1) * i := Int.lt_ediv_add_one_mul_self _ hi
  linarith

/-- The stored interval in milliseconds is positive when the interval is at
least one minute. -/
theorem intervalInMs_pos (interval : Int) (h : 1 ≤ interval) : 0 < interval * 60 * 1000 := by
  omega

/-- The range test of a `Date`, as two inequalities. -/
theorem validDate_iff (t : Int) :
    validDate t = true ↔ -8640000000000000 ≤ t ∧ t ≤ 8640000000000000 := by
  simp [validDate, maxDate]

/-- Inside the range of a `Date` the instant is written into the config. -/
theorem setNextCheckTime_valid (config : DomainConfig) (t : Int) (h : validDate t = true) :
    setNextCheckTime config t = { config with nextCheckTime := some t } := by
  simp [setNextCheckTime, toISOString, h]

/-- Outside the range of a `Date` the answer is the default config. -/
theorem setNextCheckTime_invalid (config : DomainConfig) (t : Int) (h : validDate t = false) :
    setNextCheckTime config t = defaultDomainConfig := by
  simp [setNextCheckTime, toISOString, h]

/-- A `nextCheckTime` that is reported is the instant that was to be written, and
that instant is in the range of a `Date`. -/
theorem setNextCheckTime_reported (config : DomainConfig) (t u : Int)
    (h : (setNextCheckTime config t).nextCheckTime = some u) :
    u = t ∧ validDate t = true := by
  cases hv : validDate t with
  | true =>
    rw [setNextCheckTime_valid config t hv] at h
    exact ⟨(Option.some.inj h).symm, rfl⟩
  | false =>
    rw [setNextCheckTime_invalid config t hv] at h
    cases h

/-- What `getDomainConfig` answers for a stored config that has a `lastChecked`
and a non-zero interval. -/
theorem getDomainConfig_lastChecked (config : DomainConfig) (now last : Int)
    (hl : config.lastChecked = some last) (hi : config.interval * 60 * 1000 ≠ 0) :
    getDomainConfig (some config) now =
      setNextCheckTime config
        (if last + (Int.floor (((now - last : Int) : ℚ) /
                ((config.interval * 60 * 1000 : Int) : ℚ)) + 1) * (config.interval * 60 * 1000) ≤ now
            then now + config.interval * 60 * 1000
            else last + (Int.floor (((now - last : Int) : ℚ) /
                ((config.interval * 60 * 1000 : Int) : ℚ)) + 1) * (config.interval * 60 * 1000)) := by
  simp only [getDomainConfig, hl, if_neg hi]
  split <;> rfl

/-- What `getDomainConfig` answers for a stored config without `lastChecked`. -/
theorem getDomainConfig_never_checked (config : DomainConfig) (now : Int)
    (hl : config.lastChecked = none) :
    getDomainConfig (some config) now =
      setNextCheckTime config (now + config.interval * 60000) := by
  have e : config.interval * 60 * 1000 = config.interval * 60000 := by ring
  simp only [getDomainConfig, hl, e]

/-- The display derivation on a stored config with interval at least 1 and a
`lastChecked`: the candidate, through integer floor division. -/
theorem getDomainConfig_candidate (config : DomainConfig) (now last : Int)
    (h : 1 ≤ config.interval) (hl : config.lastChecked = some last) :
    getDomainConfig (some config) now =
      setNextCheckTime config
        (last + ((now - last) / (config.interval * 60000) + 1) * (config.interval * 60000)) := by
  have hpos := intervalInMs_pos config.interval h
  have e : config.interval * 60 * 1000 = config.interval * 60000 := by ring
  have hc := candidate_after_now now last _ hpos
  rw [getDomainConfig_lastChecked config now last hl (ne_of_gt hpos), if_neg (not_le.mpr hc),
    floor_quotient_eq_ediv _ _ hpos, e]

/-- The instant written replaces whatever `nextCheckTime` the config carried. -/
theorem setNextCheckTime_ignores (config : DomainConfig) (stored : Option Int) (t : Int) :
    setNextCheckTime { config with nextCheckTime := stored } t = setNextCheckTime config t := by
  unfold setNextCheckTime
  cases toISOString t <;> rfl

/-- The answer of `getDomainConfig` does not depend on the `nextCheckTime` that
the stored config carries. -/
theorem getDomainConfig_ignores_field (config : DomainConfig) (stored : Option Int)
    (now : Int) :
    getDomainConfig (some { config with nextCheckTime := stored }) now =
      getDomainConfig (some config) now := by
  obtain ⟨i, l, n⟩ := config
  cases l with
  | none =>
    exact setNextCheckTime_ignores { interval := i, lastChecked := none, nextCheckTime := n }
      stored _
  | some last =>
    simp only [getDomainConfig]
    split_ifs
    · rfl
    · exact setNextCheckTime_ignores { interval := i, lastChecked := some last, nextCheckTime := n }
        stored _
    · exact setNextCheckTime_ignores { interval := i, lastChecked := some last, nextCheckTime := n }
        stored _

/-- With interval at least 1, a `nextCheckTime` that `getDomainConfig` reports lies
strictly after `now`. -/
theorem getDomainConfig_reported_after_now (config : DomainConfig) (now t : Int)
    (h : 1 ≤ config.interval)
    (ht : (getDomainConfig (some config) now).nextCheckTime = some t) : now < t := by
  have hpos : 0 < config.interval * 60000 := by omega
  cases hl : config.lastChecked with
  | none =>
    rw [getDomainConfig_never_checked config now hl] at ht
    have := (setNextCheckTime_reported config _ t ht).1
    omega
  | some last =>
    rw [getDomainConfig_candidate config now last h hl] at ht
    have h1 := (setNextCheckTime_reported config _ t ht).1
    have h2 := candidate_after_now now last _ hpos
    rw [floor_quotient_eq_ediv _ _ hpos] at h2
    omega

/-- The fields that the display derivation leaves as stored, when the instant it
derives is in the range of a `Date`. -/
theorem getDomainConfig_keeps_fields (config : DomainConfig) (now : Int)
    (h : 1 ≤ config.interval)
    (hn : config.lastChecked = none → validDate (now + config.interval * 60000) = true)
    (hs : ∀ last, config.lastChecked = some last →
      validDate (last + ((now - last) / (config.interval * 60000) + 1) *
        (config.interval * 60000)) = true) :
    (getDomainConfig (some config) now).interval = config.interval ∧
      (getDomainConfig (some config) now).lastChecked = config.lastChecked := by
  cases hl : config.lastChecked with
  | none =>
    rw [getDomainConfig_never_checked config now hl, setNextCheckTime_valid _ _ (hn hl)]
    exact ⟨rfl, hl⟩
  | some last =>
    rw [getDomainConfig_candidate config now last h hl, setNextCheckTime_valid _ _ (hs last hl)]
    exact ⟨rfl, hl⟩

/-- Every row that `getAllDomainConfigs` lists is the summary of what
`getDomainConfig` answered for the row's domain at some read of the clock. -/
theorem getAllDomainConfigsFrom_mem (store : String → Option DomainConfig) (clock : Nat → Int)
    (domains : List DomainEntry) :
    ∀ (i : Nat) (row : DomainSummary), row ∈ getAllDomainConfigsFrom store clock i domains →
      ∃ j, row = summarize row.domain (getDomainConfig (store row.domain) (clock j)) := by
  induction domains with
  | nil =>
    intro i row h
    simp [getAllDomainConfigsFrom] at h
  | cons domainEntry rest ih =>
    intro i row h
    simp only [getAllDomainConfigsFrom, List.mem_cons] at h
    rcases h with h | h
    · refine ⟨i, ?_⟩
      have hd : row.domain = domainEntry.domain := by rw [h]; rfl
      rw [hd]
      exact h
    · exact ih (i + 1) row h

/-- The rows of `getAllDomainConfigs`, from the first read on. -/
theorem getAllDomainConfigs_mem (store : String → Option DomainConfig) (clock : Nat → Int)
    (domains : List DomainEntry) (row : DomainSummary)
    (h : row ∈ getAllDomainConfigs store clock domains) :
    ∃ j, row = summarize row.domain (getDomainConfig (store row.domain) (clock j)) :=
  getAllDomainConfigsFrom_mem store clock domains 0 row h

/-- The due test, in integer milliseconds. -/
theorem shouldCheckDomain_some (config : DomainConfig) (now last : Int)
    (hl : config.lastChecked = some last) :
    shouldCheckDomain config now = true ↔ config.interval * 60000 ≤ now - last := by
  simp only [shouldCheckDomain, hl, ge_iff_le, decide_eq_true_eq]
  rw [le_div_iff₀ (by norm_num)]
  constructor
  · intro h
    have h2 : ((config.interval * 60000 : Int) : ℚ) ≤ ((now - last : Int) : ℚ) := by
      push_cast at h ⊢; linarith
    exact_mod_cast h2
  · intro h
    have h2 : ((config.interval * 60000 : Int) : ℚ) ≤ ((now - last : Int) : ℚ) := by
      exact_mod_cast h
    push_cast at h2 ⊢; linarith

/-! ## Claims on the due scheduler -/

/-- C1, as stated, fails at a stored config of interval 200000000000 that was
never checked, read at 1700000000000: the instant `now + interval` minutes is
outside the range of a `Date`, `toISOString` raises, and `getDomainConfig` answers
the default config, which reports no `nextCheckTime` at all. -/
theorem getDomainConfig_no_nextCheckTime_counterexample :
    1 ≤ remoteConfig.interval ∧
      getDomainConfig (some remoteConfig) 1700000000000 = defaultDomainConfig ∧
      ¬ ∃ t, (getDomainConfig (some remoteConfig) 1700000000000).nextCheckTime = some t ∧
        (1700000000000 : Int) < t := by
  have hr : getDomainConfig (some remoteConfig) 1700000000000 = defaultDomainConfig := by
    rw [getDomainConfig_never_checked remoteConfig 1700000000000 rfl]
    exact setNextCheckTime_invalid _ _ (by decide)
  refine ⟨by decide, hr, ?_⟩
  rw [hr]
  rintro ⟨t, ht, _⟩
  cases ht

/-- C1, amended: for every stored config with interval at least 1 and every
`lastChecked` (absent, before, at or after `now`), a `nextCheckTime` that
`getDomainConfig` reports is strictly greater than `now`; it reports the instant
it derives (`now + interval` minutes when never checked, the candidate
`lastChecked + (floor((now - lastChecked) / intervalMs) + 1) * intervalMs`
otherwise) when that instant is in the range of a `Date`, and answers the default
`{ interval: 5 }`, without `nextCheckTime`, when it is not. -/
theorem getDomainConfig_nextCheckTime_after_now (config : DomainConfig) (now : Int)
    (h : 1 ≤ config.interval) :
    (∀ t, (getDomainConfig (some config) now).nextCheckTime = some t → now < t) ∧
    (config.lastChecked = none →
      (validDate (now + config.interval * 60000) = true →
        (getDomainConfig (some config) now).nextCheckTime =
          some (now + config.interval * 60000)) ∧
      (validDate (now + config.interval * 60000) = false →
        getDomainConfig (some config) now = defaultDomainConfig)) ∧
    (∀ last, config.lastChecked = some last →
      (validDate (last + (Int.floor (((now - last : Int) : ℚ) /
          ((config.interval * 60000 : Int) : ℚ)) + 1) * (config.interval * 60000)) = true →
        (getDomainConfig (some config) now).nextCheckTime =
          some (last + (Int.floor (((now - last : Int) : ℚ) /
            ((config.interval * 60000 : Int) : ℚ)) + 1) * (config.interval * 60000))) ∧
      (validDate (last + (Int.floor (((now - last : Int) : ℚ) /
          ((config.interval * 60000 : Int) : ℚ)) + 1) * (config.interval * 60000)) = false →
        getDomainConfig (some config) now = defaultDomainConfig)) := by
  have hpos : 0 < config.interval * 60000 := by omega
  refine ⟨fun t ht => getDomainConfig_reported_after_now config now t h ht, ?_, ?_⟩
  · intro hl
    rw [getDomainConfig_never_checked config now hl]
    exact ⟨fun hv => by rw [setNextCheckTime_valid _ _ hv],
      fun hv => setNextCheckTime_invalid _ _ hv⟩
  · intro last hl
    rw [getDomainConfig_candidate config now last h hl, floor_quotient_eq_ediv _ _ hpos]
    exact ⟨fun hv => by rw [setNextCheckTime_valid _ _ hv],
      fun hv => setNextCheckTime_invalid _ _ hv⟩

/-- C1, amended, at a stored config checked ten minutes before `now`, interval 5. -/
theorem getDomainConfig_nextCheckTime_after_now_witness :
    (∀ t, (getDomainConfig (some checkedConfig) 1000000).nextCheckTime = some t →
      (1000000 : Int) < t) ∧
    (checkedConfig.lastChecked = none →
      (validDate (1000000 + checkedConfig.interval * 60000) = true →
        (getDomainConfig (some checkedConfig) 1000000).nextCheckTime =
          some (1000000 + checkedConfig.interval * 60000)) ∧
      (validDate (1000000 + checkedConfig.interval * 60000) = false →
        getDomainConfig (some checkedConfig) 1000000 = defaultDomainConfig)) ∧
    (∀ last, checkedConfig.lastChecked = some last →
      (validDate (last + (Int.floor ((((1000000 : Int) - last : Int) : ℚ) /
          ((checkedConfig.interval * 60000 : Int) : ℚ)) + 1) *
            (checkedConfig.interval * 60000)) = true →
        (getDomainConfig (some checkedConfig) 1000000).nextCheckTime =
          some (last + (Int.floor ((((1000000 : Int) - last : Int) : ℚ) /
            ((checkedConfig.interval * 60000 : Int) : ℚ)) + 1) *
              (checkedConfig.interval * 60000))) ∧
      (validDate (last + (Int.floor ((((1000000 : Int) - last : Int) : ℚ) /
          ((checkedConfig.interval * 60000 : Int) : ℚ)) + 1) *
            (checkedConfig.interval * 60000)) = false →
        getDomainConfig (some checkedConfig) 1000000 = defaultDomainConfig)) :=
  getDomainConfig_nextCheckTime_after_now checkedConfig 1000000 (by decide)

/-- C2: `shouldCheckDomain` answers true exactly when `lastChecked` is absent or
at least `interval * 60000` milliseconds have elapsed since `lastChecked`. -/
theorem shouldCheckDomain_iff (config : DomainConfig) (now : Int) :
    shouldCheckDomain config now = true ↔
      (config.lastChecked = none ∨
        ∃ last, config.lastChecked = some last ∧ config.interval * 60000 ≤ now - last) := by
  cases hl : config.lastChecked with
  | none => simp [shouldCheckDomain, hl]
  | some last =>
    rw [shouldCheckDomain_some config now last hl]
    simp

/-- C3, as stated, fails at a stored config of interval 200000000000 checked at
1699999000000 and read at 1700000000000: the candidate 12001699999000000 lies
after `now` and outside the range of a `Date`, `toISOString` raises, and
`getDomainConfig` answers the default config instead of reporting the
candidate. -/
theorem getDomainConfig_formula_counterexample :
    1 ≤ remoteCheckedConfig.interval ∧
      remoteCheckedConfig.lastChecked = some 1699999000000 ∧
      (1699999000000 : Int) + (Int.floor ((((1700000000000 : Int) - 1699999000000 : Int) : ℚ) /
          ((remoteCheckedConfig.interval * 60000 : Int) : ℚ)) + 1) *
            (remoteCheckedConfig.interval * 60000) = 12001699999000000 ∧
      getDomainConfig (some remoteCheckedConfig) 1700000000000 = defaultDomainConfig ∧
      (getDomainConfig (some remoteCheckedConfig) 1700000000000).nextCheckTime ≠
        some 12001699999000000 := by
  have hr : getDomainConfig (some remoteCheckedConfig) 1700000000000 = defaultDomainConfig := by
    rw [getDomainConfig_candidate remoteCheckedConfig 1700000000000 1699999000000 (by decide) rfl]
    exact setNextCheckTime_invalid _ _ (by decide)
  refine ⟨by decide, rfl, ?_, hr, ?_⟩
  · rw [floor_quotient_eq_ediv _ _ (by decide)]
    decide
  · rw [hr]
    intro hc
    cases hc

/-- C3, amended: for a stored config with interval at least 1 and
`lastChecked = last`, the instant `t` that `getDomainConfig` derives is
`last + (floor((now - last) / intervalMs) + 1) * intervalMs` with
`intervalMs = interval * 60000`, replaced by `now + intervalMs` when that candidate
is at most `now`; it reports `nextCheckTime = t` when `t` is in the range of a
`Date` and answers the default `{ interval: 5 }` when it is not. -/
theorem getDomainConfig_nextCheckTime_formula (config : DomainConfig) (now last t : Int)
    (h : 1 ≤ config.interval) (hl : config.lastChecked = some last)
    (ht : t = if last + (Int.floor (((now - last : Int) : ℚ) /
                ((config.interval * 60000 : Int) : ℚ)) + 1) * (config.interval * 60000) ≤ now
            then now + config.interval * 60000
            else last + (Int.floor (((now - last : Int) : ℚ) /
                ((config.interval * 60000 : Int) : ℚ)) + 1) * (config.interval * 60000)) :
    (validDate t = true →
      getDomainConfig (some config) now = { config with nextCheckTime := some t }) ∧
    (validDate t = false → getDomainConfig (some config) now = defaultDomainConfig) := by
  have hpos := intervalInMs_pos config.interval h
  have e : config.interval * 60 * 1000 = config.interval * 60000 := by ring
  rw [getDomainConfig_lastChecked config now last hl (ne_of_gt hpos), e, ← ht]
  exact ⟨fun hv => setNextCheckTime_valid _ _ hv, fun hv => setNextCheckTime_invalid _ _ hv⟩

/-- C3, amended, at interval 5, checked at 400000, read at 1000000: the instant
derived is 1300000. -/
theorem getDomainConfig_nextCheckTime_formula_witness :
    (validDate 1300000 = true →
      getDomainConfig (some checkedConfig) 1000000 =
        { checkedConfig with nextCheckTime := some 1300000 }) ∧
    (validDate 1300000 = false →
      getDomainConfig (some checkedConfig) 1000000 = defaultDomainConfig) :=
  getDomainConfig_nextCheckTime_formula checkedConfig 1000000 400000 1300000 (by decide) rfl
    (by rw [floor_quotient_eq_ediv _ _ (by decide)]; decide)

/-- C4, as stated, fails for a domain that has no stored config: `getDomainConfig`
returns the default `{ interval: 5 }`, which carries no `nextCheckTime`, and not
`now + 5` minutes; `getAllDomainConfigs` lists the domain with a null
`nextCheckTime`.  It also fails at a stored, never-checked config of interval
200000000000 read at 1700000000000, where `now + interval` minutes is outside the
range of a `Date` and the answer is the default config. -/
theorem getDomainConfig_unstored_counterexample :
    (getDomainConfig none 1000000).interval = 5 ∧
      (getDomainConfig none 1000000).lastChecked = none ∧
      (getDomainConfig none 1000000).nextCheckTime ≠
        some (1000000 + (getDomainConfig none 1000000).interval * 60000) ∧
      (getAllDomainConfigs (fun _ => none) (fun _ => 1000000)
          [{ domain := "a.example", verificationCode := "ABCD1234", addedAt := 0 }]).map
        (fun s => s.nextCheckTime) = [none] ∧
      remoteConfig.lastChecked = none ∧ 1 ≤ remoteConfig.interval ∧
      getDomainConfig (some remoteConfig) 1700000000000 = defaultDomainConfig ∧
      (getDomainConfig (some remoteConfig) 1700000000000).nextCheckTime ≠
        some (1700000000000 + remoteConfig.interval * 60000) := by
  have hr : getDomainConfig (some remoteConfig) 1700000000000 = defaultDomainConfig := by
    rw [getDomainConfig_never_checked remoteConfig 1700000000000 rfl]
    exact setNextCheckTime_invalid _ _ (by decide)
  refine ⟨rfl, rfl, ?_, rfl, rfl, by decide, hr, ?_⟩
  · intro h
    cases h
  · rw [hr]
    intro h
    cases h

/-- C4, amended: for a stored config whose `lastChecked` is absent and whose
interval is at least 1, `getDomainConfig` reports `nextCheckTime = now + interval`
minutes and leaves the other fields as stored when that instant is in the range of
a `Date`, and answers the default `{ interval: 5 }` when it is not; for a domain
with no stored config it answers the default interval 5, no `lastChecked` and no
`nextCheckTime`, and `getAllDomainConfigs` lists such a domain with interval 5 and
a null `nextCheckTime`. -/
theorem getDomainConfig_never_checked_nextCheckTime (config : DomainConfig) (now : Int)
    (_h : 1 ≤ config.interval) (hl : config.lastChecked = none) :
    (validDate (now + config.interval * 60000) = true →
      (getDomainConfig (some config) now).nextCheckTime =
          some (now + config.interval * 60000) ∧
        (getDomainConfig (some config) now).interval = config.interval ∧
        (getDomainConfig (some config) now).lastChecked = none) ∧
    (validDate (now + config.interval * 60000) = false →
      getDomainConfig (some config) now = defaultDomainConfig) ∧
    getDomainConfig none now = { interval := 5, lastChecked := none, nextCheckTime := none } ∧
    (∀ (store : String → Option DomainConfig) (clock : Nat → Int) (domains : List DomainEntry)
        (row : DomainSummary), row ∈ getAllDomainConfigs store clock domains →
        store row.domain = none →
        row.interval = 5 ∧ row.lastChecked = none ∧ row.nextCheckTime = none) := by
  rw [getDomainConfig_never_checked config now hl]
  refine ⟨fun hv => ?_, fun hv => setNextCheckTime_invalid _ _ hv, rfl, ?_⟩
  · rw [setNextCheckTime_valid _ _ hv]
    exact ⟨rfl, rfl, hl⟩
  · intro store clock domains row hrow hstore
    obtain ⟨i, hi⟩ := getAllDomainConfigs_mem store clock domains row hrow
    rw [hstore] at hi
    rw [hi]
    exact ⟨rfl, rfl, rfl⟩

/-- C4, amended, at a never-checked stored config of interval 5. -/
theorem getDomainConfig_never_checked_nextCheckTime_witness :
    (validDate (1000000 + uncheckedConfig.interval * 60000) = true →
      (getDomainConfig (some uncheckedConfig) 1000000).nextCheckTime =
          some (1000000 + uncheckedConfig.interval * 60000) ∧
        (getDomainConfig (some uncheckedConfig) 1000000).interval = uncheckedConfig.interval ∧
        (getDomainConfig (some uncheckedConfig) 1000000).lastChecked = none) ∧
    (validDate (1000000 + uncheckedConfig.interval * 60000) = false →
      getDomainConfig (some uncheckedConfig) 1000000 = defaultDomainConfig) ∧
    getDomainConfig none 1000000 =
      { interval := 5, lastChecked := none, nextCheckTime := none } ∧
    (∀ (store : String → Option DomainConfig) (clock : Nat → Int) (domains : List DomainEntry)
        (row : DomainSummary), row ∈ getAllDomainConfigs store clock domains →
        store row.domain = none →
        row.interval = 5 ∧ row.lastChecked = none ∧ row.nextCheckTime = none) :=
  getDomainConfig_never_checked_nextCheckTime uncheckedConfig 1000000 (by decide) rfl

/-- C5, as stated, fails at interval 144000000000 and `k = 1`, read at
1700000000000: `lastChecked` is -8638300000000000, a valid date exactly one
interval before `now`; the due test is true, but the candidate 8641700000000000 is
outside the range of a `Date`, `toISOString` raises, and `getDomainConfig` answers
the default config, which reports no `nextCheckTime`. -/
theorem exact_multiple_counterexample :
    1 ≤ remoteMultipleConfig.interval ∧
      remoteMultipleConfig.lastChecked =
        some (1700000000000 - 1 * remoteMultipleConfig.interval * 60000) ∧
      validDate (1700000000000 - 1 * remoteMultipleConfig.interval * 60000) = true ∧
      shouldCheckDomain remoteMultipleConfig 1700000000000 = true ∧
      getDomainConfig (some remoteMultipleConfig) 1700000000000 = defaultDomainConfig ∧
      ¬ ∃ t, (getDomainConfig (some remoteMultipleConfig) 1700000000000).nextCheckTime = some t ∧
        (1700000000000 : Int) < t := by
  have hr : getDomainConfig (some remoteMultipleConfig) 1700000000000 = defaultDomainConfig := by
    rw [getDomainConfig_candidate remoteMultipleConfig 1700000000000 (-8638300000000000)
      (by decide) rfl]
    exact setNextCheckTime_invalid _ _ (by decide)
  refine ⟨by decide, by decide, by decide, ?_, hr, ?_⟩
  · rw [shouldCheckDomain_some remoteMultipleConfig 1700000000000 (-8638300000000000) rfl]
    decide
  · rw [hr]
    rintro ⟨t, ht, _⟩
    cases ht

/-- C5, amended: when `lastChecked` lies exactly `k * interval` minutes before
`now`, with `interval ≥ 1` and `k ≥ 1`, the due test is true; `getDomainConfig`
reports `nextCheckTime = now + interval` minutes, strictly greater than `now`, when
that instant is in the range of a `Date`, and answers the default `{ interval: 5 }`,
without `nextCheckTime`, when it is not. -/
theorem exact_multiple_due_and_future (config : DomainConfig) (now k : Int)
    (h : 1 ≤ config.interval) (hk : 1 ≤ k)
    (hl : config.lastChecked = some (now - k * config.interval * 60000)) :
    shouldCheckDomain config now = true ∧
    (validDate (now + config.interval * 60000) = true →
      (getDomainConfig (some config) now).nextCheckTime =
          some (now + config.interval * 60000) ∧
        now < now + config.interval * 60000) ∧
    (validDate (now + config.interval * 60000) = false →
      getDomainConfig (some config) now = defaultDomainConfig) := by
  have hpos : 0 < config.interval * 60000 := by omega
  have e : now - (now - k * config.interval * 60000) = k * (config.interval * 60000) := by
    ring
  have hcand : now - k * config.interval * 60000 +
      ((now - (now - k * config.interval * 60000)) / (config.interval * 60000) + 1) *
        (config.interval * 60000) = now + config.interval * 60000 := by
    rw [e, Int.mul_ediv_cancel _ (ne_of_gt hpos)]
    ring
  refine ⟨?_, ?_, ?_⟩
  · rw [shouldCheckDomain_some config now _ hl, e]
    nlinarith
  · intro hv
    rw [getDomainConfig_candidate config now _ h hl, hcand, setNextCheckTime_valid _ _ hv]
    exact ⟨rfl, by omega⟩
  · intro hv
    rw [getDomainConfig_candidate config now _ h hl, hcand]
    exact setNextCheckTime_invalid _ _ hv

/-- C5, amended, at interval 5 and `k = 2`: checked at 400000, read ten minutes
later. -/
theorem exact_multiple_due_and_future_witness :
    shouldCheckDomain checkedConfig 1000000 = true ∧
    (validDate (1000000 + checkedConfig.interval * 60000) = true →
      (getDomainConfig (some checkedConfig) 1000000).nextCheckTime =
          some (1000000 + checkedConfig.interval * 60000) ∧
        (1000000 : Int) < 1000000 + checkedConfig.interval * 60000) ∧
    (validDate (1000000 + checkedConfig.interval * 60000) = false →
      getDomainConfig (some checkedConfig) 1000000 = defaultDomainConfig) :=
  exact_multiple_due_and_future checkedConfig 1000000 2 (by decide) (by decide) (by decide)

/-! ## The retry loop -/

/-- One more request in front of a non-empty spaced run. -/
theorem spacedRequests_succ_succ (url : String) (delay : Int) (n : Nat) :
    spacedRequests url delay (n + 2) =
      ProbeEvent.request url :: ProbeEvent.sleep delay :: spacedRequests url delay (n + 1) := by
  simp [spacedRequests, List.replicate_succ, List.intersperse]

/-- A spaced run of no request. -/
theorem spacedRequests_zero (url : String) (delay : Int) :
    spacedRequests url delay 0 = [] := by
  simp [spacedRequests, List.intersperse]

/-- A spaced run of one request. -/
theorem spacedRequests_one (url : String) (delay : Int) :
    spacedRequests url delay 1 = [ProbeEvent.request url] := by
  simp [spacedRequests, List.intersperse]

/-- The loop when every remaining attempt fails: it is left by its guard after
`n` more requests, with the error of the last of them recorded. -/
theorem wakeupLoop_all_fail (fetch : Nat → FetchResult) (domain url : String) (config : Config)
    (n : Nat) : ∀ (a : Nat) (last : Option LastKnownError),
      (a : Int) + n = config.retries + 1 →
      (∀ j, a < j → j ≤ a + n → (fetch j).failed = true) →
      wakeupLoop fetch domain url config a last =
        (.exhausted (a + n) (if n = 0 then last else some (fetch (a + n)).recorded),
         spacedRequests url config.delay n) := by
  induction n with
  | zero =>
    intro a last hn _
    rw [wakeupLoop]
    have hg : ¬ ((a : Int) ≤ config.retries) := by omega
    simp [hg, spacedRequests]
  | succ n ih =>
    intro a last hn hfail
    rw [wakeupLoop]
    have hg : (a : Int) ≤ config.retries := by omega
    have hnext : ((a + 1 : Nat) : Int) + n = config.retries + 1 := by push_cast; omega
    have hrest : ∀ j, a + 1 < j → j ≤ a + 1 + n → (fetch j).failed = true :=
      fun j h1 h2 => hfail j (by omega) (by omega)
    have hcur := hfail (a + 1) (by omega) (by omega)
    have hidx : a + 1 + n = a + (n + 1) := by omega
    simp only [hg, dite_true]
    cases hf : fetch (a + 1) with
    | response status =>
      rw [hf] at hcur
      have hno : responseOk status = false := by simpa [FetchResult.failed] using hcur
      simp only [hno]
      rw [ih (a + 1) (some (.http_error status)) hnext hrest, hidx]
      cases n with
      | zero =>
        have hs : retrySleep config (a + 1) = [] := by
          simp only [retrySleep]; rw [if_neg]; push_cast; omega
        simp [hs, spacedRequests_one, hf, FetchResult.recorded, spacedRequests_zero]
      | succ m =>
        have hs : retrySleep config (a + 1) = [ProbeEvent.sleep config.delay] := by
          simp only [retrySleep]; rw [if_pos]; push_cast at hn ⊢; omega
        simp [hs, spacedRequests_succ_succ]
    | failure message =>
      simp only []
      rw [ih (a + 1) (some (.network_error message)) hnext hrest, hidx]
      cases n with
      | zero =>
        have hs : retrySleep config (a + 1) = [] := by
          simp only [retrySleep]; rw [if_neg]; push_cast; omega
        simp [hs, spacedRequests_one, hf, FetchResult.recorded, spacedRequests_zero]
      | succ m =>
        have hs : retrySleep config (a + 1) = [ProbeEvent.sleep config.delay] := by
          simp only [retrySleep]; rw [if_pos]; push_cast at hn ⊢; omega
        simp [hs, spacedRequests_succ_succ]

/-- The loop when the attempt `a + n + 1` is the first one answered with an ok
status: it returns there, after `n + 1` requests. -/
theorem wakeupLoop_first_ok (fetch : Nat → FetchResult) (domain url : String) (config : Config)
    (status : Nat) (hok : responseOk status = true) (n : Nat) :
    ∀ (a : Nat) (last : Option LastKnownError),
      (a : Int) + n ≤ config.retries →
      (∀ j, a < j → j ≤ a + n → (fetch j).failed = true) →
      fetch (a + n + 1) = .response status →
      wakeupLoop fetch domain url config a last =
        (.returned { domain := .str domain, status := "成功", statusCode := some status,
                     attempts := ((a + n + 1 : Nat) : Int), error := none },
         spacedRequests url config.delay (n + 1) ++
           if config.redisClient then
             [ProbeEvent.saveDomainLog domain
               { status := "成功", statusCode := some status, url := url,
                 attempts := ((a + n + 1 : Nat) : Int), error := none }]
           else []) := by
  induction n with
  | zero =>
    intro a last hn _ hf
    rw [wakeupLoop]
    have hg : (a : Int) ≤ config.retries := by omega
    simp only [hg, dite_true]
    have hf0 : fetch (a + 1) = .response status := by simpa using hf
    rw [hf0]
    simp [hok, spacedRequests_one]
  | succ n ih =>
    intro a last hn hfail hf
    rw [wakeupLoop]
    have hg : (a : Int) ≤ config.retries := by omega
    have hnext : ((a + 1 : Nat) : Int) + n ≤ config.retries := by push_cast; omega
    have hrest : ∀ j, a + 1 < j → j ≤ a + 1 + n → (fetch j).failed = true :=
      fun j h1 h2 => hfail j (by omega) (by omega)
    have hcur := hfail (a + 1) (by omega) (by omega)
    have hidx : a + 1 + n + 1 = a + (n + 1) + 1 := by omega
    have hf1 : fetch (a + 1 + n + 1) = .response status := by rw [hidx]; exact hf
    have hs : retrySleep config (a + 1) = [ProbeEvent.sleep config.delay] := by
      simp only [retrySleep]; rw [if_pos]; push_cast at hn ⊢; omega
    simp only [hg, dite_true]
    cases hc : fetch (a + 1) with
    | response code =>
      rw [hc] at hcur
      have hno : responseOk code = false := by simpa [FetchResult.failed] using hcur
      simp only [hno]
      rw [ih (a + 1) (some (.http_error code)) hnext hrest hf1, hidx, hs]
      simp [spacedRequests_succ_succ]
    | failure message =>
      simp only []
      rw [ih (a + 1) (some (.network_error message)) hnext hrest hf1, hidx, hs]
      simp [spacedRequests_succ_succ]

/-- A spaced run of `n` requests holds `n` requests. -/
theorem spacedRequests_countP_isRequest (url : String) (delay : Int) (n : Nat) :
    (spacedRequests url delay n).countP ProbeEvent.isRequest = n := by
  induction n with
  | zero => simp [spacedRequests_zero]
  | succ n ih =>
    cases n with
    | zero => simp [spacedRequests_one, ProbeEvent.isRequest]
    | succ m =>
      rw [spacedRequests_succ_succ]
      simp [List.countP_cons, ProbeEvent.isRequest, ih]

/-- A spaced run of `n + 1` requests holds `n` sleeps. -/
theorem spacedRequests_countP_isSleep (url : String) (delay : Int) (n : Nat) :
    (spacedRequests url delay (n + 1)).countP ProbeEvent.isSleep = n := by
  induction n with
  | zero => simp [spacedRequests_one, ProbeEvent.isSleep]
  | succ m ih =>
    rw [spacedRequests_succ_succ]
    simp [List.countP_cons, ProbeEvent.isSleep, ih]

/-- A spaced run holds no log write. -/
theorem spacedRequests_filter_not_isLog (url : String) (delay : Int) (n : Nat) :
    (spacedRequests url delay n).filter (fun e => !e.isLog) = spacedRequests url delay n := by
  rw [List.filter_eq_self]
  intro e he
  have hmem : e = ProbeEvent.sleep delay ∨ e = ProbeEvent.request url := by
    induction n with
    | zero => simp [spacedRequests_zero] at he
    | succ n ih =>
      cases n with
      | zero =>
        rw [spacedRequests_one] at he
        right; simpa using he
      | succ m =>
        rw [spacedRequests_succ_succ] at he
        simp only [List.mem_cons] at he
        rcases he with h | h | h
        · right; exact h
        · left; exact h
        · exact ih h
  rcases hmem with h | h <;> simp [h, ProbeEvent.isLog]

/-- The log written after the loop is a list of log writes. -/
theorem failureOutcome_log (domain url : String) (config : Config) (attempts : Nat)
    (last : Option LastKnownError) :
    ∀ e ∈ (failureOutcome domain url config attempts last).2, e.isLog = true := by
  intro e he
  simp only [failureOutcome] at he
  split at he
  · simp only [List.mem_singleton] at he
    rw [he]; rfl
  · simp at he

/-- A run in which all `retries + 1` attempts fail. -/
theorem performWakeup_all_fail (domain : String) (config : Config) (fetch : Nat → FetchResult)
    (R : Nat) (hr : config.retries = (R : Int))
    (hfail : ∀ j, 1 ≤ j → j ≤ R + 1 → (fetch j).failed = true) :
    performWakeup (.str domain) config fetch =
      { result := .ok (failureOutcome domain (wakeupUrl domain) config (R + 1)
          (some (fetch (R + 1)).recorded)).1
        events := spacedRequests (wakeupUrl domain) config.delay (R + 1) ++
          (failureOutcome domain (wakeupUrl domain) config (R + 1)
            (some (fetch (R + 1)).recorded)).2 } := by
  have h := wakeupLoop_all_fail fetch domain (wakeupUrl domain) config (R + 1) 0 none
    (by push_cast; omega) (fun j h1 h2 => hfail j (by omega) (by omega))
  simp only [performWakeup, h]
  simp

/-- A run in which attempt `i` is the first one answered with an ok status. -/
theorem performWakeup_first_ok (domain : String) (config : Config) (fetch : Nat → FetchResult)
    (i status : Nat) (hi : 1 ≤ i) (hle : (i : Int) ≤ config.retries + 1)
    (hfail : ∀ j, 1 ≤ j → j < i → (fetch j).failed = true)
    (hf : fetch i = .response status) (hok : responseOk status = true) :
    performWakeup (.str domain) config fetch =
      { result := .ok { domain := .str domain, status := "成功", statusCode := some status,
                        attempts := (i : Int), error := none }
        events := spacedRequests (wakeupUrl domain) config.delay i ++
          if config.redisClient then
            [ProbeEvent.saveDomainLog domain
              { status := "成功", statusCode := some status, url := wakeupUrl domain,
                attempts := (i : Int), error := none }]
          else [] } := by
  obtain ⟨n, rfl⟩ : ∃ n, i = n + 1 := ⟨i - 1, by omega⟩
  have h := wakeupLoop_first_ok fetch domain (wakeupUrl domain) config status hok n 0 none
    (by push_cast at hle ⊢; omega) (fun j h1 h2 => hfail j (by omega) (by omega))
    (by simpa using hf)
  simp only [performWakeup, h]
  simp

/-- A list of log writes holds no request and no sleep. -/
theorem log_writes_only (l : List ProbeEvent) (hl : ∀ e ∈ l, e.isLog = true) :
    l.countP ProbeEvent.isRequest = 0 ∧ l.countP ProbeEvent.isSleep = 0 ∧
      l.filter (fun e => !e.isLog) = [] := by
  refine ⟨?_, ?_, ?_⟩
  · rw [List.countP_eq_zero]
    intro e he
    have := hl e he
    cases e <;> simp_all [ProbeEvent.isLog, ProbeEvent.isRequest]
  · rw [List.countP_eq_zero]
    intro e he
    have := hl e he
    cases e <;> simp_all [ProbeEvent.isLog, ProbeEvent.isSleep]
  · rw [List.filter_eq_nil_iff]
    intro e he
    simp [hl e he]

/-- The log written on success is a list of log writes. -/
theorem successLog_isLog (domain : String) (logData : LogData) (b : Bool) :
    ∀ e ∈ (if b then [ProbeEvent.saveDomainLog domain logData] else []), e.isLog = true := by
  intro e he
  cases b
  · simp at he
  · simp only [if_true, List.mem_singleton] at he
    rw [he]; rfl

/-- Every run with `retries = R ≥ 0` issues some number `n` of requests between 1
and `R + 1`, with a sleep between consecutive ones and none after the last. -/
theorem performWakeup_events_spaced (domain : String) (config : Config)
    (fetch : Nat → FetchResult) (R : Nat) (hR : config.retries = (R : Int)) :
    ∃ n, 1 ≤ n ∧ n ≤ R + 1 ∧
      (performWakeup (.str domain) config fetch).events.filter (fun e => !e.isLog) =
        spacedRequests (wakeupUrl domain) config.delay n ∧
      (performWakeup (.str domain) config fetch).events.countP ProbeEvent.isSleep = n - 1 := by
  by_cases hex : ∃ j, (1 ≤ j ∧ j ≤ R + 1) ∧ (fetch j).failed = false
  · obtain ⟨⟨h1, h2⟩, h3⟩ := Nat.find_spec hex
    have hmin : ∀ j, 1 ≤ j → j < Nat.find hex → (fetch j).failed = true := by
      intro j hj hlt
      have hnot := Nat.find_min hex hlt
      cases hfj : (fetch j).failed with
      | true => rfl
      | false => exact absurd ⟨⟨hj, by omega⟩, hfj⟩ hnot
    cases hf : fetch (Nat.find hex) with
    | failure message => simp [hf, FetchResult.failed] at h3
    | response status =>
      have hok : responseOk status = true := by simpa [hf, FetchResult.failed] using h3
      have hlog := log_writes_only _ (successLog_isLog domain
        { status := "成功", statusCode := some status, url := wakeupUrl domain,
          attempts := ((Nat.find hex : Nat) : Int), error := none } config.redisClient)
      refine ⟨Nat.find hex, h1, h2, ?_, ?_⟩
      · rw [performWakeup_first_ok domain config fetch (Nat.find hex) status h1
          (by rw [hR]; exact_mod_cast h2) hmin hf hok]
        simp only [List.filter_append, spacedRequests_filter_not_isLog, hlog.2.2,
          List.append_nil]
      · rw [performWakeup_first_ok domain config fetch (Nat.find hex) status h1
          (by rw [hR]; exact_mod_cast h2) hmin hf hok]
        obtain ⟨m, hm⟩ : ∃ m, Nat.find hex = m + 1 := ⟨Nat.find hex - 1, by omega⟩
        rw [hm] at hlog ⊢
        simp only [List.countP_append, spacedRequests_countP_isSleep, hlog.2.1]
        rfl
  · have hfail : ∀ j, 1 ≤ j → j ≤ R + 1 → (fetch j).failed = true := by
      intro j h1 h2
      cases hfj : (fetch j).failed with
      | true => rfl
      | false => exact absurd ⟨j, ⟨h1, h2⟩, hfj⟩ hex
    have hlog := log_writes_only _ (failureOutcome_log domain (wakeupUrl domain) config (R + 1)
      (some (fetch (R + 1)).recorded))
    refine ⟨R + 1, by omega, le_refl _, ?_, ?_⟩
    · rw [performWakeup_all_fail domain config fetch R hR hfail]
      simp only [List.filter_append, spacedRequests_filter_not_isLog, hlog.2.2,
        List.append_nil]
    · rw [performWakeup_all_fail domain config fetch R hR hfail]
      simp only [List.countP_append, spacedRequests_countP_isSleep, hlog.2.1]
      rfl

/-! ## Claims on the wakeup probe -/

/-- C6: with `retries ≥ 0`, when every response is a non-ok HTTP status,
`performWakeup` issues exactly `retries + 1` requests and returns a failure outcome
with `attempts = retries + 1` and the status code of the last response. -/
theorem performWakeup_all_http_errors (domain : String) (config : Config)
    (fetch : Nat → FetchResult) (h : 0 ≤ config.retries)
    (hall : ∀ j : Nat, 1 ≤ j → (j : Int) ≤ config.retries + 1 →
      ∃ code, fetch j = .response code ∧ responseOk code = false) :
    ∃ outcome code,
      (performWakeup (.str domain) config fetch).result = .ok outcome ∧
      outcome.status = "失败" ∧
      outcome.attempts = config.retries + 1 ∧
      fetch (config.retries + 1).toNat = .response code ∧
      outcome.statusCode = some code ∧
      (((performWakeup (.str domain) config fetch).events.countP ProbeEvent.isRequest : Nat) : Int)
        = config.retries + 1 := by
  obtain ⟨R, hR⟩ : ∃ R : Nat, config.retries = (R : Int) := ⟨config.retries.toNat, by omega⟩
  have hfail : ∀ j, 1 ≤ j → j ≤ R + 1 → (fetch j).failed = true := by
    intro j h1 h2
    obtain ⟨code, hc, hno⟩ := hall j h1 (by rw [hR]; exact_mod_cast h2)
    simp [hc, FetchResult.failed, hno]
  have hidx : (config.retries + 1).toNat = R + 1 := by omega
  obtain ⟨code, hc, _⟩ := hall (R + 1) (by omega) (by rw [hR]; push_cast; omega)
  rw [performWakeup_all_fail domain config fetch R hR hfail, hidx]
  refine ⟨_, code, rfl, rfl, ?_, hc, ?_, ?_⟩
  · simp [failureOutcome, hR]
  · simp [failureOutcome, hc, FetchResult.recorded]
  · have hlog := log_writes_only _ (failureOutcome_log domain (wakeupUrl domain) config (R + 1)
      (some (fetch (R + 1)).recorded))
    simp only [List.countP_append, spacedRequests_countP_isRequest, hlog.1, hR]
    push_cast
    ring

/-- C6 at `retries = 2` with status 500 on every attempt: three requests, a
failure outcome with three attempts and status code 500. -/
theorem performWakeup_all_http_errors_witness :
    ∃ outcome code,
      (performWakeup (.str "a.example") sampleConfig alwaysStatus500).result = .ok outcome ∧
      outcome.status = "失败" ∧
      outcome.attempts = sampleConfig.retries + 1 ∧
      alwaysStatus500 (sampleConfig.retries + 1).toNat = .response code ∧
      outcome.statusCode = some code ∧
      (((performWakeup (.str "a.example") sampleConfig alwaysStatus500).events.countP
        ProbeEvent.isRequest : Nat) : Int) = sampleConfig.retries + 1 :=
  performWakeup_all_http_errors "a.example" sampleConfig alwaysStatus500 (by decide)
    (fun _ _ _ => ⟨500, rfl, by decide⟩)

/-- C7: when the `i`-th response (`1 ≤ i ≤ retries + 1`) is the first one with an
ok status, `performWakeup` returns a success outcome with `attempts = i`, that
status code and a null error, and `i` requests are issued in all. -/
theorem performWakeup_first_ok_outcome (domain : String) (config : Config)
    (fetch : Nat → FetchResult) (i status : Nat)
    (hi : 1 ≤ i) (hle : (i : Int) ≤ config.retries + 1)
    (hfail : ∀ j, 1 ≤ j → j < i → (fetch j).failed = true)
    (hf : fetch i = .response status) (hok : responseOk status = true) :
    (performWakeup (.str domain) config fetch).result =
        .ok { domain := .str domain, status := "成功", statusCode := some status,
              attempts := (i : Int), error := none } ∧
      (performWakeup (.str domain) config fetch).events.countP ProbeEvent.isRequest = i := by
  rw [performWakeup_first_ok domain config fetch i status hi hle hfail hf hok]
  refine ⟨rfl, ?_⟩
  have hlog := log_writes_only _ (successLog_isLog domain
    { status := "成功", statusCode := some status, url := wakeupUrl domain,
      attempts := (i : Int), error := none } config.redisClient)
  simp only [List.countP_append, spacedRequests_countP_isRequest, hlog.1]
  rfl

/-- C7 on a network whose third request is the first one answered ok (204). -/
theorem performWakeup_first_ok_outcome_witness :
    (performWakeup (.str "a.example") sampleConfig okOnThird).result =
        .ok { domain := .str "a.example", status := "成功", statusCode := some 204,
              attempts := ((3 : Nat) : Int), error := none } ∧
      (performWakeup (.str "a.example") sampleConfig okOnThird).events.countP
        ProbeEvent.isRequest = 3 :=
  performWakeup_first_ok_outcome "a.example" sampleConfig okOnThird 3 204 (by decide) (by decide)
    (by
      intro j h1 h2
      have hj : j = 1 ∨ j = 2 := by omega
      rcases hj with rfl | rfl <;> decide)
    (by decide) (by decide)

/-- C8: with `retries ≥ 0`, when all `retries + 1` attempts fail, the failure
outcome is classified by the last attempt alone: a non-ok status `c` there gives
`statusCode = c` and the HTTP-error string of `c`; a transport failure with
message `m` there gives a null `statusCode` and `error = m`. -/
theorem performWakeup_failure_last_attempt (domain : String) (config : Config)
    (fetch : Nat → FetchResult) (h : 0 ≤ config.retries)
    (hall : ∀ j : Nat, 1 ≤ j → (j : Int) ≤ config.retries + 1 → (fetch j).failed = true) :
    ∃ outcome,
      (performWakeup (.str domain) config fetch).result = .ok outcome ∧
      outcome.status = "失败" ∧
      (∀ c, fetch (config.retries + 1).toNat = .response c →
        outcome.statusCode = some c ∧ outcome.error = some (httpErrorString c)) ∧
      (∀ m, fetch (config.retries + 1).toNat = .failure m →
        outcome.statusCode = none ∧ outcome.error = some m) := by
  obtain ⟨R, hR⟩ : ∃ R : Nat, config.retries = (R : Int) := ⟨config.retries.toNat, by omega⟩
  have hfail : ∀ j, 1 ≤ j → j ≤ R + 1 → (fetch j).failed = true :=
    fun j h1 h2 => hall j h1 (by rw [hR]; exact_mod_cast h2)
  have hidx : (config.retries + 1).toNat = R + 1 := by omega
  rw [performWakeup_all_fail domain config fetch R hR hfail, hidx]
  refine ⟨_, rfl, rfl, ?_, ?_⟩
  · intro c hc
    simp [failureOutcome, hc, FetchResult.recorded]
  · intro m hm
    simp [failureOutcome, hm, FetchResult.recorded]

/-- C8 at `retries = 2`, the first attempt answered 502 and the last two failing
in transport: the outcome carries the transport message and no status code. -/
theorem performWakeup_failure_last_attempt_witness :
    ∃ outcome,
      (performWakeup (.str "a.example") sampleConfig unreachableAfterFirst).result = .ok outcome ∧
      outcome.status = "失败" ∧
      (∀ c, unreachableAfterFirst (sampleConfig.retries + 1).toNat = .response c →
        outcome.statusCode = some c ∧ outcome.error = some (httpErrorString c)) ∧
      (∀ m, unreachableAfterFirst (sampleConfig.retries + 1).toNat = .failure m →
        outcome.statusCode = none ∧ outcome.error = some m) :=
  performWakeup_failure_last_attempt "a.example" sampleConfig unreachableAfterFirst (by decide)
    (by
      intro j _ _
      by_cases hj : j = 1
      · subst hj; decide
      · simp [unreachableAfterFirst, hj, FetchResult.failed])

/-- C9: with `retries ≥ 0`, the requests and sleeps of every run are its requests
(between 1 and `retries + 1` of them) with one sleep of `config.delay` between
consecutive ones and none after the last: when all attempts fail there are
`retries + 1` requests and `retries` sleeps, and when attempt `i` is the first ok
one there are `i` requests and `i - 1` sleeps. -/
theorem performWakeup_sleeps_between_attempts (domain : String) (config : Config)
    (fetch : Nat → FetchResult) (h : 0 ≤ config.retries) :
    (∃ n : Nat, 1 ≤ n ∧ (n : Int) ≤ config.retries + 1 ∧
      (performWakeup (.str domain) config fetch).events.filter (fun e => !e.isLog) =
        spacedRequests (wakeupUrl domain) config.delay n ∧
      (performWakeup (.str domain) config fetch).events.countP ProbeEvent.isSleep = n - 1) ∧
    ((∀ j : Nat, 1 ≤ j → (j : Int) ≤ config.retries + 1 → (fetch j).failed = true) →
      (performWakeup (.str domain) config fetch).events.filter (fun e => !e.isLog) =
          spacedRequests (wakeupUrl domain) config.delay (config.retries + 1).toNat ∧
        (((performWakeup (.str domain) config fetch).events.countP ProbeEvent.isSleep : Nat) : Int)
          = config.retries) ∧
    (∀ i status : Nat, 1 ≤ i → (i : Int) ≤ config.retries + 1 →
      (∀ j, 1 ≤ j → j < i → (fetch j).failed = true) →
      fetch i = .response status → responseOk status = true →
      (performWakeup (.str domain) config fetch).events.filter (fun e => !e.isLog) =
          spacedRequests (wakeupUrl domain) config.delay i ∧
        (performWakeup (.str domain) config fetch).events.countP ProbeEvent.isSleep = i - 1) := by
  obtain ⟨R, hR⟩ : ∃ R : Nat, config.retries = (R : Int) := ⟨config.retries.toNat, by omega⟩
  refine ⟨?_, ?_, ?_⟩
  · obtain ⟨n, h1, h2, h3, h4⟩ := performWakeup_events_spaced domain config fetch R hR
    exact ⟨n, h1, by rw [hR]; exact_mod_cast h2, h3, h4⟩
  · intro hall
    have hfail : ∀ j, 1 ≤ j → j ≤ R + 1 → (fetch j).failed = true :=
      fun j h1 h2 => hall j h1 (by rw [hR]; exact_mod_cast h2)
    have hidx : (config.retries + 1).toNat = R + 1 := by omega
    have hlog := log_writes_only _ (failureOutcome_log domain (wakeupUrl domain) config (R + 1)
      (some (fetch (R + 1)).recorded))
    rw [performWakeup_all_fail domain config fetch R hR hfail, hidx]
    constructor
    · simp only [List.filter_append, spacedRequests_filter_not_isLog, hlog.2.2,
        List.append_nil]
    · simp only [List.countP_append, spacedRequests_countP_isSleep, hlog.2.1, hR]
      rfl
  · intro i status hi hle hfail hf hok
    have hlog := log_writes_only _ (successLog_isLog domain
      { status := "成功", statusCode := some status, url := wakeupUrl domain,
        attempts := (i : Int), error := none } config.redisClient)
    rw [performWakeup_first_ok domain config fetch i status hi hle hfail hf hok]
    obtain ⟨n, rfl⟩ : ∃ n, i = n + 1 := ⟨i - 1, by omega⟩
    constructor
    · simp only [List.filter_append, spacedRequests_filter_not_isLog, hlog.2.2,
        List.append_nil]
    · simp only [List.countP_append, spacedRequests_countP_isSleep, hlog.2.1]
      rfl

/-- C9 at `retries = 2` with every attempt answered 500: two sleeps of 2000 ms,
one between each pair of consecutive requests. -/
theorem performWakeup_sleeps_between_attempts_witness :
    (performWakeup (.str "a.example") sampleConfig alwaysStatus500).events.filter
        (fun e => !e.isLog) =
        spacedRequests (wakeupUrl "a.example") sampleConfig.delay (sampleConfig.retries + 1).toNat ∧
      (((performWakeup (.str "a.example") sampleConfig alwaysStatus500).events.countP
        ProbeEvent.isSleep : Nat) : Int) = sampleConfig.retries :=
  (performWakeup_sleeps_between_attempts "a.example" sampleConfig alwaysStatus500
    (by decide)).2.1 (fun _ _ _ => rfl)

/-! ## The task runner -/

/-- An outcome returned from inside the loop carries the probed domain. -/
theorem wakeupLoop_returned_domain (fetch : Nat → FetchResult) (domain url : String)
    (config : Config) (n : Nat) :
    ∀ (a : Nat) (last : Option LastKnownError) (o : TaskOutcome),
      (config.retries + 1 - a).toNat = n →
      (wakeupLoop fetch domain url config a last).1 = .returned o → o.domain = .str domain := by
  induction n with
  | zero =>
    intro a last o hn
    rw [wakeupLoop]
    have hg : ¬ ((a : Int) ≤ config.retries) := by omega
    simp [hg]
  | succ n ih =>
    intro a last o hn
    rw [wakeupLoop]
    have hg : (a : Int) ≤ config.retries := by omega
    have hnext : (config.retries + 1 - ((a + 1 : Nat) : Int)).toNat = n := by push_cast; omega
    simp only [hg, dite_true]
    cases hf : fetch (a + 1) with
    | response status =>
      cases hs : responseOk status with
      | true =>
        simp only [hs, if_true]
        intro ho
        simp only [LoopExit.returned.injEq] at ho
        rw [← ho]
      | false =>
        simp only [hs, Bool.false_eq_true, if_false]
        exact ih (a + 1) _ o hnext
    | failure message =>
      simp only []
      exact ih (a + 1) _ o hnext

/-- A fulfilled probe reports the domain it was given. -/
theorem performWakeup_ok_domain (domain : JsValue) (config : Config) (fetch : Nat → FetchResult)
    (value : TaskOutcome) (h : (performWakeup domain config fetch).result = .ok value) :
    value.domain = domain := by
  cases domain with
  | str d =>
    simp only [performWakeup] at h
    cases hl : wakeupLoop fetch d (wakeupUrl d) config 0 none with
    | mk exit events =>
      rw [hl] at h
      cases exit with
      | returned o =>
        simp only [Except.ok.injEq] at h
        subst h
        exact wakeupLoop_returned_domain fetch d (wakeupUrl d) config _ 0 none o rfl
          (by rw [hl])
      | exhausted attempts last =>
        simp only [Except.ok.injEq] at h
        subst h
        rfl
  | num n => simp [performWakeup] at h
  | bool b => simp [performWakeup] at h
  | null => simp [performWakeup] at h

/-- One final outcome per settled outcome. -/
theorem finalOutcomesFrom_length (config : Config) (l : List (Except JsError TaskOutcome)) :
    ∀ k, (finalOutcomesFrom config k l).length = l.length := by
  induction l with
  | nil => intro k; rfl
  | cons x xs ih => intro k; simp [finalOutcomesFrom, ih]

/-- One settled outcome per domain. -/
theorem settledOutcomesFrom_length (config : Config) (fetch : Nat → Nat → FetchResult)
    (ds : List JsValue) : ∀ k, (settledOutcomesFrom config fetch k ds).length = ds.length := by
  induction ds with
  | nil => intro k; rfl
  | cons x xs ih => intro k; simp [settledOutcomesFrom, ih]

/-- The final outcome at a position is built from the settled outcome at that
position. -/
theorem finalOutcomesFrom_getElem? (config : Config) (l : List (Except JsError TaskOutcome)) :
    ∀ k i, (finalOutcomesFrom config k l)[i]? =
      (l[i]?).map (fun o => finalOutcome config o (k + i)) := by
  induction l with
  | nil => intro k i; simp [finalOutcomesFrom]
  | cons x xs ih =>
    intro k i
    cases i with
    | zero => simp [finalOutcomesFrom]
    | succ i =>
      simp only [finalOutcomesFrom, List.getElem?_cons_succ, ih]
      congr 1
      funext o
      congr 1
      omega

/-- The settled outcome at a position is that of the probe of the domain at that
position. -/
theorem settledOutcomesFrom_getElem? (config : Config) (fetch : Nat → Nat → FetchResult)
    (ds : List JsValue) :
    ∀ k i, (settledOutcomesFrom config fetch k ds)[i]? =
      (ds[i]?).map (fun d => (performWakeup d config (fetch (k + i))).result) := by
  induction ds with
  | nil => intro k i; simp [settledOutcomesFrom]
  | cons x xs ih =>
    intro k i
    cases i with
    | zero => simp [settledOutcomesFrom]
    | succ i =>
      simp only [settledOutcomesFrom, List.getElem?_cons_succ, ih]
      congr 1
      funext d
      have e : k + 1 + i = k + (i + 1) := by omega
      rw [e]

/-- The report of a batch without a top-level error, position by position. -/
theorem executeAllWakeups_getElem? (config : Config) (fetch : Nat → Nat → FetchResult)
    (h : config.hasError = false) (i : Nat) :
    (executeAllWakeups config fetch).outcomes[i]? =
      (config.domains[i]?).map
        (fun d => finalOutcome config (performWakeup d config (fetch i)).result i) := by
  simp only [executeAllWakeups, h, Bool.false_eq_true, if_false]
  rw [finalOutcomesFrom_getElem?, settledOutcomesFrom_getElem?]
  cases config.domains[i]? <;> simp

/-! ## Claims on the task runner -/

/-- C10: for a config without a top-level error, `executeAllWakeups` returns one
outcome per input domain, and the outcome at position `i` is that of the task of
`config.domains[i]`: the value of the task when it is fulfilled (which names that
domain), a system-error outcome when it throws. -/
theorem executeAllWakeups_outcome_per_domain (config : Config) (fetch : Nat → Nat → FetchResult)
    (h : config.hasError = false) :
    (executeAllWakeups config fetch).outcomes.length = config.domains.length ∧
    ∀ (i : Nat) (hi : i < config.domains.length),
      (∀ value, (performWakeup (config.domains.get ⟨i, hi⟩) config (fetch i)).result = .ok value →
        (executeAllWakeups config fetch).outcomes[i]? = some value ∧
          value.domain = config.domains.get ⟨i, hi⟩) ∧
      (∀ reason,
        (performWakeup (config.domains.get ⟨i, hi⟩) config (fetch i)).result = .error reason →
        ∃ o, (executeAllWakeups config fetch).outcomes[i]? = some o ∧ o.status = "系统错误" ∧
          o = finalOutcome config (.error reason) i) := by
  constructor
  · simp only [executeAllWakeups, h, Bool.false_eq_true, if_false]
    rw [finalOutcomesFrom_length, settledOutcomesFrom_length]
  · intro i hi
    have hget : config.domains[i]? = some (config.domains.get ⟨i, hi⟩) := by
      simp [List.getElem?_eq_getElem hi]
    have hout := executeAllWakeups_getElem? config fetch h i
    rw [hget] at hout
    simp only [Option.map_some'] at hout
    constructor
    · intro value hv
      rw [hv] at hout
      exact ⟨hout, performWakeup_ok_domain _ config (fetch i) value hv⟩
    · intro reason hr
      rw [hr] at hout
      exact ⟨_, hout, rfl, rfl⟩

/-- C10 on a batch of three domains whose second task throws: three outcomes, the
second one a system-error outcome. -/
theorem executeAllWakeups_outcome_per_domain_witness :
    (executeAllWakeups sampleConfig (fun _ => okOnThird)).outcomes.length = 3 ∧
    ∃ reason o,
      (performWakeup (.num 7) sampleConfig okOnThird).result = .error reason ∧
      (executeAllWakeups sampleConfig (fun _ => okOnThird)).outcomes[1]? = some o ∧
      o.status = "系统错误" := by
  have h := executeAllWakeups_outcome_per_domain sampleConfig (fun _ => okOnThird) rfl
  obtain ⟨o, h1, h2, _⟩ := (h.2 1 (by decide)).2 (startsWithTypeError (.num 7)) rfl
  exact ⟨h.1, _, o, rfl, h1, h2⟩

/-- A rejected probe carries a non-empty message. -/
theorem performWakeup_error_message (domain : JsValue) (config : Config)
    (fetch : Nat → FetchResult) (e : JsError)
    (h : (performWakeup domain config fetch).result = .error e) : e.message ≠ "" := by
  cases domain with
  | str d =>
    simp only [performWakeup] at h
    cases hl : wakeupLoop fetch d (wakeupUrl d) config 0 none with
    | mk exit events =>
      rw [hl] at h
      cases exit <;> simp at h
  | num n =>
    simp only [performWakeup, Except.error.injEq] at h
    subst h
    simp only [startsWithTypeError]
    decide
  | bool b =>
    simp only [performWakeup, Except.error.injEq] at h
    subst h
    simp only [startsWithTypeError]
    decide
  | null =>
    simp only [performWakeup, Except.error.injEq] at h
    subst h
    decide

/-- C11, as stated, fails when the domain of the rejected task is falsy: for
`config.domains = [null, "b.example"]` the task of `null` rejects and the outcome
at index 0 names the placeholder domain, not `config.domains[0]`. -/
theorem executeAllWakeups_rejected_domain_counterexample :
    (∃ e, (performWakeup .null nullDomainConfig okOnThird).result = .error e) ∧
      nullDomainConfig.domains[0]? = some JsValue.null ∧
      (executeAllWakeups nullDomainConfig (fun _ => okOnThird)).outcomes[0]? =
        some { domain := .str "未知域名", status := "系统错误", statusCode := none,
               attempts := 3,
               error := some "Cannot read properties of null (reading \x27startsWith\x27)" } ∧
      JsValue.str "未知域名" ≠ JsValue.null := by
  refine ⟨⟨_, rfl⟩, rfl, ?_, by decide⟩
  rw [executeAllWakeups_getElem? nullDomainConfig (fun _ => okOnThird) rfl 0]
  rfl

/-- C11, amended: when the probe task of `config.domains[i]` rejects with an
exception `e`, the outcome at index `i` has status system-error, a null
`statusCode`, `attempts = config.retries + 1`, `error` equal to the message of `e`,
and `domain` equal to `config.domains[i]` when that element is truthy and to the
placeholder `未知域名` otherwise. -/
theorem executeAllWakeups_rejected_outcome (config : Config) (fetch : Nat → Nat → FetchResult)
    (h : config.hasError = false) (i : Nat) (hi : i < config.domains.length) (e : JsError)
    (he : (performWakeup (config.domains.get ⟨i, hi⟩) config (fetch i)).result = .error e) :
    (executeAllWakeups config fetch).outcomes[i]? =
      some { domain := if (config.domains.get ⟨i, hi⟩).truthy then config.domains.get ⟨i, hi⟩
                       else .str "未知域名"
             status := "系统错误"
             statusCode := none
             attempts := config.retries + 1
             error := some e.message } := by
  have hget : config.domains[i]? = some (config.domains.get ⟨i, hi⟩) := by
    simp [List.getElem?_eq_getElem hi]
  have hmsg := performWakeup_error_message _ config (fetch i) e he
  rw [executeAllWakeups_getElem? config fetch h i, hget]
  simp only [Option.map_some', he, finalOutcome, hget, hmsg, ne_eq, not_false_eq_true, if_true]

/-- C11, amended, on a batch of three domains whose second element is the
number 7. -/
theorem executeAllWakeups_rejected_outcome_witness :
    (executeAllWakeups sampleConfig (fun _ => okOnThird)).outcomes[1]? =
      some { domain := if (sampleConfig.domains.get ⟨1, by decide⟩).truthy
                         then sampleConfig.domains.get ⟨1, by decide⟩
                       else .str "未知域名"
             status := "系统错误"
             statusCode := none
             attempts := sampleConfig.retries + 1
             error := some (startsWithTypeError (.num 7)).message } :=
  executeAllWakeups_rejected_outcome sampleConfig (fun _ => okOnThird) rfl 1 (by decide)
    (startsWithTypeError (.num 7)) rfl

/-! ## The key space -/

/-- No config key equals the registry key. -/
theorem registryKey_ne_configKey (domain : String) : registryKey ≠ configKey domain := by
  intro h
  have hd := congrArg String.data h
  simp [registryKey, configKey] at hd

/-- No log key equals the registry key. -/
theorem registryKey_ne_logsKey (domain : String) : registryKey ≠ logsKey domain := by
  intro h
  have hd := congrArg String.data h
  simp [registryKey, logsKey] at hd

/-- The config key and the log key of one domain differ. -/
theorem configKey_ne_logsKey (domain : String) : configKey domain ≠ logsKey domain := by
  intro h
  have hd := congrArg (fun s => s.data.length) h
  simp [configKey, logsKey] at hd

/-! ## The registry -/

/-- Reading a registry stored in the current format changes nothing. -/
theorem getDomains_entries (w : World) (l : List DomainEntry)
    (hw : w.domains = some (.entries l)) : getDomains w = (l, w) := by
  simp [getDomains, hw]

/-- After `getDomains` the store holds the returned list, unless it holds no
registry at all. -/
theorem getDomains_stored (w : World) :
    (getDomains w).2.domains = some (.entries (getDomains w).1) ∨
      (w.domains = none ∧ getDomains w = ([], w)) := by
  cases hw : w.domains with
  | none => right; simp [getDomains, hw]
  | some v =>
    cases v with
    | entries l => left; simp [getDomains, hw]
    | legacy first rest => left; simp [getDomains, hw, setDomains]

/-- Reading a config leaves the registry as it is. -/
theorem RedisClient.getDomainConfig_domains (domain : String) (w : World) :
    (RedisClient.getDomainConfig domain w).2.domains = w.domains := by
  simp only [RedisClient.getDomainConfig]
  split <;> rfl

/-- Below `10 ^ 21` in absolute value `parseInt` is the identity. -/
theorem parseInt_small (n : Int) (h1 : -10 ^ 21 < n) (h2 : n < 10 ^ 21) : parseInt n = n := by
  have h : n.natAbs < 10 ^ 21 := by omega
  unfold parseInt
  rw [if_pos h]

/-- The end of `addDomain` answers the given code, leaves the registry as it is
and stores the interval that `parseInt` reads. -/
theorem RedisClient.addDomainConfig_spec (domain : String) (interval : Int) (code : String)
    (w : World) :
    (RedisClient.addDomainConfig domain interval code w).1 =
        { success := true, verificationCode := some code, error := none } ∧
      (RedisClient.addDomainConfig domain interval code w).2.domains = w.domains ∧
      ∃ c, (RedisClient.addDomainConfig domain interval code w).2.keys (configKey domain) =
        some (.config c) ∧ c.interval = parseInt interval := by
  refine ⟨rfl, ?_, ?_⟩
  · simp only [RedisClient.addDomainConfig, World.set]
    exact RedisClient.getDomainConfig_domains domain w
  · simp only [RedisClient.addDomainConfig, World.set, Function.update_same]
    exact ⟨_, rfl, rfl⟩

/-- After `RedisClient.addDomain` the registry lists the domain, and the answer is
the code of its first entry. -/
theorem RedisClient.addDomain_registry (x : String) (i : Option Int) (w : World) :
    ∃ l e, (RedisClient.addDomain x i w).2.domains = some (.entries l) ∧
      l.find? (fun item => item.domain == x) = some e ∧
      (RedisClient.addDomain x i w).1 =
        { success := true, verificationCode := some e.verificationCode, error := none } := by
  cases hf : (getDomains w).1.find? (fun item => item.domain == x) with
  | none =>
    simp only [RedisClient.addDomain, hf]
    refine ⟨(getDomains w).1 ++
        [{ domain := x, verificationCode := (generateVerificationCode (getDomains w).2).1,
           addedAt := (generateVerificationCode (getDomains w).2).2.now.1 }],
      { domain := x, verificationCode := (generateVerificationCode (getDomains w).2).1,
                 addedAt := (generateVerificationCode (getDomains w).2).2.now.1 },
      ?_, ?_, (RedisClient.addDomainConfig_spec _ _ _ _).1⟩
    · rw [(RedisClient.addDomainConfig_spec _ _ _ _).2.1]
      rfl
    · simp [List.find?_append, hf]
  | some e =>
    simp only [RedisClient.addDomain, hf]
    refine ⟨(getDomains w).1, e, ?_, hf, (RedisClient.addDomainConfig_spec _ _ _ _).1⟩
    rw [(RedisClient.addDomainConfig_spec _ _ _ _).2.1]
    rcases getDomains_stored w with h | ⟨_, h⟩
    · exact h
    · rw [h] at hf
      simp at hf

/-- `RedisClient.addDomain` on a registry that lists the domain. -/
theorem RedisClient.addDomain_existing (x : String) (i : Option Int) (w : World)
    (l : List DomainEntry) (e : DomainEntry) (hw : w.domains = some (.entries l))
    (hx : l.find? (fun item => item.domain == x) = some e) :
    (RedisClient.addDomain x i w).1 =
        { success := true, verificationCode := some e.verificationCode, error := none } ∧
      (RedisClient.addDomain x i w).2.domains = some (.entries l) := by
  simp only [RedisClient.addDomain, getDomains_entries w l hw, hx]
  exact ⟨(RedisClient.addDomainConfig_spec _ _ _ _).1,
    by rw [(RedisClient.addDomainConfig_spec _ _ _ _).2.1, hw]⟩

/-- After `DomainStorage.addDomain` the registry lists the domain, and the answer
is the code of its first entry. -/
theorem DomainStorage.addDomain_lists (x : String) (w : World) :
    ∃ l e, (DomainStorage.addDomain x w).2.domains = some (.entries l) ∧
      l.find? (fun item => item.domain == x) = some e ∧
      (DomainStorage.addDomain x w).1 =
        { success := true, verificationCode := some e.verificationCode, error := none } := by
  cases hf : (getDomains w).1.find? (fun item => item.domain == x) with
  | none =>
    simp only [DomainStorage.addDomain, hf]
    refine ⟨(getDomains w).1 ++
        [{ domain := x, verificationCode := (generateVerificationCode (getDomains w).2).1,
           addedAt := (generateVerificationCode (getDomains w).2).2.now.1 }],
      { domain := x, verificationCode := (generateVerificationCode (getDomains w).2).1,
                 addedAt := (generateVerificationCode (getDomains w).2).2.now.1 },
      ?_, ?_, ?_⟩
    · rfl
    · simp [List.find?_append, hf]
    · rfl
  | some e =>
    simp only [DomainStorage.addDomain, hf]
    refine ⟨(getDomains w).1, e, ?_, hf, rfl⟩
    rcases getDomains_stored w with h | ⟨_, h⟩
    · exact h
    · rw [h] at hf
      simp at hf

/-- `DomainStorage.addDomain` on a registry that lists the domain. -/
theorem DomainStorage.addDomain_listed (x : String) (w : World)
    (l : List DomainEntry) (e : DomainEntry) (hw : w.domains = some (.entries l))
    (hx : l.find? (fun item => item.domain == x) = some e) :
    DomainStorage.addDomain x w =
      ({ success := true, verificationCode := some e.verificationCode, error := none }, w) := by
  simp only [DomainStorage.addDomain, getDomains_entries w l hw, hx]

/-- The config that `RedisClient.addDomain` stores has the interval that
`parseInt` reads from the requested one. -/
theorem RedisClient.addDomain_config (x : String) (i : Option Int) (w : World) :
    (RedisClient.addDomain x i w).1.success = true ∧
      ∃ c, (RedisClient.addDomain x i w).2.keys (configKey x) = some (.config c) ∧
        c.interval = parseInt (i.getD 5) := by
  cases hf : (getDomains w).1.find? (fun item => item.domain == x) with
  | none =>
    simp only [RedisClient.addDomain, hf]
    exact ⟨by rw [(RedisClient.addDomainConfig_spec _ _ _ _).1],
      (RedisClient.addDomainConfig_spec _ _ _ _).2.2⟩
  | some e =>
    simp only [RedisClient.addDomain, hf]
    exact ⟨by rw [(RedisClient.addDomainConfig_spec _ _ _ _).1],
      (RedisClient.addDomainConfig_spec _ _ _ _).2.2⟩

/-! ## Claims on the registry -/

/-- C12: on a registry that lists `x`, `addDomain(x, i)` of either shell answers
success with the verification code of the entry of `x` and leaves the stored list
as it is; and from any state, a second `addDomain(x)` answers what the first one
answered. -/
theorem addDomain_idempotent (x : String) (i j : Option Int) (w : World)
    (l : List DomainEntry) (e : DomainEntry) (hw : w.domains = some (.entries l))
    (hx : l.find? (fun item => item.domain == x) = some e) :
    ((RedisClient.addDomain x i w).1 =
        { success := true, verificationCode := some e.verificationCode, error := none } ∧
      (RedisClient.addDomain x i w).2.domains = some (.entries l) ∧
      (DomainStorage.addDomain x w).1 =
        { success := true, verificationCode := some e.verificationCode, error := none } ∧
      (DomainStorage.addDomain x w).2.domains = some (.entries l)) ∧
    (∀ w0 : World,
      (RedisClient.addDomain x j (RedisClient.addDomain x i w0).2).1 =
          (RedisClient.addDomain x i w0).1 ∧
        (RedisClient.addDomain x i w0).1.success = true ∧
        (DomainStorage.addDomain x (DomainStorage.addDomain x w0).2).1 =
          (DomainStorage.addDomain x w0).1 ∧
        (DomainStorage.addDomain x w0).1.success = true) := by
  refine ⟨⟨(RedisClient.addDomain_existing x i w l e hw hx).1,
    (RedisClient.addDomain_existing x i w l e hw hx).2, ?_, ?_⟩, ?_⟩
  · rw [DomainStorage.addDomain_listed x w l e hw hx]
  · rw [DomainStorage.addDomain_listed x w l e hw hx]
    exact hw
  · intro w0
    obtain ⟨l1, e1, h1, h2, h3⟩ := RedisClient.addDomain_registry x i w0
    obtain ⟨l2, e2, k1, k2, k3⟩ := DomainStorage.addDomain_lists x w0
    refine ⟨?_, by rw [h3], ?_, by rw [k3]⟩
    · rw [(RedisClient.addDomain_existing x j _ l1 e1 h1 h2).1, h3]
    · rw [DomainStorage.addDomain_listed x _ l2 e2 k1 k2, k3]

/-- C12 on the sample registry, which lists `a.example` with code `AAAA0000`. -/
theorem addDomain_idempotent_witness :
    ((RedisClient.addDomain "a.example" (some 7) sampleWorld).1 =
        { success := true, verificationCode := some "AAAA0000", error := none } ∧
      (RedisClient.addDomain "a.example" (some 7) sampleWorld).2.domains =
        some (.entries sampleRegistry) ∧
      (DomainStorage.addDomain "a.example" sampleWorld).1 =
        { success := true, verificationCode := some "AAAA0000", error := none } ∧
      (DomainStorage.addDomain "a.example" sampleWorld).2.domains =
        some (.entries sampleRegistry)) ∧
    (∀ w0 : World,
      (RedisClient.addDomain "a.example" none
          (RedisClient.addDomain "a.example" (some 7) w0).2).1 =
          (RedisClient.addDomain "a.example" (some 7) w0).1 ∧
        (RedisClient.addDomain "a.example" (some 7) w0).1.success = true ∧
        (DomainStorage.addDomain "a.example" (DomainStorage.addDomain "a.example" w0).2).1 =
          (DomainStorage.addDomain "a.example" w0).1 ∧
        (DomainStorage.addDomain "a.example" w0).1.success = true) :=
  addDomain_idempotent "a.example" (some 7) none sampleWorld sampleRegistry
    { domain := "a.example", verificationCode := "AAAA0000", addedAt := 1690000000000 }
    rfl (by decide)

/-- C13, as stated, fails at `n = 10 ^ 21`: `parseInt` reads the text `1e+21` of
that Number up to the `e`, and the config stored for the domain has interval 1. -/
theorem addDomain_interval_counterexample :
    (RedisClient.addDomain "c.example" (some 1000000000000000000000) emptyWorld).1.success =
        true ∧
      (RedisClient.addDomain "c.example" (some 1000000000000000000000) emptyWorld).2.keys
          (configKey "c.example") =
        some (.config { interval := 1, lastChecked := none, nextCheckTime := none }) ∧
      ¬ ∃ c, (RedisClient.addDomain "c.example" (some 1000000000000000000000) emptyWorld).2.keys
          (configKey "c.example") = some (.config c) ∧ c.interval = 1000000000000000000000 := by
  have hk : (RedisClient.addDomain "c.example" (some 1000000000000000000000) emptyWorld).2.keys
      (configKey "c.example") =
      some (.config { interval := 1, lastChecked := none, nextCheckTime := none }) := by
    decide
  refine ⟨by decide, hk, ?_⟩
  rw [hk]
  rintro ⟨c, hc, hi⟩
  have hc2 : c = { interval := 1, lastChecked := none, nextCheckTime := none } := by
    cases hc
    rfl
  rw [hc2] at hi
  exact absurd hi (by decide)

/-- C13, amended: after `addDomain(x, n)` of the server shell, which succeeds, the
config stored for `x` has the interval that `parseInt` reads from `n`, whether or
not `x` was listed before; that is `n` itself for every integer `n` with
`|n| < 10 ^ 21`; with the interval omitted the stored interval is 5. -/
theorem addDomain_stores_interval (x : String) (n : Int) (w : World) :
    ((RedisClient.addDomain x (some n) w).1.success = true ∧
      ∃ c, (RedisClient.addDomain x (some n) w).2.keys (configKey x) = some (.config c) ∧
        c.interval = parseInt n ∧ (-10 ^ 21 < n → n < 10 ^ 21 → c.interval = n)) ∧
    ((RedisClient.addDomain x none w).1.success = true ∧
      ∃ c, (RedisClient.addDomain x none w).2.keys (configKey x) = some (.config c) ∧
        c.interval = 5) := by
  constructor
  · obtain ⟨hs, c, hc, hi⟩ := RedisClient.addDomain_config x (some n) w
    exact ⟨hs, c, hc, hi, fun h1 h2 => by rw [hi]; exact parseInt_small n h1 h2⟩
  · obtain ⟨hs, c, hc, hi⟩ := RedisClient.addDomain_config x none w
    exact ⟨hs, c, hc, by rw [hi]; decide⟩

/-- C13, amended, at interval 7 for a domain of the sample registry. -/
theorem addDomain_stores_interval_witness :
    ((RedisClient.addDomain "a.example" (some 7) sampleWorld).1.success = true ∧
      ∃ c, (RedisClient.addDomain "a.example" (some 7) sampleWorld).2.keys
          (configKey "a.example") = some (.config c) ∧
        c.interval = parseInt 7 ∧ (-10 ^ 21 < (7 : Int) → (7 : Int) < 10 ^ 21 → c.interval = 7)) ∧
    ((RedisClient.addDomain "a.example" none sampleWorld).1.success = true ∧
      ∃ c, (RedisClient.addDomain "a.example" none sampleWorld).2.keys
          (configKey "a.example") = some (.config c) ∧
        c.interval = 5) :=
  addDomain_stores_interval "a.example" 7 sampleWorld

/-- `findIndex` finds the first element that satisfies the predicate. -/
theorem findIndex_append_cons {α : Type} (p : α → Bool) (before : List α) (e : α)
    (after : List α) (hb : ∀ b ∈ before, p b = false) (he : p e = true) :
    findIndex p (before ++ e :: after) = some before.length := by
  induction before with
  | nil => simp [findIndex, he]
  | cons a rest ih =>
    have ha : p a = false := hb a (List.mem_cons_self _ _)
    have hr := ih (fun b hmem => hb b (List.mem_cons_of_mem _ hmem))
    simp [findIndex, ha, hr]

/-- `findIndex` answers `-1` exactly when no element satisfies the predicate. -/
theorem findIndex_eq_none {α : Type} (p : α → Bool) (l : List α)
    (h : ∀ a ∈ l, p a = false) : findIndex p l = none := by
  induction l with
  | nil => rfl
  | cons a rest ih =>
    have ha : p a = false := h a (List.mem_cons_self _ _)
    simp [findIndex, ha, ih (fun b hmem => h b (List.mem_cons_of_mem _ hmem))]

/-- The element at the position of a split. -/
theorem getElem?_append_cons {α : Type} (before : List α) (e : α) (after : List α) :
    (before ++ e :: after)[before.length]? = some e := by
  induction before with
  | nil => simp
  | cons a rest ih => simpa using ih

/-- Erasing the element at the position of a split. -/
theorem eraseIdx_append_cons {α : Type} (before : List α) (e : α) (after : List α) :
    (before ++ e :: after).eraseIdx before.length = before ++ after := by
  induction before with
  | nil => rfl
  | cons a rest ih => simpa using ih

/-- The first entry of a domain splits the registry list. -/
theorem find?_domain_split (l : List DomainEntry) (x : String) (e : DomainEntry)
    (hx : l.find? (fun item => item.domain == x) = some e) :
    e.domain = x ∧ ∃ before after, l = before ++ e :: after ∧
      ∀ b ∈ before, b.domain ≠ x := by
  obtain ⟨he, before, after, hl, hb⟩ := List.find?_eq_some.mp hx
  refine ⟨by simpa using he, before, after, hl, ?_⟩
  intro b hmem
  have := hb b hmem
  simpa using this

/-- `RedisClient.removeDomain` when the first entry of the domain in the list that
`getDomains` returns is `e`, in terms of the split of that list at `e`. -/
theorem RedisClient.removeDomain_found (x code : String) (w : World)
    (before after : List DomainEntry) (e : DomainEntry)
    (hl : (getDomains w).1 = before ++ e :: after)
    (he : e.domain = x) (hb : ∀ b ∈ before, b.domain ≠ x) :
    RedisClient.removeDomain x code w =
      if !decide (w.adminCode = some code) && e.verificationCode != code then
        ({ success := false, error := some wrongCodeError, isAdmin := none }, (getDomains w).2)
      else
        ({ success := true, error := none, isAdmin := some (decide (w.adminCode = some code)) },
         (setDomains (before ++ after) (getDomains w).2).2.del (configKey x)) := by
  have hidx : findIndex (fun item : DomainEntry => item.domain == x) (before ++ e :: after) =
      some before.length :=
    findIndex_append_cons _ before e after (fun b hmem => by simpa using hb b hmem)
      (by simpa using he)
  simp only [RedisClient.removeDomain, hl, hidx, getElem?_append_cons, eraseIdx_append_cons]

/-- `DomainStorage.removeDomain` when the first entry of the domain in the list
that `getDomains` returns is `e`, in terms of the split of that list at `e`. -/
theorem DomainStorage.removeDomain_at_split (x code : String) (w : World)
    (before after : List DomainEntry) (e : DomainEntry)
    (hl : (getDomains w).1 = before ++ e :: after)
    (he : e.domain = x) (hb : ∀ b ∈ before, b.domain ≠ x) :
    DomainStorage.removeDomain x code w =
      if e.verificationCode != code then
        ({ success := false, error := some wrongCodeError, isAdmin := none }, (getDomains w).2)
      else
        ({ success := true, error := none, isAdmin := none },
         (setDomains (before ++ after) (getDomains w).2).2) := by
  have hidx : findIndex (fun item : DomainEntry => item.domain == x) (before ++ e :: after) =
      some before.length :=
    findIndex_append_cons _ before e after (fun b hmem => by simpa using hb b hmem)
      (by simpa using he)
  simp only [DomainStorage.removeDomain, hl, hidx, getElem?_append_cons, eraseIdx_append_cons]

/-- `RedisClient.removeDomain` on a domain that the registry does not list. -/
theorem RedisClient.removeDomain_absent (x code : String) (w : World)
    (h : ∀ e ∈ (getDomains w).1, e.domain ≠ x) :
    RedisClient.removeDomain x code w =
      ({ success := false, error := some notFoundError, isAdmin := none }, (getDomains w).2) := by
  have hidx : findIndex (fun item : DomainEntry => item.domain == x) (getDomains w).1 = none :=
    findIndex_eq_none _ _ (fun a hmem => by simpa using h a hmem)
  simp only [RedisClient.removeDomain, hidx]

/-- C14: the answer of `removeDomain(x, code)` is determined by the registry: the
not-found error when no entry has domain `x`, whatever the code; the wrong-code
error when `x` is listed and `code` is neither its verification code nor the admin
code; success otherwise, with `isAdmin` true exactly when `code` is the admin
code. -/
theorem removeDomain_result (x code : String) (w : World) :
    ((∀ e ∈ (getDomains w).1, e.domain ≠ x) →
      (RedisClient.removeDomain x code w).1 =
        { success := false, error := some notFoundError, isAdmin := none }) ∧
    (∀ e, (getDomains w).1.find? (fun item => item.domain == x) = some e →
      ((code ≠ e.verificationCode ∧ w.adminCode ≠ some code) →
        (RedisClient.removeDomain x code w).1 =
          { success := false, error := some wrongCodeError, isAdmin := none }) ∧
      ((code = e.verificationCode ∨ w.adminCode = some code) →
        (RedisClient.removeDomain x code w).1 =
          { success := true, error := none,
            isAdmin := some (decide (w.adminCode = some code)) })) := by
  constructor
  · intro h
    rw [RedisClient.removeDomain_absent x code w h]
  · intro e hx
    obtain ⟨he, before, after, hl, hb⟩ := find?_domain_split _ x e hx
    rw [RedisClient.removeDomain_found x code w before after e hl he hb]
    constructor
    · rintro ⟨h1, h2⟩
      have h3 : e.verificationCode ≠ code := fun h => h1 h.symm
      simp [h2, h3]
    · intro h
      rcases h with h | h
      · simp [h]
      · simp [h]

/-- C14 on the sample registry: an unlisted domain, a wrong code, the code of the
entry and the admin code. -/
theorem removeDomain_result_witness :
    (RedisClient.removeDomain "z.example" "ADMIN000" sampleWorld).1 =
        { success := false, error := some notFoundError, isAdmin := none } ∧
      (RedisClient.removeDomain "b.example" "AAAA0000" sampleWorld).1 =
        { success := false, error := some wrongCodeError, isAdmin := none } ∧
      (RedisClient.removeDomain "b.example" "BBBB1111" sampleWorld).1 =
        { success := true, error := none, isAdmin := some false } ∧
      (RedisClient.removeDomain "b.example" "ADMIN000" sampleWorld).1 =
        { success := true, error := none, isAdmin := some true } :=
  ⟨(removeDomain_result "z.example" "ADMIN000" sampleWorld).1 (by decide),
   ((removeDomain_result "b.example" "AAAA0000" sampleWorld).2
      { domain := "b.example", verificationCode := "BBBB1111", addedAt := 1690000001000 }
      (by decide)).1 (by decide),
   ((removeDomain_result "b.example" "BBBB1111" sampleWorld).2
      { domain := "b.example", verificationCode := "BBBB1111", addedAt := 1690000001000 }
      (by decide)).2 (by decide),
   ((removeDomain_result "b.example" "ADMIN000" sampleWorld).2
      { domain := "b.example", verificationCode := "BBBB1111", addedAt := 1690000001000 }
      (by decide)).2 (by decide)⟩

/-- C15: on a registry that lists `x`, `removeDomain(x, code)` of either shell
with a code that is neither the verification code of `x` nor the admin code fails
and leaves the whole store as it is: the registry list, the config of `x` and the
logs of `x`. -/
theorem removeDomain_wrong_code_unchanged (x code : String) (w : World)
    (l : List DomainEntry) (e : DomainEntry) (hw : w.domains = some (.entries l))
    (hx : l.find? (fun item => item.domain == x) = some e)
    (h1 : code ≠ e.verificationCode) (h2 : w.adminCode ≠ some code) :
    ((RedisClient.removeDomain x code w).1.success = false ∧
      (RedisClient.removeDomain x code w).2 = w ∧
      (RedisClient.removeDomain x code w).2.domains = some (.entries l) ∧
      (RedisClient.removeDomain x code w).2.keys (configKey x) = w.keys (configKey x) ∧
      (RedisClient.removeDomain x code w).2.keys (logsKey x) = w.keys (logsKey x)) ∧
    ((DomainStorage.removeDomain x code w).1.success = false ∧
      (DomainStorage.removeDomain x code w).2 = w) := by
  obtain ⟨he, before, after, hl, hb⟩ := find?_domain_split l x e hx
  have hg := getDomains_entries w l hw
  have hl2 : (getDomains w).1 = before ++ e :: after := by rw [hg]; exact hl
  have h3 : e.verificationCode ≠ code := fun h => h1 h.symm
  have hs : RedisClient.removeDomain x code w =
      ({ success := false, error := some wrongCodeError, isAdmin := none }, w) := by
    rw [RedisClient.removeDomain_found x code w before after e hl2 he hb, hg]
    simp [h2, h3]
  have hk : DomainStorage.removeDomain x code w =
      ({ success := false, error := some wrongCodeError, isAdmin := none }, w) := by
    rw [DomainStorage.removeDomain_at_split x code w before after e hl2 he hb, hg]
    simp [h3]
  rw [hs, hk]
  exact ⟨⟨rfl, rfl, hw, rfl, rfl⟩, rfl, rfl⟩

/-- C15 on the sample registry, with the code of another entry. -/
theorem removeDomain_wrong_code_unchanged_witness :
    ((RedisClient.removeDomain "b.example" "AAAA0000" sampleWorld).1.success = false ∧
      (RedisClient.removeDomain "b.example" "AAAA0000" sampleWorld).2 = sampleWorld ∧
      (RedisClient.removeDomain "b.example" "AAAA0000" sampleWorld).2.domains =
        some (.entries sampleRegistry) ∧
      (RedisClient.removeDomain "b.example" "AAAA0000" sampleWorld).2.keys
          (configKey "b.example") = sampleWorld.keys (configKey "b.example") ∧
      (RedisClient.removeDomain "b.example" "AAAA0000" sampleWorld).2.keys
          (logsKey "b.example") = sampleWorld.keys (logsKey "b.example")) ∧
    ((DomainStorage.removeDomain "b.example" "AAAA0000" sampleWorld).1.success = false ∧
      (DomainStorage.removeDomain "b.example" "AAAA0000" sampleWorld).2 = sampleWorld) :=
  removeDomain_wrong_code_unchanged "b.example" "AAAA0000" sampleWorld sampleRegistry
    { domain := "b.example", verificationCode := "BBBB1111", addedAt := 1690000001000 }
    rfl (by decide) (by decide) (by decide)

/-- C16: on a registry that lists `x`, `removeDomain(x, code)` with the
verification code of `x` succeeds; afterwards the stored list is the old list
without the entry of `x`, the other entries unchanged and in the same order, the
key `domain:x` holds nothing and the key `domain:x:logs` holds what it held. -/
theorem removeDomain_correct_code (x : String) (w : World)
    (l : List DomainEntry) (e : DomainEntry) (hw : w.domains = some (.entries l))
    (hx : l.find? (fun item => item.domain == x) = some e) :
    (RedisClient.removeDomain x e.verificationCode w).1.success = true ∧
    (∃ before after, l = before ++ e :: after ∧ (∀ b ∈ before, b.domain ≠ x) ∧
      (RedisClient.removeDomain x e.verificationCode w).2.domains =
        some (.entries (before ++ after))) ∧
    (RedisClient.removeDomain x e.verificationCode w).2.keys (configKey x) = none ∧
    (RedisClient.removeDomain x e.verificationCode w).2.keys (logsKey x) =
      w.keys (logsKey x) := by
  obtain ⟨he, before, after, hl, hb⟩ := find?_domain_split l x e hx
  have hg := getDomains_entries w l hw
  have hl2 : (getDomains w).1 = before ++ e :: after := by rw [hg]; exact hl
  have hs : RedisClient.removeDomain x e.verificationCode w =
      ({ success := true, error := none,
         isAdmin := some (decide (w.adminCode = some e.verificationCode)) },
       (setDomains (before ++ after) w).2.del (configKey x)) := by
    rw [RedisClient.removeDomain_found x e.verificationCode w before after e hl2 he hb, hg]
    simp
  rw [hs]
  refine ⟨rfl, ⟨before, after, hl, hb, rfl⟩, ?_, ?_⟩
  · simp [World.del, setDomains]
  · simp only [World.del, setDomains]
    exact Function.update_noteq (fun h => configKey_ne_logsKey x h.symm) _ _

/-- C16 on the sample registry: `b.example` removed with its own code. -/
theorem removeDomain_correct_code_witness :
    (RedisClient.removeDomain "b.example" "BBBB1111" sampleWorld).1.success = true ∧
    (∃ before after, sampleRegistry = before ++
        { domain := "b.example", verificationCode := "BBBB1111", addedAt := 1690000001000 }
          :: after ∧
      (∀ b ∈ before, b.domain ≠ "b.example") ∧
      (RedisClient.removeDomain "b.example" "BBBB1111" sampleWorld).2.domains =
        some (.entries (before ++ after))) ∧
    (RedisClient.removeDomain "b.example" "BBBB1111" sampleWorld).2.keys
      (configKey "b.example") = none ∧
    (RedisClient.removeDomain "b.example" "BBBB1111" sampleWorld).2.keys
      (logsKey "b.example") = sampleWorld.keys (logsKey "b.example") :=
  removeDomain_correct_code "b.example" sampleWorld sampleRegistry
    { domain := "b.example", verificationCode := "BBBB1111", addedAt := 1690000001000 }
    rfl (by decide)

/-! ## The log list -/

/-- A slice from a negative start `-k` keeps at most `k` elements. -/
theorem jsSlice_neg_length {α : Type} (k : Int) (hk : 0 < k) (l : List α) :
    ((jsSlice (-k) l).length : Int) ≤ k := by
  have hneg : -k < 0 := by omega
  simp only [jsSlice, hneg, if_true, List.length_drop]
  omega

/-- `getDomainLogs` with a limit of at least 1 returns at most `limit` entries, and
at most 20 with the limit omitted. -/
theorem RedisClient.getDomainLogs_length (domain : String) (w : World) :
    (∀ limit : Int, 1 ≤ limit →
      ((RedisClient.getDomainLogs domain (some limit) w).length : Int) ≤ limit) ∧
    (RedisClient.getDomainLogs domain none w).length ≤ 20 := by
  constructor
  · intro limit hl
    simp only [RedisClient.getDomainLogs, Option.getD_some]
    split
    · simp; omega
    · simpa using jsSlice_neg_length limit (by omega) _
    · simp; omega
  · simp only [RedisClient.getDomainLogs, Option.getD_none]
    split
    · simp
    · have := jsSlice_neg_length 20 (by omega) (by assumption : List LogEntry)
      simp only [List.length_reverse]
      omega
    · simp

/-- The list that one `saveDomainLog` stores has at most 50 entries. -/
theorem RedisClient.saveDomainLog_stored (domain : String) (logData : LogData) (w : World) :
    ∃ l, (RedisClient.saveDomainLog domain logData w).2.keys (logsKey domain) =
      some (.logs l) ∧ l.length ≤ 50 := by
  have h := (RedisClient.getDomainLogs_length domain w.now.2).1 50 (by omega)
  simp only [RedisClient.saveDomainLog, World.set, Function.update_same]
  refine ⟨_, rfl, ?_⟩
  split
  · simp only [List.length_drop, List.length_append, List.length_singleton]
    omega
  · omega

/-- The list stored after a non-empty sequence of `saveDomainLog` calls has at most
50 entries. -/
theorem saveDomainLogs_stored (domain : String) (datas : List LogData) :
    ∀ w : World, datas ≠ [] →
      ∃ l, (saveDomainLogs domain datas w).keys (logsKey domain) = some (.logs l) ∧
        l.length ≤ 50 := by
  induction datas with
  | nil => intro w h; exact absurd rfl h
  | cons d rest ih =>
    intro w _
    cases rest with
    | nil => exact RedisClient.saveDomainLog_stored domain d w
    | cons d2 rest2 =>
      exact ih (RedisClient.saveDomainLog domain d w).2 (by simp)

/-! ## Claims on the log list -/

/-- C17: after every `saveDomainLog` call, whatever was stored before it, the list
under `domain:<name>:logs` has at most 50 entries; so it has after any non-empty
sequence of calls, of 100 calls in particular. -/
theorem saveDomainLog_at_most_50 (domain : String) (w : World) :
    (∀ logData : LogData,
      ∃ l, (RedisClient.saveDomainLog domain logData w).2.keys (logsKey domain) =
        some (.logs l) ∧ l.length ≤ 50) ∧
    (∀ datas : List LogData, datas ≠ [] →
      ∃ l, (saveDomainLogs domain datas w).keys (logsKey domain) = some (.logs l) ∧
        l.length ≤ 50) :=
  ⟨fun logData => RedisClient.saveDomainLog_stored domain logData w,
   fun datas h => saveDomainLogs_stored domain datas w h⟩

/-- C17 after 100 calls on an empty store. -/
theorem saveDomainLog_at_most_50_witness :
    (sampleLogs 100).length = 100 ∧ ∃ l, (saveDomainLogs "a.example" (sampleLogs 100) emptyWorld).keys (logsKey "a.example") =
      some (.logs l) ∧ l.length ≤ 50 :=
  ⟨by simp [sampleLogs], (saveDomainLog_at_most_50 "a.example" emptyWorld).2 (sampleLogs 100)
    (fun h => by simpa [sampleLogs] using congrArg List.length h)⟩

/-- C18 fails on the code: after three `saveDomainLog` calls on an empty log,
`getDomainLogs` returns the third entry, then the first, then the second, where
newest first is third, second, first. -/
theorem getDomainLogs_after_three_saves :
    (RedisClient.getDomainLogs "a.example" none
        (saveDomainLogs "a.example" [sampleLog 1, sampleLog 2, sampleLog 3] emptyWorld)).map
      (fun entry => (entry.attempts, entry.timestamp)) =
      [(3, 1700000002000), (1, 1700000000000), (2, 1700000001000)] := by
  decide

/-- C20, as stated, fails at `limit = 0`: the slice starts at `-0`, the start of
the list, and `getDomainLogs` returns all three stored entries, which is more than
0 entries. -/
theorem getDomainLogs_limit_zero :
    (RedisClient.getDomainLogs "a.example" (some 0)
        (saveDomainLogs "a.example" [sampleLog 1, sampleLog 2, sampleLog 3] emptyWorld)).length
      = 3 ∧
    ¬ ((RedisClient.getDomainLogs "a.example" (some 0)
        (saveDomainLogs "a.example" [sampleLog 1, sampleLog 2, sampleLog 3] emptyWorld)).length
      ≤ 0) := by
  decide

/-- C20, amended: for every stored log list and every limit of at least 1 passed
to `getDomainLogs`, the returned list has at most `limit` entries, and at most 20
when the limit is omitted.  The callers of `getDomainLogs` pass no limit 0:
`saveDomainLog` passes 50, and the handler of the logs route passes
`parseInt(req.query.limit) || 20`, which is never 0 and turns a query limit of 0,
like a missing one, into 20, so that its response has at most 20 entries. -/
theorem getDomainLogs_at_most_limit (domain : String) (w : World) :
    (∀ limit : Int, 1 ≤ limit →
      ((RedisClient.getDomainLogs domain (some limit) w).length : Int) ≤ limit) ∧
    (RedisClient.getDomainLogs domain none w).length ≤ 20 ∧
    (∀ parsed : Option Int, logsRouteLimit parsed ≠ 0) ∧
    (serverGetApiDomainLogs domain (some 0) w).length ≤ 20 ∧
    (serverGetApiDomainLogs domain none w).length ≤ 20 ∧
    (∀ limit : Int, 1 ≤ limit →
      ((serverGetApiDomainLogs domain (some limit) w).length : Int) ≤ limit) := by
  have hlen := RedisClient.getDomainLogs_length domain w
  have h20 := hlen.1 20 (by omega)
  refine ⟨hlen.1, hlen.2, ?_, ?_, ?_, ?_⟩
  · intro parsed
    cases parsed with
    | none => simp [logsRouteLimit]
    | some limit =>
      simp only [logsRouteLimit]
      split
      · omega
      · assumption
  · have e : serverGetApiDomainLogs domain (some 0) w =
        RedisClient.getDomainLogs domain (some 20) w := rfl
    rw [e]
    omega
  · have e : serverGetApiDomainLogs domain none w =
        RedisClient.getDomainLogs domain (some 20) w := rfl
    rw [e]
    omega
  · intro limit hl
    have hne : limit ≠ 0 := by omega
    have e : serverGetApiDomainLogs domain (some limit) w =
        RedisClient.getDomainLogs domain (some limit) w := by
      simp only [serverGetApiDomainLogs, logsRouteLimit, if_neg hne]
    rw [e]
    exact hlen.1 limit hl

/-- C20, amended, on a log of three entries. -/
theorem getDomainLogs_at_most_limit_witness :
    (∀ limit : Int, 1 ≤ limit →
      ((RedisClient.getDomainLogs "a.example" (some limit)
        (saveDomainLogs "a.example" [sampleLog 1, sampleLog 2, sampleLog 3]
          emptyWorld)).length : Int) ≤ limit) ∧
    (RedisClient.getDomainLogs "a.example" none
      (saveDomainLogs "a.example" [sampleLog 1, sampleLog 2, sampleLog 3]
        emptyWorld)).length ≤ 20 ∧
    (∀ parsed : Option Int, logsRouteLimit parsed ≠ 0) ∧
    (serverGetApiDomainLogs "a.example" (some 0)
      (saveDomainLogs "a.example" [sampleLog 1, sampleLog 2, sampleLog 3]
        emptyWorld)).length ≤ 20 ∧
    (serverGetApiDomainLogs "a.example" none
      (saveDomainLogs "a.example" [sampleLog 1, sampleLog 2, sampleLog 3]
        emptyWorld)).length ≤ 20 ∧
    (∀ limit : Int, 1 ≤ limit →
      ((serverGetApiDomainLogs "a.example" (some limit)
        (saveDomainLogs "a.example" [sampleLog 1, sampleLog 2, sampleLog 3]
          emptyWorld)).length : Int) ≤ limit) :=
  getDomainLogs_at_most_limit "a.example"
    (saveDomainLogs "a.example" [sampleLog 1, sampleLog 2, sampleLog 3] emptyWorld)

set_option maxRecDepth 100000

/-- C19 fails on the code: after 51 `saveDomainLog` calls on an empty log the
stored list has 50 entries, still holds the entry appended first and no longer
holds the entry appended fiftieth. -/
theorem storedLogs_after_51_saves :
    ((saveDomainLogs "a.example" (sampleLogs 51) emptyWorld).storedLogs "a.example").length = 50 ∧
      (1 : Int) ∈ ((saveDomainLogs "a.example" (sampleLogs 51) emptyWorld).storedLogs
        "a.example").map (fun entry => entry.attempts) ∧
      (50 : Int) ∉ ((saveDomainLogs "a.example" (sampleLogs 51) emptyWorld).storedLogs
        "a.example").map (fun entry => entry.attempts) ∧
      (sampleLogs 51).map (fun logData => logData.attempts) =
        (List.range 51).map (fun i => ((i + 1 : Nat) : Int)) := by
  decide

/-! ## Claims on the agreement of the two due formulas -/

/-- C28: for every interval at least 1 and every `lastChecked` and `now`, the
candidate `lastChecked + (floor((now - lastChecked) / intervalMs) + 1) * intervalMs`
is strictly greater than `now`, so the test `nextCheckTime <= now` fails and
`getDomainConfig` answers from the candidate and not from the fallback
`now + intervalMs`: it reports the candidate when the candidate is in the range
of a `Date`, and the default config when `toISOString` raises on it. -/
theorem candidate_strictly_after_now (config : DomainConfig) (now last : Int)
    (h : 1 ≤ config.interval) (hl : config.lastChecked = some last) :
    now < last + (Int.floor (((now - last : Int) : ℚ) /
        ((config.interval * 60000 : Int) : ℚ)) + 1) * (config.interval * 60000) ∧
    ¬ (last + (Int.floor (((now - last : Int) : ℚ) /
        ((config.interval * 60000 : Int) : ℚ)) + 1) * (config.interval * 60000) ≤ now) ∧
    getDomainConfig (some config) now =
      setNextCheckTime config
        (last + (Int.floor (((now - last : Int) : ℚ) /
          ((config.interval * 60000 : Int) : ℚ)) + 1) * (config.interval * 60000)) ∧
    (validDate (last + (Int.floor (((now - last : Int) : ℚ) /
        ((config.interval * 60000 : Int) : ℚ)) + 1) * (config.interval * 60000)) = true →
      getDomainConfig (some config) now =
        { config with
          nextCheckTime := some (last + (Int.floor (((now - last : Int) : ℚ) /
            ((config.interval * 60000 : Int) : ℚ)) + 1) * (config.interval * 60000)) }) ∧
    (validDate (last + (Int.floor (((now - last : Int) : ℚ) /
        ((config.interval * 60000 : Int) : ℚ)) + 1) * (config.interval * 60000)) = false →
      getDomainConfig (some config) now = defaultDomainConfig) := by
  have hpos : 0 < config.interval * 60000 := by omega
  have hc := candidate_after_now now last _ hpos
  refine ⟨hc, not_le.mpr hc, ?_, ?_, ?_⟩
  · rw [getDomainConfig_candidate config now last h hl, floor_quotient_eq_ediv _ _ hpos]
  · intro hv
    rw [floor_quotient_eq_ediv _ _ hpos] at hv ⊢
    rw [getDomainConfig_candidate config now last h hl, setNextCheckTime_valid _ _ hv]
  · intro hv
    rw [floor_quotient_eq_ediv _ _ hpos] at hv
    rw [getDomainConfig_candidate config now last h hl]
    exact setNextCheckTime_invalid _ _ hv

/-- C28 at interval 5, checked at 400000, read at 1000000, a whole number of
intervals later. -/
theorem candidate_strictly_after_now_witness :
    (1000000 : Int) < 400000 + (Int.floor ((((1000000 : Int) - 400000 : Int) : ℚ) /
        ((checkedConfig.interval * 60000 : Int) : ℚ)) + 1) * (checkedConfig.interval * 60000) ∧
    ¬ ((400000 : Int) + (Int.floor ((((1000000 : Int) - 400000 : Int) : ℚ) /
        ((checkedConfig.interval * 60000 : Int) : ℚ)) + 1) * (checkedConfig.interval * 60000)
          ≤ 1000000) ∧
    getDomainConfig (some checkedConfig) 1000000 =
      setNextCheckTime checkedConfig
        (400000 + (Int.floor ((((1000000 : Int) - 400000 : Int) : ℚ) /
          ((checkedConfig.interval * 60000 : Int) : ℚ)) + 1) * (checkedConfig.interval * 60000)) ∧
    (validDate (400000 + (Int.floor ((((1000000 : Int) - 400000 : Int) : ℚ) /
        ((checkedConfig.interval * 60000 : Int) : ℚ)) + 1) *
          (checkedConfig.interval * 60000)) = true →
      getDomainConfig (some checkedConfig) 1000000 =
        { checkedConfig with
          nextCheckTime := some (400000 + (Int.floor ((((1000000 : Int) - 400000 : Int) : ℚ) /
            ((checkedConfig.interval * 60000 : Int) : ℚ)) + 1) *
              (checkedConfig.interval * 60000)) }) ∧
    (validDate (400000 + (Int.floor ((((1000000 : Int) - 400000 : Int) : ℚ) /
        ((checkedConfig.interval * 60000 : Int) : ℚ)) + 1) *
          (checkedConfig.interval * 60000)) = false →
      getDomainConfig (some checkedConfig) 1000000 = defaultDomainConfig) :=
  candidate_strictly_after_now checkedConfig 1000000 400000 (by decide) rfl

/-- C29, as stated, fails at a stored config of interval 200000000000 checked at
1699999000000 and read at 1700000000000: less than one interval has elapsed and
the due test is false, but the instant `lastChecked + interval * 60000` is outside
the range of a `Date`, so `getDomainConfig` answers the default config and reports
no `nextCheckTime`. -/
theorem due_test_display_counterexample :
    1 ≤ remoteCheckedConfig.interval ∧
      remoteCheckedConfig.lastChecked = some 1699999000000 ∧
      (1699999000000 : Int) ≤ 1700000000000 ∧
      shouldCheckDomain remoteCheckedConfig 1700000000000 = false ∧
      (getDomainConfig (some remoteCheckedConfig) 1700000000000).nextCheckTime = none ∧
      ¬ (shouldCheckDomain remoteCheckedConfig 1700000000000 = false ↔
          (getDomainConfig (some remoteCheckedConfig) 1700000000000).nextCheckTime =
            some (1699999000000 + remoteCheckedConfig.interval * 60000)) := by
  have hr : getDomainConfig (some remoteCheckedConfig) 1700000000000 = defaultDomainConfig := by
    rw [getDomainConfig_candidate remoteCheckedConfig 1700000000000 1699999000000 (by decide) rfl]
    exact setNextCheckTime_invalid _ _ (by decide)
  have hs : shouldCheckDomain remoteCheckedConfig 1700000000000 = false := by
    cases hd : shouldCheckDomain remoteCheckedConfig 1700000000000 with
    | false => rfl
    | true =>
      exact absurd
        ((shouldCheckDomain_some remoteCheckedConfig 1700000000000 1699999000000 rfl).mp hd)
        (by decide)
  refine ⟨by decide, rfl, by decide, hs, by rw [hr]; rfl, ?_⟩
  rw [hr]
  intro hiff
  have := hiff.mp hs
  cases this

/-- C29, amended: for interval at least 1 and `lastChecked ≤ now`, when the
candidate instant of the display derivation is in the range of a `Date`, the due
test is false exactly when the reported `nextCheckTime` is
`lastChecked + interval * 60000`, and when the due test is true the reported
`nextCheckTime` is at least `lastChecked + 2 * interval * 60000`; when the
candidate is outside that range `getDomainConfig` answers the default
`{ interval: 5 }`, which reports no `nextCheckTime`. -/
theorem due_test_agrees_with_display (config : DomainConfig) (now last : Int)
    (h : 1 ≤ config.interval) (hl : config.lastChecked = some last) (hle : last ≤ now) :
    (validDate (last + (Int.floor (((now - last : Int) : ℚ) /
        ((config.interval * 60000 : Int) : ℚ)) + 1) * (config.interval * 60000)) = true →
      (shouldCheckDomain config now = false ↔
        (getDomainConfig (some config) now).nextCheckTime =
          some (last + config.interval * 60000)) ∧
      (shouldCheckDomain config now = true →
        ∃ t, (getDomainConfig (some config) now).nextCheckTime = some t ∧
          last + 2 * config.interval * 60000 ≤ t)) ∧
    (validDate (last + (Int.floor (((now - last : Int) : ℚ) /
        ((config.interval * 60000 : Int) : ℚ)) + 1) * (config.interval * 60000)) = false →
      getDomainConfig (some config) now = defaultDomainConfig) := by
  have hpos : 0 < config.interval * 60000 := by omega
  have hd : 0 ≤ now - last := by omega
  have hq0 : 0 ≤ (now - last) / (config.interval * 60000) :=
    Int.ediv_nonneg hd (le_of_lt hpos)
  have hdue := shouldCheckDomain_some config now last hl
  rw [floor_quotient_eq_ediv _ _ hpos]
  constructor
  swap
  · intro hv
    rw [getDomainConfig_candidate config now last h hl]
    exact setNextCheckTime_invalid _ _ hv
  intro hv
  have hnext : (getDomainConfig (some config) now).nextCheckTime =
      some (last + ((now - last) / (config.interval * 60000) + 1) *
        (config.interval * 60000)) := by
    rw [getDomainConfig_candidate config now last h hl, setNextCheckTime_valid _ _ hv]
  rw [hnext]
  constructor
  · constructor
    · intro hf
      have hlt : now - last < config.interval * 60000 := by
        by_contra hc
        have := hdue.mpr (not_lt.mp hc)
        rw [this] at hf
        exact absurd hf (by decide)
      rw [Int.ediv_eq_zero_of_lt hd hlt]
      simp
    · intro heq
      have heq2 : ((now - last) / (config.interval * 60000) + 1) * (config.interval * 60000) =
          config.interval * 60000 := by
        have := Option.some.inj heq
        linarith
      have hz : (now - last) / (config.interval * 60000) = 0 := by
        have hm : (now - last) / (config.interval * 60000) * (config.interval * 60000) = 0 := by
          linarith
        rcases Int.mul_eq_zero.mp hm with h0 | h0
        · exact h0
        · omega
      have hlt : now - last < config.interval * 60000 := by
        have := Int.lt_ediv_add_one_mul_self (now - last) hpos
        rw [hz] at this
        simpa using this
      cases hs : shouldCheckDomain config now with
      | false => rfl
      | true =>
        have := hdue.mp hs
        omega
  · intro ht
    have hge := hdue.mp ht
    have hq1 : 1 ≤ (now - last) / (config.interval * 60000) :=
      Int.le_ediv_of_mul_le hpos (by linarith)
    refine ⟨_, rfl, ?_⟩
    nlinarith

/-- C29, amended, at interval 5, checked at 400000, read ten minutes later. -/
theorem due_test_agrees_with_display_witness :
    (validDate (400000 + (Int.floor ((((1000000 : Int) - 400000 : Int) : ℚ) /
        ((checkedConfig.interval * 60000 : Int) : ℚ)) + 1) *
          (checkedConfig.interval * 60000)) = true →
      (shouldCheckDomain checkedConfig 1000000 = false ↔
        (getDomainConfig (some checkedConfig) 1000000).nextCheckTime =
          some (400000 + checkedConfig.interval * 60000)) ∧
      (shouldCheckDomain checkedConfig 1000000 = true →
        ∃ t, (getDomainConfig (some checkedConfig) 1000000).nextCheckTime = some t ∧
          400000 + 2 * checkedConfig.interval * 60000 ≤ t)) ∧
    (validDate (400000 + (Int.floor ((((1000000 : Int) - 400000 : Int) : ℚ) /
        ((checkedConfig.interval * 60000 : Int) : ℚ)) + 1) *
          (checkedConfig.interval * 60000)) = false →
      getDomainConfig (some checkedConfig) 1000000 = defaultDomainConfig) :=
  due_test_agrees_with_display checkedConfig 1000000 400000 (by decide) rfl (by decide)

/-! ## Claims on the entry just saved -/

/-- The list that `saveDomainLog` stores ends with the new entry. -/
theorem RedisClient.saveDomainLog_last (domain : String) (logData : LogData) (w : World) :
    ∃ l, (RedisClient.saveDomainLog domain logData w).2.keys (logsKey domain) =
        some (.logs l) ∧
      l.getLast? = some { timestamp := w.clock w.ticks, status := logData.status,
                          statusCode := logData.statusCode, url := logData.url,
                          attempts := logData.attempts, error := logData.error } := by
  simp only [RedisClient.saveDomainLog, World.set, Function.update_same]
  refine ⟨_, rfl, ?_⟩
  split
  · rw [List.getLast?_drop, if_neg (by simp; omega), List.getLast?_concat]
    rfl
  · rw [List.getLast?_concat]
    rfl

/-- A slice of at least one element from the end, reversed, starts with the last
element of the list. -/
theorem jsSlice_reverse_head {α : Type} (limit : Int) (hl : 1 ≤ limit) (l : List α) :
    (jsSlice (-limit) l).reverse.head? = l.getLast? := by
  have hneg : -limit < 0 := by omega
  simp only [jsSlice, hneg, if_true, List.head?_reverse, List.getLast?_drop]
  split
  · have hlen : l.length = 0 := by omega
    rw [List.length_eq_zero.mp hlen]
    rfl
  · rfl

/-- C30: right after `saveDomainLog(domain, e)`, for every limit at least 1 (and
with the limit omitted) the first element that `getDomainLogs` returns is the
entry just saved, `e` behind its timestamp, whatever the key held before. -/
theorem getDomainLogs_head_after_save (domain : String) (logData : LogData) (w : World)
    (limit : Int) (hl : 1 ≤ limit) :
    (RedisClient.getDomainLogs domain (some limit)
        (RedisClient.saveDomainLog domain logData w).2).head? =
      some { timestamp := w.clock w.ticks, status := logData.status,
             statusCode := logData.statusCode, url := logData.url,
             attempts := logData.attempts, error := logData.error } ∧
    (RedisClient.getDomainLogs domain none
        (RedisClient.saveDomainLog domain logData w).2).head? =
      some { timestamp := w.clock w.ticks, status := logData.status,
             statusCode := logData.statusCode, url := logData.url,
             attempts := logData.attempts, error := logData.error } := by
  obtain ⟨l, hk, hlast⟩ := RedisClient.saveDomainLog_last domain logData w
  simp only [RedisClient.getDomainLogs, hk, Option.getD_some, Option.getD_none]
  exact ⟨by rw [jsSlice_reverse_head limit hl, hlast],
    by rw [jsSlice_reverse_head 20 (by omega), hlast]⟩

/-- C30 with limit 1 on a store that already holds three entries. -/
theorem getDomainLogs_head_after_save_witness :
    (RedisClient.getDomainLogs "a.example" (some 1)
        (RedisClient.saveDomainLog "a.example" (sampleLog 4)
          (saveDomainLogs "a.example" (sampleLogs 3) emptyWorld)).2).head? =
      some { timestamp :=
               (saveDomainLogs "a.example" (sampleLogs 3) emptyWorld).clock
                 (saveDomainLogs "a.example" (sampleLogs 3) emptyWorld).ticks,
             status := (sampleLog 4).status,
             statusCode := (sampleLog 4).statusCode, url := (sampleLog 4).url,
             attempts := (sampleLog 4).attempts, error := (sampleLog 4).error } ∧
    (RedisClient.getDomainLogs "a.example" none
        (RedisClient.saveDomainLog "a.example" (sampleLog 4)
          (saveDomainLogs "a.example" (sampleLogs 3) emptyWorld)).2).head? =
      some { timestamp :=
               (saveDomainLogs "a.example" (sampleLogs 3) emptyWorld).clock
                 (saveDomainLogs "a.example" (sampleLogs 3) emptyWorld).ticks,
             status := (sampleLog 4).status,
             statusCode := (sampleLog 4).statusCode, url := (sampleLog 4).url,
             attempts := (sampleLog 4).attempts, error := (sampleLog 4).error } :=
  getDomainLogs_head_after_save "a.example" (sampleLog 4)
    (saveDomainLogs "a.example" (sampleLogs 3) emptyWorld) 1 (by decide)

/-! ## Claims on the requested URL and the attempt count -/

/-- The first action of a probe whose first request is answered ok is that
request, to `wakeupUrl domain`. -/
theorem performWakeup_first_event (domain : String) (config : Config)
    (fetch : Nat → FetchResult) (status : Nat) (h : 0 ≤ config.retries)
    (hf : fetch 1 = .response status) (hok : responseOk status = true) :
    (performWakeup (.str domain) config fetch).events.head? =
      some (ProbeEvent.request (wakeupUrl domain)) := by
  rw [performWakeup_first_ok domain config fetch 1 status (le_refl 1) (by omega)
    (fun j h1 h2 => by omega) hf hok]
  simp [spacedRequests_one]

/-- C24 fails on the code: the domain `httpbin.org` carries no scheme, yet it
starts with `http`, and the probe requests `httpbin.org` itself, not
`https://httpbin.org`. -/
theorem wakeupUrl_httpbin :
    startsWithHttp "httpbin.org" = true ∧
      wakeupUrl "httpbin.org" = "httpbin.org" ∧
      (performWakeup (.str "httpbin.org") sampleConfig alwaysOk).events.head? =
        some (ProbeEvent.request "httpbin.org") ∧
      wakeupUrl "a.example" = "https://a.example" ∧
      wakeupUrl "https://a.example" = "https://a.example" := by
  refine ⟨by decide, by decide, ?_, by decide, by decide⟩
  rw [performWakeup_first_event "httpbin.org" sampleConfig alwaysOk 200 (by decide) rfl
    (by decide)]
  decide

/-- A run with `retries = R ≥ 0` either returns at the first ok response, the
attempt `i`, or fails after `R + 1` attempts. -/
theorem performWakeup_run_cases (domain : String) (config : Config)
    (fetch : Nat → FetchResult) (R : Nat) (hR : config.retries = (R : Int)) :
    (∃ i status, 1 ≤ i ∧ i ≤ R + 1 ∧
      performWakeup (.str domain) config fetch =
        { result := .ok { domain := .str domain, status := "成功", statusCode := some status,
                          attempts := (i : Int), error := none }
          events := spacedRequests (wakeupUrl domain) config.delay i ++
            if config.redisClient then
              [ProbeEvent.saveDomainLog domain
                { status := "成功", statusCode := some status, url := wakeupUrl domain,
                  attempts := (i : Int), error := none }]
            else [] }) ∨
    performWakeup (.str domain) config fetch =
      { result := .ok (failureOutcome domain (wakeupUrl domain) config (R + 1)
          (some (fetch (R + 1)).recorded)).1
        events := spacedRequests (wakeupUrl domain) config.delay (R + 1) ++
          (failureOutcome domain (wakeupUrl domain) config (R + 1)
            (some (fetch (R + 1)).recorded)).2 } := by
  by_cases hex : ∃ j, (1 ≤ j ∧ j ≤ R + 1) ∧ (fetch j).failed = false
  · left
    obtain ⟨⟨h1, h2⟩, h3⟩ := Nat.find_spec hex
    have hmin : ∀ j, 1 ≤ j → j < Nat.find hex → (fetch j).failed = true := by
      intro j hj hlt
      have hnot := Nat.find_min hex hlt
      cases hfj : (fetch j).failed with
      | true => rfl
      | false => exact absurd ⟨⟨hj, by omega⟩, hfj⟩ hnot
    cases hf : fetch (Nat.find hex) with
    | failure message => simp [hf, FetchResult.failed] at h3
    | response status =>
      have hok : responseOk status = true := by simpa [hf, FetchResult.failed] using h3
      exact ⟨Nat.find hex, status, h1, h2,
        performWakeup_first_ok domain config fetch (Nat.find hex) status h1
          (by rw [hR]; exact_mod_cast h2) hmin hf hok⟩
  · right
    have hfail : ∀ j, 1 ≤ j → j ≤ R + 1 → (fetch j).failed = true := by
      intro j h1 h2
      cases hfj : (fetch j).failed with
      | true => rfl
      | false => exact absurd ⟨j, ⟨h1, h2⟩, hfj⟩ hex
    exact performWakeup_all_fail domain config fetch R hR hfail

/-- A run with negative `retries` makes no attempt: the loop body is never
entered. -/
theorem performWakeup_no_attempt (domain : String) (config : Config)
    (fetch : Nat → FetchResult) (h : config.retries < 0) :
    performWakeup (.str domain) config fetch =
      { result := .ok (failureOutcome domain (wakeupUrl domain) config 0 none).1
        events := (failureOutcome domain (wakeupUrl domain) config 0 none).2 } := by
  have hl : wakeupLoop fetch domain (wakeupUrl domain) config 0 none =
      (.exhausted 0 none, []) := by
    rw [wakeupLoop]
    have hg : ¬ (((0 : Nat) : Int) ≤ config.retries) := by
      simp only [Nat.cast_zero]
      omega
    rw [dif_neg hg]
  simp only [performWakeup, hl]
  simp

/-- The attempt count in a spaced run's trailing log writes. -/
theorem mem_spacedRequests_append (url : String) (delay : Int) (n : Nat)
    (log : List ProbeEvent) (d : String) (logData : LogData)
    (h : ProbeEvent.saveDomainLog d logData ∈ spacedRequests url delay n ++ log) :
    ProbeEvent.saveDomainLog d logData ∈ log := by
  rcases List.mem_append.mp h with hs | hlog
  · have hf : ProbeEvent.saveDomainLog d logData ∈
        (spacedRequests url delay n).filter (fun e => !e.isLog) := by
      rw [spacedRequests_filter_not_isLog]
      exact hs
    simp [ProbeEvent.isLog] at hf
  · exact hlog

/-- C25, as stated, fails for a negative `RETRY_COUNT`: with `RETRY_COUNT=-1`
`initializeConfig` gives `retries = -1`, `performWakeup` makes no request, and both
the outcome it returns and the log entry it saves have `attempts = 0`. -/
theorem performWakeup_negative_retry_counterexample :
    (initializeConfig negativeRetryEnvironment sampleWorld).1.retries = -1 ∧
      performWakeup (.str "a.example")
          (initializeConfig negativeRetryEnvironment sampleWorld).1 alwaysOk =
        { result := .ok { domain := .str "a.example", status := "失败", statusCode := none,
                          attempts := 0, error := some "未知错误" }
          events := [ProbeEvent.saveDomainLog "a.example"
            { status := "失败", statusCode := none, url := "https://a.example",
              attempts := 0, error := some "未知错误" }] } := by
  refine ⟨rfl, ?_⟩
  rw [performWakeup_no_attempt "a.example" _ alwaysOk (by decide)]
  congr 1

/-- C25, amended: for every configuration with `retries ≥ 0`, every outcome that
`performWakeup` returns and every log entry that it saves has `attempts ≥ 1`. -/
theorem performWakeup_attempts_pos (domain : String) (config : Config)
    (fetch : Nat → FetchResult) (h : 0 ≤ config.retries) :
    (∀ outcome, (performWakeup (.str domain) config fetch).result = .ok outcome →
      1 ≤ outcome.attempts) ∧
    (∀ d logData,
      ProbeEvent.saveDomainLog d logData ∈ (performWakeup (.str domain) config fetch).events →
      1 ≤ logData.attempts) := by
  obtain ⟨R, hR⟩ : ∃ R : Nat, config.retries = (R : Int) := ⟨config.retries.toNat, by omega⟩
  rcases performWakeup_run_cases domain config fetch R hR with ⟨i, status, h1, _, hrun⟩ | hrun
  · rw [hrun]
    constructor
    · intro outcome ho
      simp only [Except.ok.injEq] at ho
      rw [← ho]
      show (1 : Int) ≤ (i : Int)
      exact_mod_cast h1
    · intro d logData hmem
      have hlog := mem_spacedRequests_append _ _ _ _ d logData hmem
      split at hlog
      · simp only [List.mem_singleton, ProbeEvent.saveDomainLog.injEq] at hlog
        rw [hlog.2]
        show (1 : Int) ≤ (i : Int)
        exact_mod_cast h1
      · simp at hlog
  · rw [hrun]
    constructor
    · intro outcome ho
      simp only [Except.ok.injEq] at ho
      rw [← ho]
      show (1 : Int) ≤ ((R + 1 : Nat) : Int)
      push_cast
      omega
    · intro d logData hmem
      have hlog := mem_spacedRequests_append _ _ _ _ d logData hmem
      simp only [failureOutcome] at hlog
      split at hlog
      · simp only [List.mem_singleton, ProbeEvent.saveDomainLog.injEq] at hlog
        rw [hlog.2]
        show (1 : Int) ≤ ((R + 1 : Nat) : Int)
        push_cast
        omega
      · simp at hlog

/-- C25, amended, at the default `retries = 2` with every attempt answered 500. -/
theorem performWakeup_attempts_pos_witness :
    (∀ outcome, (performWakeup (.str "a.example") sampleConfig alwaysStatus500).result =
        .ok outcome → 1 ≤ outcome.attempts) ∧
    (∀ d logData,
      ProbeEvent.saveDomainLog d logData ∈
        (performWakeup (.str "a.example") sampleConfig alwaysStatus500).events →
      1 ≤ logData.attempts) :=
  performWakeup_attempts_pos "a.example" sampleConfig alwaysStatus500 (by decide)

/-! ## Claims on the legacy upgrade and on uniqueness -/

/-- The upgrade of a legacy list keeps the names in order and gives the `i`-th
entry the `i`-th code drawn and the `i`-th instant read. -/
theorem upgradeLegacy_spec (names : List String) :
    ∀ w : World,
      (upgradeLegacy names w).1.map (fun e => e.domain) = names ∧
      (upgradeLegacy names w).1.map (fun e => e.verificationCode) =
        (List.range names.length).map (fun i => w.codes (w.drawn + i)) ∧
      (upgradeLegacy names w).1.map (fun e => e.addedAt) =
        (List.range names.length).map (fun i => w.clock (w.ticks + i)) := by
  induction names with
  | nil => intro w; simp [upgradeLegacy]
  | cons name rest ih =>
    intro w
    obtain ⟨h1, h2, h3⟩ := ih (generateVerificationCode w).2.now.2
    have hshift : ∀ f : Nat → String,
        (List.range (rest.length + 1)).map f =
          f 0 :: (List.range rest.length).map (fun i => f (i + 1)) := by
      intro f
      rw [List.range_succ_eq_map]
      simp [List.map_map, Function.comp]
    have hshiftInt : ∀ f : Nat → Int,
        (List.range (rest.length + 1)).map f =
          f 0 :: (List.range rest.length).map (fun i => f (i + 1)) := by
      intro f
      rw [List.range_succ_eq_map]
      simp [List.map_map, Function.comp]
    refine ⟨?_, ?_, ?_⟩
    · simp only [upgradeLegacy, List.map_cons, h1]
    · simp only [upgradeLegacy, List.map_cons, h2, List.length_cons]
      rw [hshift]
      simp only [generateVerificationCode, World.now, Nat.add_zero, List.cons.injEq, true_and]
      apply List.map_congr_left
      intro i _
      congr 1
      omega
    · simp only [upgradeLegacy, List.map_cons, h3, List.length_cons]
      rw [hshiftInt]
      simp only [generateVerificationCode, World.now, Nat.add_zero, List.cons.injEq, true_and]
      apply List.map_congr_left
      intro i _
      congr 1
      omega

/-- C22: on a registry key that holds a non-empty legacy list of bare names,
`getDomains` returns one entry per name, in order, the `i`-th with a generated
code and an `addedAt`; it stores exactly the returned list, and a `getDomains`
right after returns the same list and leaves the store as it is. -/
theorem getDomains_legacy_upgrade (w : World) (first : String) (rest : List String)
    (hw : w.domains = some (.legacy first rest)) :
    (getDomains w).1.length = (first :: rest).length ∧
    (getDomains w).1.map (fun e => e.domain) = first :: rest ∧
    (getDomains w).1.map (fun e => e.verificationCode) =
      (List.range (first :: rest).length).map (fun i => w.codes (w.drawn + i)) ∧
    (getDomains w).1.map (fun e => e.addedAt) =
      (List.range (first :: rest).length).map (fun i => w.clock (w.ticks + i)) ∧
    (getDomains w).2.domains = some (.entries (getDomains w).1) ∧
    getDomains (getDomains w).2 = ((getDomains w).1, (getDomains w).2) := by
  obtain ⟨h1, h2, h3⟩ := upgradeLegacy_spec (first :: rest) w
  have hg : getDomains w = ((upgradeLegacy (first :: rest) w).1,
      (setDomains (upgradeLegacy (first :: rest) w).1 (upgradeLegacy (first :: rest) w).2).2) := by
    simp [getDomains, hw]
  have hs : (getDomains w).2.domains = some (.entries (getDomains w).1) := by
    rw [hg]; rfl
  refine ⟨?_, ?_, ?_, ?_, hs, getDomains_entries _ _ hs⟩
  · have := congrArg List.length h1
    rw [List.length_map] at this
    rw [hg]; exact this
  · rw [hg]; exact h1
  · rw [hg]; exact h2
  · rw [hg]; exact h3

/-- C22 on a legacy list of two names. -/
theorem getDomains_legacy_upgrade_witness :
    (getDomains legacyWorld).1.length = ("a.example" :: ["b.example"]).length ∧
    (getDomains legacyWorld).1.map (fun e => e.domain) = "a.example" :: ["b.example"] ∧
    (getDomains legacyWorld).1.map (fun e => e.verificationCode) =
      (List.range ("a.example" :: ["b.example"]).length).map
        (fun i => legacyWorld.codes (legacyWorld.drawn + i)) ∧
    (getDomains legacyWorld).1.map (fun e => e.addedAt) =
      (List.range ("a.example" :: ["b.example"]).length).map
        (fun i => legacyWorld.clock (legacyWorld.ticks + i)) ∧
    (getDomains legacyWorld).2.domains = some (.entries (getDomains legacyWorld).1) ∧
    getDomains (getDomains legacyWorld).2 =
      ((getDomains legacyWorld).1, (getDomains legacyWorld).2) :=
  getDomains_legacy_upgrade legacyWorld "a.example" ["b.example"] rfl

/-- `RedisClient.addDomain` of a domain that the registry does not list appends
one entry, with the next code drawn and the next instant read. -/
theorem RedisClient.addDomain_new (x : String) (i : Option Int) (w : World)
    (l : List DomainEntry) (hl : getDomains w = (l, w))
    (hx : l.find? (fun item => item.domain == x) = none) :
    (RedisClient.addDomain x i w).2.domains =
      some (.entries (l ++ [{ domain := x, verificationCode := w.codes w.drawn,
                              addedAt := w.clock w.ticks }])) := by
  simp only [RedisClient.addDomain, hl, hx]
  rw [(RedisClient.addDomainConfig_spec _ _ _ _).2.1]
  rfl

/-- `RedisClient.addDomain` keeps the names of a stored list pairwise distinct. -/
theorem RedisClient.addDomain_nodup (x : String) (i : Option Int) (w : World)
    (l : List DomainEntry) (hw : w.domains = some (.entries l))
    (hn : (l.map (fun e => e.domain)).Nodup) :
    ∃ l2, (RedisClient.addDomain x i w).2.domains = some (.entries l2) ∧
      (l2.map (fun e => e.domain)).Nodup := by
  cases hx : l.find? (fun item => item.domain == x) with
  | some e => exact ⟨l, (RedisClient.addDomain_existing x i w l e hw hx).2, hn⟩
  | none =>
    refine ⟨_, RedisClient.addDomain_new x i w l (getDomains_entries w l hw) hx, ?_⟩
    have hnot : x ∉ l.map (fun e => e.domain) := by
      intro hmem
      obtain ⟨e, he, hd⟩ := List.mem_map.mp hmem
      have := List.find?_eq_none.mp hx e he
      simp [hd] at this
    simp only [List.map_append, List.map_cons, List.map_nil]
    rw [List.nodup_append]
    refine ⟨hn, List.nodup_singleton _, ?_⟩
    intro a ha hb
    rw [List.mem_singleton] at hb
    exact hnot (hb ▸ ha)

/-- `RedisClient.removeDomain` keeps the names of a stored list pairwise
distinct. -/
theorem RedisClient.removeDomain_nodup (x code : String) (w : World)
    (l : List DomainEntry) (hw : w.domains = some (.entries l))
    (hn : (l.map (fun e => e.domain)).Nodup) :
    ∃ l2, (RedisClient.removeDomain x code w).2.domains = some (.entries l2) ∧
      (l2.map (fun e => e.domain)).Nodup := by
  have hg := getDomains_entries w l hw
  cases hx : l.find? (fun item => item.domain == x) with
  | none =>
    have habs : ∀ e ∈ (getDomains w).1, e.domain ≠ x := by
      rw [hg]
      intro e he hd
      have := List.find?_eq_none.mp hx e he
      simp [hd] at this
    rw [RedisClient.removeDomain_absent x code w habs, hg]
    exact ⟨l, hw, hn⟩
  | some e =>
    obtain ⟨he, before, after, hl, hb⟩ := find?_domain_split l x e hx
    have hl2 : (getDomains w).1 = before ++ e :: after := by rw [hg]; exact hl
    rw [RedisClient.removeDomain_found x code w before after e hl2 he hb, hg]
    split
    · exact ⟨l, hw, hn⟩
    · refine ⟨before ++ after, rfl, ?_⟩
      have hsub : List.Sublist (before ++ after) l := by
        rw [hl]
        exact List.Sublist.append_left (List.sublist_cons_self e after) before
      exact hn.sublist (hsub.map _)

/-- After a non-empty sequence of `addDomain(x)` calls on a registry without
entries, the stored list is one entry, for `x`. -/
theorem addDomainTimes_single (x : String) (intervals : List (Option Int)) :
    ∀ w : World, intervals ≠ [] →
      (w.domains = none ∨ w.domains = some (.entries []) ∨
        ∃ e, w.domains = some (.entries [e]) ∧ e.domain = x) →
      ∃ e, (addDomainTimes x intervals w).domains = some (.entries [e]) ∧ e.domain = x := by
  induction intervals with
  | nil => intro w h; exact absurd rfl h
  | cons i rest ih =>
    intro w _ hw
    have hstep : ∃ e, (RedisClient.addDomain x i w).2.domains = some (.entries [e]) ∧
        e.domain = x := by
      rcases hw with h | h | ⟨e, h, hd⟩
      · have hg : getDomains w = ([], w) := by simp [getDomains, h]
        exact ⟨_, RedisClient.addDomain_new x i w [] hg rfl, rfl⟩
      · exact ⟨_, RedisClient.addDomain_new x i w [] (getDomains_entries w [] h) rfl, rfl⟩
      · exact ⟨e, (RedisClient.addDomain_existing x i w [e] e h (by simp [hd])).2, hd⟩
    cases rest with
    | nil => exact hstep
    | cons j rest2 =>
      exact ih (RedisClient.addDomain x i w).2 (by simp) (Or.inr (Or.inr hstep))

/-- C27: when the stored registry list has pairwise-distinct domain names, it
still has after `addDomain` and after `removeDomain`, whatever the arguments;
and from a registry without entries, any positive number of `addDomain(x)` calls
leaves exactly one entry, for `x`. -/
theorem registry_names_stay_distinct (w : World) (l : List DomainEntry)
    (hw : w.domains = some (.entries l)) (hn : (l.map (fun e => e.domain)).Nodup)
    (x code : String) (i : Option Int) :
    (∃ l2, (RedisClient.addDomain x i w).2.domains = some (.entries l2) ∧
      (l2.map (fun e => e.domain)).Nodup) ∧
    (∃ l2, (RedisClient.removeDomain x code w).2.domains = some (.entries l2) ∧
      (l2.map (fun e => e.domain)).Nodup) ∧
    (∀ (w0 : World) (intervals : List (Option Int)),
      (w0.domains = none ∨ w0.domains = some (.entries [])) → intervals ≠ [] →
      ∃ e, (addDomainTimes x intervals w0).domains = some (.entries [e]) ∧ e.domain = x) :=
  ⟨RedisClient.addDomain_nodup x i w l hw hn,
   RedisClient.removeDomain_nodup x code w l hw hn,
   fun w0 intervals h0 hne =>
     addDomainTimes_single x intervals w0 hne
       (h0.elim Or.inl (fun h => Or.inr (Or.inl h)))⟩

/-- C27 on the sample registry, and three `addDomain` calls on an empty store. -/
theorem registry_names_stay_distinct_witness :
    (∃ l2, (RedisClient.addDomain "c.example" (some 7) sampleWorld).2.domains =
        some (.entries l2) ∧ (l2.map (fun e => e.domain)).Nodup) ∧
    (∃ l2, (RedisClient.removeDomain "c.example" "AAAA0000" sampleWorld).2.domains =
        some (.entries l2) ∧ (l2.map (fun e => e.domain)).Nodup) ∧
    ∃ e, (addDomainTimes "c.example" [some 7, none, some 3] emptyWorld).domains =
      some (.entries [e]) ∧ e.domain = "c.example" :=
  have h := registry_names_stay_distinct sampleWorld sampleRegistry rfl (by decide)
    "c.example" "AAAA0000" (some 7)
  ⟨h.1, h.2.1, h.2.2 emptyWorld [some 7, none, some 3] (Or.inl rfl) (by decide)⟩

/-! ## Claims on the persistence of `nextCheckTime` -/

/-- C26, as stated, fails: after `addDomain` and then `updateDomainLastChecked` for
the same domain, the value stored under its config key carries a
`nextCheckTime`, the one that `getDomainConfig` derived inside the second call. -/
theorem stored_nextCheckTime_counterexample :
    (RedisClient.addDomain "c.example" none emptyWorld).2.keys (configKey "c.example") =
        some (.config { interval := 5, lastChecked := none, nextCheckTime := none }) ∧
      (RedisClient.updateDomainLastChecked "c.example"
          (RedisClient.addDomain "c.example" none emptyWorld).2).2.keys (configKey "c.example") =
        some (.config { interval := 5, lastChecked := some 1700000002000,
                        nextCheckTime := some 1700000301000 }) ∧
      (RedisClient.updateDomainInterval "c.example" 7
          (RedisClient.addDomain "c.example" none emptyWorld).2).2.keys (configKey "c.example") =
        some (.config { interval := 7, lastChecked := none,
                        nextCheckTime := some 1700000301000 }) := by
  decide

/-- C26, amended: a stored `nextCheckTime` is never read as a source of truth:
whatever `nextCheckTime` the stored config carries, `getDomainConfig` reports the
same config, with `nextCheckTime` derived anew from `interval`, `lastChecked` and
the instant of the read. -/
theorem getDomainConfig_ignores_stored_nextCheckTime (config : DomainConfig)
    (stored : Option Int) (now : Int) (domain : String) (w : World) :
    getDomainConfig (some { config with nextCheckTime := stored }) now =
        getDomainConfig (some config) now ∧
      (w.keys (configKey domain) = some (.config config) →
        (RedisClient.getDomainConfig domain w).1 =
          getDomainConfig (some { config with nextCheckTime := none }) (w.clock w.ticks)) := by
  have hpure : ∀ v : Option Int,
      getDomainConfig (some { config with nextCheckTime := v }) now =
        getDomainConfig (some config) now := by
    intro v
    exact getDomainConfig_ignores_field config v now
  refine ⟨hpure stored, ?_⟩
  intro hk
  have hpure2 : getDomainConfig (some { config with nextCheckTime := none }) (w.clock w.ticks) =
      getDomainConfig (some config) (w.clock w.ticks) := by
    exact getDomainConfig_ignores_field config none (w.clock w.ticks)
  rw [hpure2]
  simp [RedisClient.getDomainConfig, hk, World.now]

/-! ## Claims on the `GET /api/domains` response -/

/-- Reading a config depends on the key space and the clock only, and leaves two
stores that agree on them in agreement. -/
theorem RedisClient.getDomainConfig_agree (domain : String) (w1 w2 : World)
    (hk : w1.keys = w2.keys) (hc : w1.clock = w2.clock) (ht : w1.ticks = w2.ticks) :
    (RedisClient.getDomainConfig domain w1).1 = (RedisClient.getDomainConfig domain w2).1 ∧
      (RedisClient.getDomainConfig domain w1).2.keys =
        (RedisClient.getDomainConfig domain w2).2.keys ∧
      (RedisClient.getDomainConfig domain w1).2.clock =
        (RedisClient.getDomainConfig domain w2).2.clock ∧
      (RedisClient.getDomainConfig domain w1).2.ticks =
        (RedisClient.getDomainConfig domain w2).2.ticks := by
  have hkv : w2.keys (configKey domain) = w1.keys (configKey domain) := by rw [hk]
  cases hv : w1.keys (configKey domain) with
  | none =>
    rw [hv] at hkv
    have e1 : RedisClient.getDomainConfig domain w1 = (defaultDomainConfig, w1) := by
      simp only [RedisClient.getDomainConfig, hv]
    have e2 : RedisClient.getDomainConfig domain w2 = (defaultDomainConfig, w2) := by
      simp only [RedisClient.getDomainConfig, hkv]
    rw [e1, e2]
    exact ⟨rfl, hk, hc, ht⟩
  | some v =>
    rw [hv] at hkv
    cases v with
    | config c =>
      have e1 : RedisClient.getDomainConfig domain w1 =
          (KeepAlive.getDomainConfig (some c) w1.now.1, w1.now.2) := by
        simp only [RedisClient.getDomainConfig, hv]
      have e2 : RedisClient.getDomainConfig domain w2 =
          (KeepAlive.getDomainConfig (some c) w2.now.1, w2.now.2) := by
        simp only [RedisClient.getDomainConfig, hkv]
      rw [e1, e2]
      exact ⟨by simp only [World.now, hc, ht], hk, hc, by simp only [World.now, ht]⟩
    | logs l =>
      have e1 : RedisClient.getDomainConfig domain w1 = (defaultDomainConfig, w1.now.2) := by
        simp only [RedisClient.getDomainConfig, hv]
      have e2 : RedisClient.getDomainConfig domain w2 = (defaultDomainConfig, w2.now.2) := by
        simp only [RedisClient.getDomainConfig, hkv]
      rw [e1, e2]
      exact ⟨rfl, hk, hc, by simp only [World.now, ht]⟩

/-- The summaries of two lists of entries with the same names, read from two
stores that agree on the key space and the clock, are equal. -/
theorem RedisClient.getAllDomainConfigsLoop_agree (l1 : List DomainEntry) :
    ∀ (l2 : List DomainEntry) (w1 w2 : World),
      l1.map (fun e => e.domain) = l2.map (fun e => e.domain) →
      w1.keys = w2.keys → w1.clock = w2.clock → w1.ticks = w2.ticks →
      (RedisClient.getAllDomainConfigsLoop l1 w1).1 =
        (RedisClient.getAllDomainConfigsLoop l2 w2).1 := by
  induction l1 with
  | nil =>
    intro l2 w1 w2 hn _ _ _
    cases l2 with
    | nil => rfl
    | cons b rest => simp at hn
  | cons a rest ih =>
    intro l2 w1 w2 hn hk hc ht
    cases l2 with
    | nil => simp at hn
    | cons b rest2 =>
      simp only [List.map_cons, List.cons.injEq] at hn
      obtain ⟨h1, h2, h3, h4⟩ := RedisClient.getDomainConfig_agree a.domain w1 w2 hk hc ht
      simp only [RedisClient.getAllDomainConfigsLoop]
      rw [← hn.1, h1, ih rest2 _ (RedisClient.getDomainConfig a.domain w2).2 hn.2 h2 h3 h4]

/-- The response of the server handler on a registry in the current format. -/
theorem serverGetApiDomains_entries (environment : Environment) (w : World)
    (l : List DomainEntry) (hw : w.domains = some (.entries l)) :
    (serverGetApiDomains environment w).1 = (RedisClient.getAllDomainConfigsLoop l w).1 := by
  have hg := getDomains_entries w l hw
  simp only [serverGetApiDomains, initializeConfig, RedisClient.getAllDomainConfigs, hg]
  simp

/-- The text of the `GET /api/domains` handler of `worker.js` (606-613) answers the
stored entries as they are, on a registry in the current format. -/
theorem workerGetApiDomains_entries (w : World) (l : List DomainEntry)
    (hw : w.domains = some (.entries l)) :
    (workerGetApiDomains w).1 = l := by
  simp only [workerGetApiDomains, getDomains_entries w l hw]

/-- C23: the `GET /api/domains` response discloses no verification code and no
`addedAt`.  In the server shell each returned entry is built from `domain`,
`interval`, `lastChecked` and `nextCheckTime` alone, and the response is the same
for two registries that list the same names in the same order, whatever their
verification codes and `addedAt`.  The edge shell, whose module does not load,
gives no response to the request on any store. -/
theorem getApiDomains_hides_codes (environment : Environment) (w1 w2 : World)
    (l1 l2 : List DomainEntry)
    (h1 : w1.domains = some (.entries l1)) (h2 : w2.domains = some (.entries l2))
    (hn : l1.map (fun e => e.domain) = l2.map (fun e => e.domain))
    (hk : w1.keys = w2.keys) (hc : w1.clock = w2.clock) (ht : w1.ticks = w2.ticks) :
    (serverGetApiDomains environment w1).1 = (serverGetApiDomains environment w2).1 ∧
    (serverGetApiDomains environment w1).1 = (RedisClient.getAllDomainConfigsLoop l1 w1).1 ∧
    workerGetApiDomainsResponse w1 = none ∧ workerGetApiDomainsResponse w2 = none := by
  refine ⟨?_, serverGetApiDomains_entries environment w1 l1 h1, rfl, rfl⟩
  rw [serverGetApiDomains_entries environment w1 l1 h1,
    serverGetApiDomains_entries environment w2 l2 h2]
  exact RedisClient.getAllDomainConfigsLoop_agree l1 l2 w1 w2 hn hk hc ht

/-- C23 on the sample registry and the same registry with other codes. -/
theorem getApiDomains_hides_codes_witness :
    (serverGetApiDomains defaultEnvironment sampleWorld).1 =
      (serverGetApiDomains defaultEnvironment recodedWorld).1 ∧
    (serverGetApiDomains defaultEnvironment sampleWorld).1 =
      (RedisClient.getAllDomainConfigsLoop sampleRegistry sampleWorld).1 ∧
    workerGetApiDomainsResponse sampleWorld = none ∧
    workerGetApiDomainsResponse recodedWorld = none :=
  getApiDomains_hides_codes defaultEnvironment sampleWorld recodedWorld
    sampleRegistry recodedRegistry rfl rfl (by decide) rfl rfl rfl

/-! ## The scheduled runner -/

/-- The actions of `executeAllWakeups` on a batch of one domain whose first
request is answered ok: that request, then the success log. -/
theorem executeAllWakeupsEvents_single_ok (config : Config) (domain : String)
    (fetch : Nat → FetchResult) (status : Nat)
    (he : config.hasError = false) (hd : config.domains = [.str domain])
    (hr : 0 ≤ config.retries) (hf : fetch 1 = .response status)
    (hok : responseOk status = true) :
    executeAllWakeupsEvents config (fun _ => fetch) =
      ProbeEvent.request (wakeupUrl domain) ::
        (if config.redisClient then
          [ProbeEvent.saveDomainLog domain
            { status := "成功", statusCode := some status, url := wakeupUrl domain,
              attempts := 1, error := none }]
        else []) := by
  simp only [executeAllWakeupsEvents, he, hd, Bool.false_eq_true, if_false, taskEventsFrom,
    List.append_nil]
  rw [performWakeup_first_ok domain config fetch 1 status (le_refl 1) (by omega)
    (fun j h1 h2 => by omega) hf hok]
  simp [spacedRequests_one]

/-- One step of the scheduled loop on a row that passes the due test. -/
theorem scheduledLoop_due (config : Config) (currentTime : Int)
    (fetch : Nat → Nat → FetchResult) (index : Nat) (row : DomainSummary)
    (rest : List DomainSummary) (w : World)
    (h : shouldCheckDomain row.toDomainConfig currentTime = true) :
    scheduledLoop config currentTime fetch index (row :: rest) w =
      ((row.domain,
          executeAllWakeupsEvents { config with domains := [.str row.domain] }
            (fun _ => fetch index)) ::
        (scheduledLoop config currentTime fetch (index + 1) rest
          (RedisClient.updateDomainLastChecked row.domain
            (applyProbeEvents
              (executeAllWakeupsEvents { config with domains := [.str row.domain] }
                (fun _ => fetch index)) w)).2).1,
       (scheduledLoop config currentTime fetch (index + 1) rest
          (RedisClient.updateDomainLastChecked row.domain
            (applyProbeEvents
              (executeAllWakeupsEvents { config with domains := [.str row.domain] }
                (fun _ => fetch index)) w)).2).2) := by
  simp only [scheduledLoop, h, if_true]

/-- One step of the scheduled loop on a row that fails the due test. -/
theorem scheduledLoop_skip (config : Config) (currentTime : Int)
    (fetch : Nat → Nat → FetchResult) (index : Nat) (row : DomainSummary)
    (rest : List DomainSummary) (w : World)
    (h : shouldCheckDomain row.toDomainConfig currentTime = false) :
    scheduledLoop config currentTime fetch index (row :: rest) w =
      ((row.domain, []) :: (scheduledLoop config currentTime fetch (index + 1) rest w).1,
       (scheduledLoop config currentTime fetch (index + 1) rest w).2) := by
  simp only [scheduledLoop, h, Bool.false_eq_true, if_false]

/-- C21 fails on the code: the registry lists `https://a.example/x`, never
checked and so due, and `https://a.example/x:logs`, checked ten seconds ago and so
not due.  The run probes the first only, and the log of that probe is written
under `domain:https://a.example/x:logs`, which is the config key of the skipped
domain: its stored config is replaced by a log array. -/
theorem runScheduledTask_key_collision :
    configKey "https://a.example/x:logs" = logsKey "https://a.example/x" ∧
    collisionWorld.keys (configKey "https://a.example/x:logs") = some (.config recentlyCheckedConfig) ∧
    (runScheduledTask defaultEnvironment (fun _ => alwaysOk) collisionWorld).1 =
      [("https://a.example/x",
          [ProbeEvent.request "https://a.example/x",
           ProbeEvent.saveDomainLog "https://a.example/x"
             { status := "成功", statusCode := some 200, url := "https://a.example/x",
               attempts := 1, error := none }]),
       ("https://a.example/x:logs", [])] ∧
    (runScheduledTask defaultEnvironment (fun _ => alwaysOk) collisionWorld).2.keys
        (configKey "https://a.example/x:logs") =
      some (.logs [{ timestamp := 1700000002000, status := "成功", statusCode := some 200,
                     url := "https://a.example/x", attempts := 1, error := none }]) := by
  have hrun : runScheduledTask defaultEnvironment (fun _ => alwaysOk) collisionWorld =
      scheduledLoop
        { domains := [.str "https://a.example/x", .str "https://a.example/x:logs"], retries := 2, delay := 2000,
          userAgent := "KeepAlive-Worker/2.0", error := none, redisClient := true }
        1700000001000 (fun _ => alwaysOk) 0
        [summarize "https://a.example/x" defaultDomainConfig,
         summarize "https://a.example/x:logs" (getDomainConfig (some recentlyCheckedConfig) 1700000000000)]
        { collisionWorld with ticks := 2 } := by
    rfl
  have hdue : shouldCheckDomain (summarize "https://a.example/x" defaultDomainConfig).toDomainConfig
      1700000001000 = true := by
    rfl
  have hfields := getDomainConfig_keeps_fields recentlyCheckedConfig 1700000000000 (by decide)
    (by decide) (fun last hlast => by
      have hlast2 : last = 1699999990000 := (Option.some.inj hlast).symm
      rw [hlast2]
      decide)
  have hskip : shouldCheckDomain
      (summarize "https://a.example/x:logs"
        (getDomainConfig (some recentlyCheckedConfig) 1700000000000)).toDomainConfig
      1700000001000 = false := by
    have hl : (summarize "https://a.example/x:logs"
        (getDomainConfig (some recentlyCheckedConfig) 1700000000000)).toDomainConfig.lastChecked
        = some 1699999990000 := by
      simp only [summarize, hfields.2]
      rfl
    have hi : (summarize "https://a.example/x:logs"
        (getDomainConfig (some recentlyCheckedConfig) 1700000000000)).toDomainConfig.interval
        = 5 := by
      simp only [summarize, hfields.1]
      rfl
    have hiff := shouldCheckDomain_some _ 1700000001000 1699999990000 hl
    rw [hi] at hiff
    cases hs : shouldCheckDomain
        (summarize "https://a.example/x:logs"
          (getDomainConfig (some recentlyCheckedConfig) 1700000000000)).toDomainConfig
        1700000001000 with
    | false => rfl
    | true => exact absurd (hiff.mp hs) (by decide)
  have hevents : executeAllWakeupsEvents
      { domains := [.str "https://a.example/x"], retries := 2, delay := 2000,
        userAgent := "KeepAlive-Worker/2.0", error := none, redisClient := true }
      (fun _ => alwaysOk) =
      [ProbeEvent.request "https://a.example/x",
       ProbeEvent.saveDomainLog "https://a.example/x"
         { status := "成功", statusCode := some 200, url := "https://a.example/x",
           attempts := 1, error := none }] := by
    have h := executeAllWakeupsEvents_single_ok
      ({ domains := [.str "https://a.example/x"], retries := 2, delay := 2000,
         userAgent := "KeepAlive-Worker/2.0", error := none, redisClient := true } : Config)
      "https://a.example/x" alwaysOk 200 rfl rfl (by decide) rfl (by decide)
    rw [h]
    decide
  have hkey : configKey "https://a.example/x:logs" = logsKey "https://a.example/x" := by decide
  refine ⟨hkey, by decide, ?_, ?_⟩
  · rw [hrun, scheduledLoop_due _ _ _ _ _ _ _ hdue, scheduledLoop_skip _ _ _ _ _ _ _ hskip]
    simp only [scheduledLoop, summarize]
    rw [hevents]
  · rw [hrun, scheduledLoop_due _ _ _ _ _ _ _ hdue, scheduledLoop_skip _ _ _ _ _ _ _ hskip]
    simp only [scheduledLoop, summarize]
    rw [hevents]
    decide

/-- Every log write of a probe is for the probed domain. -/
theorem performWakeup_log_domain (domain : String) (config : Config)
    (fetch : Nat → FetchResult) (d : String) (logData : LogData)
    (h : ProbeEvent.saveDomainLog d logData ∈ (performWakeup (.str domain) config fetch).events) :
    d = domain := by
  by_cases hr : 0 ≤ config.retries
  · obtain ⟨R, hR⟩ : ∃ R : Nat, config.retries = (R : Int) := ⟨config.retries.toNat, by omega⟩
    rcases performWakeup_run_cases domain config fetch R hR with ⟨i, status, _, _, hrun⟩ | hrun
    · rw [hrun] at h
      have hlog := mem_spacedRequests_append _ _ _ _ d logData h
      split at hlog
      · simp only [List.mem_singleton, ProbeEvent.saveDomainLog.injEq] at hlog
        exact hlog.1
      · simp at hlog
    · rw [hrun] at h
      have hlog := mem_spacedRequests_append _ _ _ _ d logData h
      simp only [failureOutcome] at hlog
      split at hlog
      · simp only [List.mem_singleton, ProbeEvent.saveDomainLog.injEq] at hlog
        exact hlog.1
      · simp at hlog
  · rw [performWakeup_no_attempt domain config fetch (by omega)] at h
    simp only [failureOutcome] at h
    split at h
    · simp only [List.mem_singleton, ProbeEvent.saveDomainLog.injEq] at h
      exact h.1
    · simp at h

/-- Every log write of a batch of one domain is for that domain. -/
theorem executeAllWakeupsEvents_log_domain (config : Config) (domain : String)
    (fetch : Nat → Nat → FetchResult) (d : String) (logData : LogData)
    (h : ProbeEvent.saveDomainLog d logData ∈
      executeAllWakeupsEvents { config with domains := [.str domain] } fetch) :
    d = domain := by
  simp only [executeAllWakeupsEvents, taskEventsFrom, List.append_nil] at h
  split at h
  · simp at h
  · exact performWakeup_log_domain domain _ (fetch 0) d logData h

/-- `saveDomainLog` writes the log key of its domain and no other key. -/
theorem RedisClient.saveDomainLog_frame (domain : String) (logData : LogData) (w : World)
    (key : String) (h : key ≠ logsKey domain) :
    (RedisClient.saveDomainLog domain logData w).2.keys key = w.keys key := by
  simp only [RedisClient.saveDomainLog, World.set, World.now]
  exact Function.update_noteq h _ _

/-- The log writes of a list of actions leave every other key as it is. -/
theorem applyProbeEvents_frame (events : List ProbeEvent) (key : String) :
    ∀ w : World,
      (∀ d logData, ProbeEvent.saveDomainLog d logData ∈ events → key ≠ logsKey d) →
      (applyProbeEvents events w).keys key = w.keys key := by
  induction events with
  | nil => intro w _; rfl
  | cons e rest ih =>
    intro w h
    have hrest : ∀ d logData, ProbeEvent.saveDomainLog d logData ∈ rest → key ≠ logsKey d :=
      fun d logData hmem => h d logData (List.mem_cons_of_mem _ hmem)
    cases e with
    | request url => simp only [applyProbeEvents]; exact ih w hrest
    | sleep ms => simp only [applyProbeEvents]; exact ih w hrest
    | saveDomainLog d logData =>
      simp only [applyProbeEvents]
      rw [ih _ hrest]
      exact RedisClient.saveDomainLog_frame d logData w key
        (h d logData (List.mem_cons_self _ _))

/-- Reading a config writes no key. -/
theorem RedisClient.getDomainConfig_keys (domain : String) (w : World) :
    (RedisClient.getDomainConfig domain w).2.keys = w.keys := by
  simp only [RedisClient.getDomainConfig]
  split <;> rfl

/-- `updateDomainLastChecked` writes the config key of its domain and no other
key. -/
theorem RedisClient.updateDomainLastChecked_frame (domain : String) (w : World)
    (key : String) (h : key ≠ configKey domain) :
    (RedisClient.updateDomainLastChecked domain w).2.keys key = w.keys key := by
  simp only [RedisClient.updateDomainLastChecked, World.set, World.now]
  rw [Function.update_noteq h, RedisClient.getDomainConfig_keys]

/-- The scheduled loop leaves a key as it is when it is neither the config key nor
the log key of a row that passes the due test. -/
theorem scheduledLoop_frame (config : Config) (currentTime : Int)
    (fetch : Nat → Nat → FetchResult) (key : String) (rows : List DomainSummary) :
    ∀ (index : Nat) (w : World),
      (∀ row ∈ rows, shouldCheckDomain row.toDomainConfig currentTime = true →
        key ≠ configKey row.domain ∧ key ≠ logsKey row.domain) →
      (scheduledLoop config currentTime fetch index rows w).2.keys key = w.keys key := by
  induction rows with
  | nil => intro index w _; rfl
  | cons row rest ih =>
    intro index w h
    have hrest : ∀ r ∈ rest, shouldCheckDomain r.toDomainConfig currentTime = true →
        key ≠ configKey r.domain ∧ key ≠ logsKey r.domain :=
      fun r hmem => h r (List.mem_cons_of_mem _ hmem)
    cases hs : shouldCheckDomain row.toDomainConfig currentTime with
    | false =>
      rw [scheduledLoop_skip config currentTime fetch index row rest w hs]
      exact ih (index + 1) w hrest
    | true =>
      obtain ⟨hc, hl⟩ := h row (List.mem_cons_self _ _) hs
      rw [scheduledLoop_due config currentTime fetch index row rest w hs]
      simp only []
      rw [ih (index + 1) _ hrest, RedisClient.updateDomainLastChecked_frame _ _ key hc]
      apply applyProbeEvents_frame
      intro d logData hmem
      rw [executeAllWakeupsEvents_log_domain config row.domain _ d logData hmem]
      exact hl

/-- Reading the registry writes no per-domain key. -/
theorem getDomains_keys (w : World) : (getDomains w).2.keys = w.keys := by
  simp only [getDomains]
  split
  · rfl
  · rfl
  · simp only [setDomains]
    have hup : ∀ (names : List String) (v : World), (upgradeLegacy names v).2.keys = v.keys := by
      intro names
      induction names with
      | nil => intro v; rfl
      | cons n rest ih =>
        intro v
        simp only [upgradeLegacy]
        rw [ih]
        rfl
    exact hup _ w

/-- Reading all configs writes no per-domain key. -/
theorem RedisClient.getAllDomainConfigs_keys (w : World) :
    (RedisClient.getAllDomainConfigs w).2.keys = w.keys := by
  have hloop : ∀ (l : List DomainEntry) (v : World),
      (RedisClient.getAllDomainConfigsLoop l v).2.keys = v.keys := by
    intro l
    induction l with
    | nil => intro v; rfl
    | cons e rest ih =>
      intro v
      simp only [RedisClient.getAllDomainConfigsLoop]
      rw [ih, RedisClient.getDomainConfig_keys]
  simp only [RedisClient.getAllDomainConfigs]
  rw [hloop, getDomains_keys]

/-- A run of `runScheduledTask` leaves a key as it is when it is neither the
config key nor the log key of a domain that passes the due test: without a clash
of key names, the config and the logs of a skipped domain are unchanged. -/
theorem runScheduledTask_frame (environment : Environment) (fetch : Nat → Nat → FetchResult)
    (w : World) (key : String)
    (h : ∀ row ∈ (RedisClient.getAllDomainConfigs (initializeConfig environment w).2).1,
      shouldCheckDomain row.toDomainConfig
          (RedisClient.getAllDomainConfigs (initializeConfig environment w).2).2.now.1 = true →
        key ≠ configKey row.domain ∧ key ≠ logsKey row.domain) :
    (runScheduledTask environment fetch w).2.keys key = w.keys key := by
  simp only [runScheduledTask]
  rw [scheduledLoop_frame _ _ fetch key _ 0 _ h]
  simp only [World.now]
  rw [RedisClient.getAllDomainConfigs_keys]
  simp only [initializeConfig]
  rw [getDomains_keys]

end KeepAlive
